import Mathlib

/-!
# MP3 tag reader / editor: model of `view.c` and `edit.c`

The C sources are embedded as pure Lean functions.

* A byte is a `UInt8`; a buffer or a file is a `List UInt8`.
* `int` is an `Int` kept in the range of 32 bits by `toI32`; `unsigned int` is a `Nat`
  below `2 ^ 32` obtained by `toU32`.
* The host is little-endian: the four bytes read by `fread` into an `int` are its bytes from
  least to most significant (`int_of_bytes`, `bytes_of_int`).
* A stream is its contents and its position.  `fread` and `fwrite` with one element of
  `size` bytes return `1` or `0` as in C; in particular they return `0` when `size` is `0`.
* The output stream is buffered by the C library: `fwrite` answers for the stream, not for
  the device, and the code never flushes or closes it.  The point at which the stream
  reports an error (`WFile.cap`) and the number of bytes that the device keeps
  (`Disk.temp_room`) are two separate facts of the environment.
* The two `while` loops of `edit_tag` and the one of `display_tag` take a `fuel` argument and
  answer `none` when it runs out.  A call without a defined result (a store through the
  unchecked result of `malloc`, a text longer than its array) is answered by `none` too; the
  turn functions `edit_turn` and `edit_turns` keep the two apart.
* Both programs keep the length of the file in `int file_end`; from `2 ^ 31` bytes on the
  value wraps and the frame loops are not entered.
* Buffers are lists: the contents of memory that was never written are not part of the
  model.
-/

namespace Mp3

/-! ## `types.h` -/

def MAX_FRAME_COUNT : Nat := 8

def FRAME_ID_SIZE : Nat := 4

def HEADER_SIZE : Nat := 10

def FLAG_SIZE : Nat := 2

inductive Status where
  | e_success
  | e_failure
  deriving DecidableEq, Repr

open Status

/-- Value of a `Status` returned from `main` as an `int`. -/
def Status.toInt : Status → Int
  | e_success => 0
  | e_failure => 1

inductive OperationType where
  | e_display
  | e_edit
  | e_unsupported
  deriving DecidableEq, Repr

open OperationType

/-! ## Machine integers -/

/-- Conversion of an `int` to `unsigned int`: reduction modulo `2 ^ 32`. -/
def toU32 (i : Int) : Nat := (i % 4294967296).toNat

/-- Conversion of an `unsigned int` to `int`: the two's complement reading of the low 32 bits. -/
def toI32 (u : Nat) : Int :=
  if u % 4294967296 < 2147483648 then ((u % 4294967296 : Nat) : Int)
  else ((u % 4294967296 : Nat) : Int) - 4294967296

/-- Result of an `int` computation, or of storing a `long` into an `int`: wrapped to 32 bits. -/
def wrap32 (i : Int) : Int := toI32 (toU32 i)

/-- The `int` held by four bytes of memory on the little-endian host. -/
def int_of_bytes (bs : List UInt8) : Int :=
  toI32 ((bs.getD 0 0).toNat + 256 * (bs.getD 1 0).toNat + 65536 * (bs.getD 2 0).toNat
    + 16777216 * (bs.getD 3 0).toNat)

/-- The four bytes of memory holding an `int` on the little-endian host. -/
def bytes_of_int (x : Int) : List UInt8 :=
  [UInt8.ofNat (toU32 x % 256), UInt8.ofNat (toU32 x / 256 % 256),
   UInt8.ofNat (toU32 x / 65536 % 256), UInt8.ofNat (toU32 x / 16777216 % 256)]

/-! ## C strings

A list of bytes stands for a region of memory; the string it holds ends before the first
NUL byte, or at the end of the list (where the terminator of a literal or of an argument is).
-/

/-- Bytes of an ASCII literal. -/
def ascii (s : String) : List UInt8 := s.data.map (fun c => UInt8.ofNat c.toNat)

/-- The string held in a buffer: the bytes before the first NUL. -/
def cstr (buf : List UInt8) : List UInt8 := buf.takeWhile (fun b => b != 0)

def strlen (s : List UInt8) : Nat := (cstr s).length

/-- Lexicographic comparison of two strings as unsigned bytes (`strcmp`). -/
def strcmp : List UInt8 → List UInt8 → Int
  | [], [] => 0
  | [], b :: _ => if b = 0 then 0 else - (b.toNat : Int)
  | a :: _, [] => if a = 0 then 0 else (a.toNat : Int)
  | a :: as, b :: bs =>
    if a ≠ b then (a.toNat : Int) - (b.toNat : Int)
    else if a = 0 then 0
    else strcmp as bs

/-- Comparison of at most `n` bytes of two strings (`strncmp`). -/
def strncmp : List UInt8 → List UInt8 → Nat → Int
  | _, _, 0 => 0
  | [], [], _ + 1 => 0
  | [], b :: _, _ + 1 => if b = 0 then 0 else - (b.toNat : Int)
  | a :: _, [], _ + 1 => if a = 0 then 0 else (a.toNat : Int)
  | a :: as, b :: bs, n + 1 =>
    if a ≠ b then (a.toNat : Int) - (b.toNat : Int)
    else if a = 0 then 0
    else strncmp as bs n

/-- Contents of `dst` after `strcpy(dst, src)`: the string of `src`, its terminator, and the
bytes of `dst` that the copy did not reach. -/
def strcpy (dst src : List UInt8) : List UInt8 :=
  cstr src ++ [0] ++ dst.drop ((cstr src).length + 1)

/-! ## Streams -/

/-- Stream opened for reading: contents of the file and position. -/
structure RFile where
  data : List UInt8
  pos : Nat
  deriving DecidableEq, Repr

/-- Stream opened for writing: the bytes handed to the stream so far, the position, and the
number of bytes up to which `fwrite` reports success.  The stream is buffered, so `cap` is not
the room on the device: `fwrite` reports an error only when it has to empty its buffer and
cannot, and bytes that it has accepted may never reach the file (see `Disk.temp_room`). -/
structure WFile where
  data : List UInt8
  pos : Nat
  cap : Nat
  deriving DecidableEq, Repr

/-- Model of `fread(buf, size, 1, f)`: the count returned, the bytes stored, the stream.  A short
read consumes what is left. -/
def fread (size : Nat) (f : RFile) : Nat × List UInt8 × RFile :=
  if size = 0 then (0, [], f)
  else if f.pos + size ≤ f.data.length then
    (1, (f.data.drop f.pos).take size, { f with pos := f.pos + size })
  else (0, f.data.drop f.pos, { f with pos := max f.pos f.data.length })

/-- Model of `fwrite(buf, size, 1, f)`: the count returned and the stream.  The count is `0`
when `size` is `0` and when the stream reports an error, which it does for a write that
would pass `cap` (the stream is then left as it was: what a failed write leaves behind is
used by no caller).  A request for more bytes than `buf` holds, which C leaves undefined, is
counted as failed too.  A write past the end fills the gap with zero bytes. -/
def fwrite (buf : List UInt8) (size : Nat) (f : WFile) : Nat × WFile :=
  if size = 0 then (0, f)
  else if buf.length < size then (0, f)
  else if f.cap < f.pos + size then (0, f)
  else
    (1, { f with
          data := (f.data ++ List.replicate (f.pos - f.data.length) 0).take f.pos
                    ++ buf.take size ++ f.data.drop (f.pos + size)
          pos := f.pos + size })

/-- Position after `fseek(f, off, SEEK_CUR)`; a seek before the start fails and moves nothing. -/
def seek_cur (pos : Nat) (off : Int) : Nat :=
  if 0 ≤ (pos : Int) + off then ((pos : Int) + off).toNat else pos

/-- What the run sees of the file system: the bytes stored under the name given on the
command line, `old_fname` for the editor and `src_mp3_fname` for the viewer (`none` when that
file cannot be opened), whether `temp.mp3` can be created, up to how many bytes the stream
on `temp.mp3` reports success (`temp_cap`), how many bytes of `temp.mp3` the device keeps
(`temp_room`: what the stream has accepted beyond them is lost when its buffer is emptied, at
the latest when the process ends), whether `rename` will succeed, and how many times
`rename` was called.  `old_is_temp` says that the name given designates, under another
spelling or through a link, the file `temp.mp3` of the working directory.  `old_file` after a
run is the file as it is once the process has ended. -/
structure Disk where
  old_file : Option (List UInt8)
  old_is_temp : Bool
  temp_ok : Bool
  temp_cap : Nat
  temp_room : Nat
  rename_ok : Bool
  rename_calls : Nat
  deriving DecidableEq, Repr

/-! ## `view.c` -/

def tags_name : List (List UInt8) :=
  [ascii "TPE1", ascii "TIT2", ascii "TALB", ascii "TYER", ascii "TCON", ascii "TEXT",
   ascii "TCOM", ascii "COMM"]

def tag_labels : List (List UInt8) :=
  [ascii "Artist", ascii "Title", ascii "Album", ascii "Year", ascii "Genre", ascii "Lyricist",
   ascii "Composer", ascii "Comments"]

/-- The structure `TagInfo` of `view.h`; the three arrays have `MAX_FRAME_COUNT` entries. -/
structure TagInfo where
  fptr_src_mp3 : RFile
  src_mp3_fname : List UInt8
  frame_id : List (List UInt8)
  frame_Size : List Int
  frame_data : List (List UInt8)
  deriving DecidableEq, Repr

def read_data_from_file (size : Nat) (f : RFile) : Status × List UInt8 × RFile :=
  match fread size f with
  | (1, buf, f1) => (e_success, buf, f1)
  | (_, buf, f1) => (e_failure, buf, f1)

def read_size_from_file (size : Nat) (f : RFile) : Status × Int × RFile :=
  match fread size f with
  | (1, buf, f1) => (e_success, int_of_bytes buf, f1)
  | (_, buf, f1) => (e_failure, int_of_bytes buf, f1)

def check_frame_index (frame_id : List UInt8) : Status :=
  match (List.range MAX_FRAME_COUNT).find? (fun i => strcmp (tags_name.getD i []) frame_id == 0) with
  | some _ => e_success
  | none => e_failure

def read_frame_id (index : Nat) (tagInfo : TagInfo) : Status × TagInfo :=
  match read_data_from_file 4 tagInfo.fptr_src_mp3 with
  | (e_failure, _, f1) => (e_failure, { tagInfo with fptr_src_mp3 := f1 })
  | (e_success, buf, f1) =>
    let frame_id := buf ++ [0]
    if check_frame_index frame_id = e_failure then
      (e_failure, { tagInfo with fptr_src_mp3 := f1 })
    else
      (e_success, { tagInfo with
                    fptr_src_mp3 := f1
                    frame_id := tagInfo.frame_id.set index
                      (strcpy (tagInfo.frame_id.getD index []) frame_id) })

/-- The byte reordering of `read_frame_size` (lines 173 to 178). -/
def read_frame_size_swap (frame_size : Int) : Int :=
  let b0 := (((toU32 frame_size) &&& 0x000000FF) <<< 24) % 4294967296
  let b1 := (((toU32 frame_size) &&& 0x0000FF00) <<< 8) % 4294967296
  let b2 := ((toU32 frame_size) &&& 0x00FF0000) >>> 8
  let b3 := ((toU32 frame_size) &&& 0xFF000000) >>> 24
  toI32 (b0 ||| b1 ||| b2 ||| b3)

def read_frame_size (index : Nat) (tagInfo : TagInfo) : Status × TagInfo :=
  match read_size_from_file 4 tagInfo.fptr_src_mp3 with
  | (e_failure, _, f1) => (e_failure, { tagInfo with fptr_src_mp3 := f1 })
  | (e_success, frame_size, f1) =>
    (e_success, { tagInfo with
                  fptr_src_mp3 := f1
                  frame_Size := tagInfo.frame_Size.set index (read_frame_size_swap frame_size) })

/-- The function `read_frame_data`.  `malloc` answers `NULL` for a negative `size` (a request
of more than half the address space); the block is `size - 1` bytes read and one NUL. -/
def read_frame_data (index : Nat) (tagInfo : TagInfo) : Status × TagInfo :=
  let size := tagInfo.frame_Size.getD index 0
  if size < 0 then (e_failure, tagInfo)
  else
    match read_data_from_file (toU32 (size - 1)) tagInfo.fptr_src_mp3 with
    | (e_failure, _, f1) => (e_failure, { tagInfo with fptr_src_mp3 := f1 })
    | (e_success, buf, f1) =>
      (e_success, { tagInfo with
                    fptr_src_mp3 := f1
                    frame_data := tagInfo.frame_data.set index (buf ++ [0]) })

/-- The `while` loop of `display_tag` (lines 60 to 82): final status, `index` and table. -/
def display_scan : Nat → Nat → Int → TagInfo → Option (Status × Nat × TagInfo)
  | 0, _, _, _ => none
  | fuel + 1, index, file_end, tagInfo =>
    if index < MAX_FRAME_COUNT ∧ (tagInfo.fptr_src_mp3.pos : Int) < file_end then
      match read_frame_id index tagInfo with
      | (e_failure, t1) =>
        match read_frame_size index t1 with
        | (e_failure, t2) => some (e_failure, index, t2)
        | (e_success, t2) =>
          display_scan fuel index file_end
            { t2 with fptr_src_mp3 :=
                { t2.fptr_src_mp3 with
                  pos := seek_cur t2.fptr_src_mp3.pos (wrap32 (t2.frame_Size.getD index 0 + 2)) } }
      | (e_success, t1) =>
        match read_frame_size index t1 with
        | (e_failure, t2) => some (e_failure, index, t2)
        | (e_success, t2) =>
          match read_frame_data index
              { t2 with fptr_src_mp3 :=
                  { t2.fptr_src_mp3 with pos := seek_cur t2.fptr_src_mp3.pos 3 } } with
          | (e_failure, t3) => some (e_failure, index, t3)
          | (e_success, t3) => display_scan fuel (index + 1) file_end t3
    else some (e_success, index, tagInfo)

/-- The function `display_tag` up to the printing of the table: status, number of entries
recorded and the table. -/
def display_tag (fuel : Nat) (tagInfo : TagInfo) : Option (Status × Nat × TagInfo) :=
  let file_end := wrap32 (tagInfo.fptr_src_mp3.data.length : Int)
  display_scan fuel 0 file_end
    { tagInfo with fptr_src_mp3 := { tagInfo.fptr_src_mp3 with pos := 10 } }

/-- One turn of the `while` loop of `display_tag` (lines 60 to 82), from the test of the
condition: either the result of the scan (the loop ends, or a step fails), or the index and
the state with which the next turn starts. -/
def display_turn (index : Nat) (file_end : Int) (tagInfo : TagInfo) :
    (Status × Nat × TagInfo) ⊕ (Nat × TagInfo) :=
  if index < MAX_FRAME_COUNT ∧ (tagInfo.fptr_src_mp3.pos : Int) < file_end then
    match read_frame_id index tagInfo with
    | (e_failure, t1) =>
      match read_frame_size index t1 with
      | (e_failure, t2) => Sum.inl (e_failure, index, t2)
      | (e_success, t2) =>
        Sum.inr (index,
          { t2 with fptr_src_mp3 :=
              { t2.fptr_src_mp3 with
                pos := seek_cur t2.fptr_src_mp3.pos (wrap32 (t2.frame_Size.getD index 0 + 2)) } })
    | (e_success, t1) =>
      match read_frame_size index t1 with
      | (e_failure, t2) => Sum.inl (e_failure, index, t2)
      | (e_success, t2) =>
        match read_frame_data index
            { t2 with fptr_src_mp3 :=
                { t2.fptr_src_mp3 with pos := seek_cur t2.fptr_src_mp3.pos 3 } } with
        | (e_failure, t3) => Sum.inl (e_failure, index, t3)
        | (e_success, t3) => Sum.inr (index + 1, t3)
  else Sum.inl (e_success, index, tagInfo)

/-- The bytes of memory that end where `argv[i]` starts: the strings `argv[0]` to
`argv[i - 1]`, each with its terminator, lie one after the other, as the system places the
arguments of a program. -/
def argv_before : List (List UInt8) → Nat → List UInt8
  | [], _ => []
  | _ :: _, 0 => []
  | a :: rest, i + 1 => cstr a ++ [0] ++ argv_before rest i

/-- The comparison `strncmp(path + strlen(path) - 4, ".mp3", 4)` for `path = argv[i]`.  For a
path of fewer than 4 bytes it starts in the strings that lie before `argv[i]`; the answer is
`none` when it would start before `argv[0]`. -/
def mp3_suffix_cmp (argv : List (List UInt8)) (i : Nat) (path : List UInt8) : Option Int :=
  if 4 ≤ strlen path then
    some (strncmp ((cstr path).drop (strlen path - 4)) (ascii ".mp3") 4)
  else if (argv_before argv i).length < 4 - strlen path then none
  else
    some (strncmp
      ((argv_before argv i).drop ((argv_before argv i).length - (4 - strlen path))
        ++ cstr path ++ [0])
      (ascii ".mp3") 4)

/-- The function `read_and_validate_args`; `argv` lists `argv[0]` to `argv[argc - 1]`.  The
answer is `none` where the comparison has no defined result (see `mp3_suffix_cmp`). -/
def read_and_validate_args (argv : List (List UInt8)) (tagInfo : TagInfo) :
    Option (Status × TagInfo) :=
  match argv.get? 2 with
  | none => some (e_failure, tagInfo)
  | some path =>
    match mp3_suffix_cmp argv 2 path with
    | none => none
    | some c =>
      if c ≠ 0 then some (e_failure, tagInfo)
      else some (e_success, { tagInfo with src_mp3_fname := cstr path })

/-- The function `check_operation_type`; `none` when `argv[1]` is `NULL`. -/
def check_operation_type (argv : List (List UInt8)) : Option OperationType :=
  match argv.get? 1 with
  | none => none
  | some a =>
    if strcmp a (ascii "-e") = 0 then some e_edit
    else if strcmp a (ascii "-v") = 0 then some e_display
    else some e_unsupported

/-- The function `open_files`: the file named on the command line is `disk.old_file`. -/
def open_files (tagInfo : TagInfo) (disk : Disk) : Status × TagInfo :=
  match disk.old_file with
  | none => (e_failure, tagInfo)
  | some bytes => (e_success, { tagInfo with fptr_src_mp3 := { data := bytes, pos := 0 } })

/-! ## `edit.c` -/

def edit_operation : List (List UInt8) :=
  [ascii "-a", ascii "-t", ascii "-A", ascii "-y", ascii "-m", ascii "-l", ascii "-c", ascii "-C"]

/-- The structure `Edit` of `edit.h`.  `frame_id` and `old_frame_id` are the five bytes of
the arrays; `old_frame_data` is the block obtained from `malloc`; `new_frame_data` is the
string whose copy (with its terminator) `strdup` returned. -/
structure Edit where
  fptr_old : RFile
  fptr_new : WFile
  old_fname : List UInt8
  frame_id : List UInt8
  old_frame_id : List UInt8
  frame_size : Int
  new_frame_size : Int
  old_frame_data : List UInt8
  new_frame_data : List UInt8
  new_fname : List UInt8
  deriving DecidableEq, Repr

def check_edit_operation (op : List UInt8) : Int :=
  match (List.range MAX_FRAME_COUNT).find?
      (fun i => strcmp (edit_operation.getD i []) op == 0) with
  | some i => (i : Int)
  | none => -1

/-- The loop of lines 73 to 77: every remaining argument followed by one space. -/
def concat_args : List (List UInt8) → List UInt8
  | [] => []
  | a :: rest => cstr a ++ [32] ++ concat_args rest

/-- The function `read_and_validate_edit_args`; `argv` lists `argv[0]` to `argv[argc - 1]`, and
the entry after the last is `NULL`.  The answer is `none` where the C code has no defined
behaviour: `argv[2]` is `NULL`, the comparison of the suffix has no defined result (see
`mp3_suffix_cmp`), or the assembled text and its terminator do not fit the 100 bytes of
`buffer`. -/
def read_and_validate_edit_args (argv : List (List UInt8)) (edit : Edit) :
    Option (Status × Edit) :=
  match argv.get? 2 with
  | none => none
  | some op =>
    let index := check_edit_operation op
    if index = -1 then some (e_failure, edit)
    else
      let edit1 := { edit with
        frame_id := strcpy edit.frame_id (tags_name.getD index.toNat []) }
      match argv.get? 3 with
      | none => some (e_failure, edit1)
      | some path =>
        match mp3_suffix_cmp argv 3 path with
        | none => none
        | some c =>
          if c ≠ 0 then some (e_failure, edit1)
          else
            let edit2 := { edit1 with old_fname := cstr path }
            match argv.get? 4 with
            | none => some (e_failure, edit2)
            | some _ =>
              let buffer := concat_args (argv.drop 4)
              if 100 ≤ buffer.length then none
              else
                some (e_success, { edit2 with
                  new_frame_data := buffer
                  new_frame_size := (buffer.length : Int) })

/-- The function `open_edit_files`: status, state and file system.  The second `fopen`, in
mode `wb`, empties `temp.mp3`.  The code does not compare the two names: when the name given
on the command line is `temp.mp3`, the file emptied is the original, on the disk and for the
stream just opened on it; so it is when the name designates that file in another way
(`Disk.old_is_temp`). -/
def open_edit_files (edit : Edit) (disk : Disk) : Status × Edit × Disk :=
  match disk.old_file with
  | none => (e_failure, edit, disk)
  | some bytes =>
    let edit1 := { edit with fptr_old := { data := bytes, pos := 0 }, new_fname := ascii "temp.mp3" }
    if disk.temp_ok then
      if disk.old_is_temp = true ∨ cstr edit.old_fname = ascii "temp.mp3" then
        (e_success,
          { edit1 with fptr_old := { data := [], pos := 0 }
                       fptr_new := { data := [], pos := 0, cap := disk.temp_cap } },
          { disk with old_file := some [] })
      else
        (e_success, { edit1 with fptr_new := { data := [], pos := 0, cap := disk.temp_cap } },
          disk)
    else (e_failure, edit1, disk)

/-- The function `write_data_to_file`; `size` is an `int` that `fwrite` takes as a `size_t`. -/
def write_data_to_file (data : List UInt8) (size : Int) (fptr : WFile) : Status × WFile :=
  match fwrite data (size % 18446744073709551616).toNat fptr with
  | (1, f1) => (e_success, f1)
  | (_, f1) => (e_failure, f1)

def write_size_to_file (data : Int) (size : Int) (fptr : WFile) : Status × WFile :=
  match fwrite (bytes_of_int data) (size % 18446744073709551616).toNat fptr with
  | (1, f1) => (e_success, f1)
  | (_, f1) => (e_failure, f1)

def copy_header_to_file (edit : Edit) : Status × Edit :=
  match read_data_from_file HEADER_SIZE edit.fptr_old with
  | (e_failure, _, f1) => (e_failure, { edit with fptr_old := f1 })
  | (e_success, buffer, f1) =>
    match write_data_to_file buffer HEADER_SIZE edit.fptr_new with
    | (e_failure, g1) => (e_failure, { edit with fptr_old := f1, fptr_new := g1 })
    | (e_success, g1) => (e_success, { edit with fptr_old := f1, fptr_new := g1 })

def read_edit_frame_id (edit : Edit) : Status × Edit :=
  match read_data_from_file FRAME_ID_SIZE edit.fptr_old with
  | (e_failure, _, f1) => (e_failure, { edit with fptr_old := f1 })
  | (e_success, buf, f1) =>
    let frame_id := buf ++ [0]
    match write_data_to_file frame_id FRAME_ID_SIZE edit.fptr_new with
    | (e_failure, g1) => (e_failure, { edit with fptr_old := f1, fptr_new := g1 })
    | (e_success, g1) =>
      (e_success, { edit with
                    fptr_old := f1
                    fptr_new := g1
                    old_frame_id := strcpy edit.old_frame_id frame_id })

/-- The byte reordering of `read_edit_frame_size` (lines 217 to 222). -/
def read_edit_frame_size_swap (frame_size : Int) : Int :=
  let b0 := (((toU32 frame_size) &&& 0x000000FF) <<< 24) % 4294967296
  let b1 := (((toU32 frame_size) &&& 0x0000FF00) <<< 8) % 4294967296
  let b2 := ((toU32 frame_size) &&& 0x00FF0000) >>> 8
  let b3 := ((toU32 frame_size) &&& 0xFF000000) >>> 24
  toI32 (b0 ||| b1 ||| b2 ||| b3)

def read_edit_frame_size (edit : Edit) : Status × Edit :=
  match read_size_from_file 4 edit.fptr_old with
  | (e_failure, _, f1) => (e_failure, { edit with fptr_old := f1 })
  | (e_success, frame_size, f1) =>
    match write_size_to_file frame_size 4 edit.fptr_new with
    | (e_failure, g1) => (e_failure, { edit with fptr_old := f1, fptr_new := g1 })
    | (e_success, g1) =>
      (e_success, { edit with
                    fptr_old := f1
                    fptr_new := g1
                    frame_size := read_edit_frame_size_swap frame_size })

/-- The byte reordering of `replace_edit_frame_size` (lines 234 to 239). -/
def replace_edit_frame_size_swap (frame_size : Int) : Int :=
  let b0 := (((toU32 frame_size) &&& 0x000000FF) <<< 24) % 4294967296
  let b1 := (((toU32 frame_size) &&& 0x0000FF00) <<< 8) % 4294967296
  let b2 := ((toU32 frame_size) &&& 0x00FF0000) >>> 8
  let b3 := ((toU32 frame_size) &&& 0xFF000000) >>> 24
  toI32 (b0 ||| b1 ||| b2 ||| b3)

def replace_edit_frame_size (edit : Edit) : Status × Edit :=
  match write_size_to_file (replace_edit_frame_size_swap edit.new_frame_size) 4 edit.fptr_new with
  | (e_failure, g1) => (e_failure, { edit with fptr_new := g1 })
  | (e_success, g1) => (e_success, { edit with fptr_new := g1 })

/-- The function `read_old_frame_data`: `malloc(size)`, a read of `size - 1` bytes into the
block, then a NUL in its last byte.  The result of `malloc` is not tested.  For a negative
`size` it is `NULL` and for `size` 0 a block without room, while `fread` is asked for
`(uint)(size - 1)` bytes and stores what it finds: when a byte is left in the file the store
goes through `NULL` (the run is killed) or past the block, and the answer is `none`.  When
nothing is left to read nothing is stored and the call returns failure.  Memory is taken to
suffice for a positive `size`. -/
def read_old_frame_data (edit : Edit) : Option (Status × Edit) :=
  let size := edit.frame_size
  if size ≤ 0 ∧ edit.fptr_old.pos < edit.fptr_old.data.length then none
  else
    match read_data_from_file (toU32 (size - 1)) edit.fptr_old with
    | (e_failure, buf, f1) =>
      some (e_failure, { edit with fptr_old := f1, old_frame_data := buf })
    | (e_success, buf, f1) =>
      some (e_success, { edit with fptr_old := f1, old_frame_data := buf ++ [0] })

def write_new_frame_data (edit : Edit) : Status × Edit :=
  match write_data_to_file (edit.new_frame_data ++ [0]) (edit.new_frame_size - 1)
      edit.fptr_new with
  | (e_failure, g1) => (e_failure, { edit with fptr_new := g1 })
  | (e_success, g1) => (e_success, { edit with fptr_new := g1 })

def copy_frame_data_to_file (edit : Edit) : Status × Edit :=
  match write_data_to_file edit.old_frame_data (edit.frame_size - 1) edit.fptr_new with
  | (e_failure, g1) => (e_failure, { edit with fptr_new := g1 })
  | (e_success, g1) => (e_success, { edit with fptr_new := g1 })

def copy_flag_to_file (edit : Edit) : Status × Edit :=
  match read_data_from_file (FLAG_SIZE + 1) edit.fptr_old with
  | (e_failure, _, f1) => (e_failure, { edit with fptr_old := f1 })
  | (e_success, buffer, f1) =>
    match write_data_to_file buffer ((FLAG_SIZE : Int) + 1) edit.fptr_new with
    | (e_failure, g1) => (e_failure, { edit with fptr_old := f1, fptr_new := g1 })
    | (e_success, g1) => (e_success, { edit with fptr_old := f1, fptr_new := g1 })

/-- The function `copy_remainig_data`: one byte at a time until `fread` returns `0`. -/
def copy_remainig_data : Nat → Edit → Option (Status × Edit)
  | 0, _ => none
  | fuel + 1, edit =>
    match fread 1 edit.fptr_old with
    | (1, buffer, f1) =>
      match fwrite buffer 1 edit.fptr_new with
      | (1, g1) => copy_remainig_data fuel { edit with fptr_old := f1, fptr_new := g1 }
      | (_, g1) => some (e_failure, { edit with fptr_old := f1, fptr_new := g1 })
    | (_, _, f1) => some (e_success, { edit with fptr_old := f1 })

/-- The function `replace_old_file`: the result of `rename` is not looked at.  The stream on
`temp.mp3` has not been flushed or closed: of `new_contents`, the bytes that it has accepted,
the file that takes the place of the original holds what the device keeps. -/
def replace_old_file (new_contents : List UInt8) (disk : Disk) : Status × Disk :=
  (e_success, { disk with
                old_file :=
                  if disk.rename_ok then some (new_contents.take disk.temp_room)
                  else disk.old_file
                rename_calls := disk.rename_calls + 1 })

/-- The `while` loop of `edit_tag` (lines 138 to 176); `none` when the fuel runs out and
when `read_old_frame_data` has no defined result. -/
def edit_loop : Nat → Int → Edit → Option (Status × Edit)
  | 0, _, _ => none
  | fuel + 1, file_end, edit =>
    if (edit.fptr_old.pos : Int) < file_end then
      match read_edit_frame_id edit with
      | (e_failure, e1) => some (e_failure, e1)
      | (e_success, e1) =>
        match read_edit_frame_size e1 with
        | (e_failure, e2) => some (e_failure, e2)
        | (e_success, e2) =>
          match copy_flag_to_file e2 with
          | (e_failure, e3) => some (e_failure, e3)
          | (e_success, e3) =>
            match read_old_frame_data e3 with
            | none => none
            | some (e_failure, e4) => some (e_failure, e4)
            | some (e_success, e4) =>
              if strncmp e4.old_frame_id e4.frame_id FRAME_ID_SIZE = 0 then
                match replace_edit_frame_size
                    { e4 with fptr_new := { e4.fptr_new with pos := seek_cur e4.fptr_new.pos (-7) } } with
                | (e_failure, e5) => some (e_failure, e5)
                | (e_success, e5) =>
                  match write_new_frame_data
                      { e5 with fptr_new :=
                          { e5.fptr_new with
                            pos := seek_cur e5.fptr_new.pos ((FLAG_SIZE : Int) + 1) } } with
                  | (e_failure, e6) => some (e_failure, e6)
                  | (e_success, e6) => some (e_success, e6)
              else
                match copy_frame_data_to_file e4 with
                | (e_failure, e5) => some (e_failure, e5)
                | (e_success, e5) => edit_loop fuel file_end e5
    else some (e_success, edit)

/-- What one turn of the `while` loop of `edit_tag` comes to: the loop is left with a status,
the next turn starts from a new state, or `read_old_frame_data` is called without a defined
result. -/
inductive LoopTurn where
  | finished (r : Status × Edit)
  | next (edit : Edit)
  | undefined

/-- One turn of the `while` loop of `edit_tag`: the test and the body (lines 138 to 176). -/
def edit_turn (file_end : Int) (edit : Edit) : LoopTurn :=
  if (edit.fptr_old.pos : Int) < file_end then
    match read_edit_frame_id edit with
    | (e_failure, e1) => LoopTurn.finished (e_failure, e1)
    | (e_success, e1) =>
      match read_edit_frame_size e1 with
      | (e_failure, e2) => LoopTurn.finished (e_failure, e2)
      | (e_success, e2) =>
        match copy_flag_to_file e2 with
        | (e_failure, e3) => LoopTurn.finished (e_failure, e3)
        | (e_success, e3) =>
          match read_old_frame_data e3 with
          | none => LoopTurn.undefined
          | some (e_failure, e4) => LoopTurn.finished (e_failure, e4)
          | some (e_success, e4) =>
            if strncmp e4.old_frame_id e4.frame_id FRAME_ID_SIZE = 0 then
              match replace_edit_frame_size
                  { e4 with fptr_new := { e4.fptr_new with pos := seek_cur e4.fptr_new.pos (-7) } } with
              | (e_failure, e5) => LoopTurn.finished (e_failure, e5)
              | (e_success, e5) =>
                match write_new_frame_data
                    { e5 with fptr_new :=
                        { e5.fptr_new with
                          pos := seek_cur e5.fptr_new.pos ((FLAG_SIZE : Int) + 1) } } with
                | (e_failure, e6) => LoopTurn.finished (e_failure, e6)
                | (e_success, e6) => LoopTurn.finished (e_success, e6)
            else
              match copy_frame_data_to_file e4 with
              | (e_failure, e5) => LoopTurn.finished (e_failure, e5)
              | (e_success, e5) => LoopTurn.next e5
  else LoopTurn.finished (e_success, edit)

/-- The `while` loop of `edit_tag` run for at most `n` turns: how it ended, or the state from
which turn `n + 1` would start. -/
def edit_turns : Nat → Int → Edit → LoopTurn
  | 0, _, edit => LoopTurn.next edit
  | n + 1, file_end, edit =>
    match edit_turn file_end edit with
    | LoopTurn.finished r => LoopTurn.finished r
    | LoopTurn.next e1 => edit_turns n file_end e1
    | LoopTurn.undefined => LoopTurn.undefined

/-- The function `edit_tag`: status, final state of the two streams, and the file system. -/
def edit_tag (fuel : Nat) (edit : Edit) (disk : Disk) : Option (Status × Edit × Disk) :=
  let file_end := wrap32 (edit.fptr_old.data.length : Int)
  match copy_header_to_file { edit with fptr_old := { edit.fptr_old with pos := 0 } } with
  | (e_failure, e1) => some (e_failure, e1, disk)
  | (e_success, e1) =>
    match edit_loop fuel file_end e1 with
    | none => none
    | some (e_failure, e2) => some (e_failure, e2, disk)
    | some (e_success, e2) =>
      match copy_remainig_data fuel e2 with
      | none => none
      | some (e_failure, e3) => some (e_failure, e3, disk)
      | some (e_success, e3) =>
        match replace_old_file e3.fptr_new.data disk with
        | (e_failure, d1) => some (e_failure, e3, d1)
        | (e_success, d1) => some (e_success, e3, d1)

/-! ## `main.c` -/

/-- The function `main`: exit status and file system.  `tagInfo` and `edit` are the two local
structures as they are before anything is stored in them; `argc` is the length of `argv`. -/
def main (fuel : Nat) (argv : List (List UInt8)) (tagInfo : TagInfo) (edit : Edit)
    (disk : Disk) : Option (Int × Disk) :=
  if argv.length < 2 then some (0, disk)
  else
    match argv.get? 1 with
    | none => none
    | some a1 =>
      if strcmp a1 (ascii "--help") = 0 then some (0, disk)
      else if argv.length < 3 then some (-1, disk)
      else
        match check_operation_type argv with
        | none => none
        | some e_unsupported => some (-1, disk)
        | some e_display =>
          if argv.length = 3 then
            match read_and_validate_args argv tagInfo with
            | none => none
            | some (e_failure, _) => some (e_failure.toInt, disk)
            | some (e_success, t1) =>
              match open_files t1 disk with
              | (e_failure, _) => some (e_failure.toInt, disk)
              | (e_success, t2) =>
                match display_tag fuel t2 with
                | none => none
                | some (e_failure, _) => some (e_failure.toInt, disk)
                | some (e_success, _) => some (0, disk)
          else some (-1, disk)
        | some e_edit =>
          if 4 ≤ argv.length then
            match read_and_validate_edit_args argv edit with
            | none => none
            | some (e_failure, _) => some (e_failure.toInt, disk)
            | some (e_success, e1) =>
              match open_edit_files e1 disk with
              | (e_failure, _, d1) => some (e_failure.toInt, d1)
              | (e_success, e2, d1) =>
                match edit_tag fuel e2 d1 with
                | none => none
                | some (e_failure, _, d) => some (e_failure.toInt, d)
                | some (e_success, _, d) => some (0, d)
          else some (-1, disk)

/-! ## File layout used to state the properties -/

/-- A frame as it lies in a file: identifier, size field, flag and reserved bytes, payload. -/
structure Frame where
  id : List UInt8
  size_field : List UInt8
  flags : List UInt8
  payload : List UInt8
  deriving DecidableEq, Repr

def Frame.bytes (f : Frame) : List UInt8 := f.id ++ f.size_field ++ f.flags ++ f.payload

/-- Decoded size: the four bytes of the size field read into an `int` and reordered. -/
def Frame.size (f : Frame) : Int := read_frame_size_swap (int_of_bytes f.size_field)

/-- A complete frame: 4 + 4 + 3 bytes, then one payload byte less than the decoded size. -/
def Frame.Complete (f : Frame) : Prop :=
  f.id.length = 4 ∧ f.size_field.length = 4 ∧ f.flags.length = 3
    ∧ f.size = (f.payload.length : Int) + 1

instance (f : Frame) : Decidable f.Complete := by
  unfold Frame.Complete; infer_instance

def frames_bytes : List Frame → List UInt8
  | [] => []
  | f :: fs => f.bytes ++ frames_bytes fs

/-- The three arrays of the reader have the same lengths in `t` and `u` and the same cells,
the cell `k` of each apart. -/
def TagInfo.same_except (k : Nat) (t u : TagInfo) : Prop :=
  u.frame_id.length = t.frame_id.length ∧ u.frame_Size.length = t.frame_Size.length
    ∧ u.frame_data.length = t.frame_data.length
    ∧ ∀ j, j ≠ k →
        u.frame_id.getD j [] = t.frame_id.getD j []
          ∧ u.frame_Size.getD j 0 = t.frame_Size.getD j 0
          ∧ u.frame_data.getD j [] = t.frame_data.getD j []

/-- The cells `0` to `k - 1` of `frame_id` hold identifiers of the catalog. -/
def TagInfo.catalogued (k : Nat) (t : TagInfo) : Prop :=
  ∀ i, i < k → cstr (t.frame_id.getD i []) ∈ tags_name

/-! ## Example data -/

def demo_header : List UInt8 := List.replicate 10 0

/-- An artist frame `TPE1` of decoded size 3 with payload `ab`. -/
def demo_artist : Frame :=
  { id := ascii "TPE1", size_field := [0, 0, 0, 3], flags := [0, 0, 0], payload := ascii "ab" }

/-- A title frame `TIT2` of decoded size 5 with payload `Test`. -/
def demo_title : Frame :=
  { id := ascii "TIT2", size_field := [0, 0, 0, 5], flags := [0, 0, 0], payload := ascii "Test" }

/-- An unknown frame `XXXX` of decoded size 5 with payload `wxyz`. -/
def demo_other : Frame :=
  { id := ascii "XXXX", size_field := [0, 0, 0, 5], flags := [0, 0, 0], payload := ascii "wxyz" }

/-- Three bytes standing for what follows the tag in a file. -/
def demo_audio : List UInt8 := [255, 251, 144]

/-- Edit request for the title with the text `Song ` on the file `input`, as left by
`read_and_validate_edit_args` and `open_edit_files`. -/
def demo_edit (input : List UInt8) : Edit :=
  { fptr_old := { data := input, pos := 0 }
    fptr_new := { data := [], pos := 0, cap := 1000 }
    old_fname := ascii "a.mp3"
    frame_id := ascii "TIT2" ++ [0]
    old_frame_id := [0, 0, 0, 0, 0]
    frame_size := 0
    new_frame_size := 5
    old_frame_data := []
    new_frame_data := ascii "Song "
    new_fname := ascii "temp.mp3" }

def demo_disk (input : List UInt8) : Disk :=
  { old_file := some input, old_is_temp := false, temp_ok := true, temp_cap := 1000,
    temp_room := 1000, rename_ok := true, rename_calls := 0 }

/-- Zero bytes, `2 ^ 31` of them: with them after the last frame, a file has the length from
which `int file_end` wraps. -/
def demo_padding : List UInt8 := List.replicate 2147483648 0

/-- A complete title frame `TIT2` of decoded size `2 ^ 31 - 1`, the largest that an `int`
holds. -/
def demo_large_title : Frame :=
  { id := ascii "TIT2", size_field := [127, 255, 255, 255], flags := [0, 0, 0],
    payload := List.replicate 2147483646 65 }

/-- The request of `demo_edit` with an output stream that takes `2 ^ 32` bytes. -/
def demo_large_edit (input : List UInt8) : Edit :=
  { demo_edit input with fptr_new := { data := [], pos := 0, cap := 4294967296 } }

/-- The file system of `demo_disk` with room for `2 ^ 32` bytes. -/
def demo_large_disk (input : List UInt8) : Disk :=
  { demo_disk input with temp_cap := 4294967296, temp_room := 4294967296 }

/-- A reader state whose table holds nothing yet, on the file `input`. -/
def demo_tagInfo (input : List UInt8) : TagInfo :=
  { fptr_src_mp3 := { data := input, pos := 0 }
    src_mp3_fname := ascii "a.mp3"
    frame_id := List.replicate 8 [0, 0, 0, 0, 0]
    frame_Size := List.replicate 8 0
    frame_data := List.replicate 8 [] }

/-- A header followed by the unrecognized frame `XXXX` whose size bytes `FF FF FF F6` decode
to -10. -/
def demo_looping : List UInt8 := demo_header ++ ascii "XXXX" ++ [255, 255, 255, 246]

/-- The reader on `demo_looping` after it has met the frame once. -/
def demo_looping_state : TagInfo :=
  { fptr_src_mp3 := { data := demo_looping, pos := 10 }
    src_mp3_fname := ascii "a.mp3"
    frame_id := List.replicate 8 [0, 0, 0, 0, 0]
    frame_Size := [-10, 0, 0, 0, 0, 0, 0, 0]
    frame_data := List.replicate 8 [] }

/-- A complete album frame `TALB` of decoded size 1: it has no payload. -/
def demo_empty : Frame :=
  { id := ascii "TALB", size_field := [0, 0, 0, 1], flags := [0, 0, 0], payload := [] }

/-! ## The replacement text in the words of the specification -/

/-- The replacement text as the specification describes it: the trailing arguments joined by
single spaces, followed by one more space. -/
def spec_joined_text (args : List (List UInt8)) : List UInt8 :=
  [32].intercalate args ++ [32]

/-! ## Machine integers: basic facts -/

theorem toU32_lt (x : Int) : toU32 x < 4294967296 := by
  unfold toU32; omega

theorem toU32_toI32 (u : Nat) : toU32 (toI32 u) = u % 4294967296 := by
  unfold toU32 toI32; split <;> omega

theorem toI32_toU32 (x : Int) (hlo : -2147483648 ≤ x) (hhi : x < 2147483648) :
    toI32 (toU32 x) = x := by
  unfold toU32 toI32; split <;> omega

theorem toI32_of_lt (u : Nat) (h : u < 2147483648) : toI32 u = (u : Int) := by
  unfold toI32; split <;> omega

theorem toI32_range (u : Nat) : -2147483648 ≤ toI32 u ∧ toI32 u < 2147483648 := by
  unfold toI32; split <;> omega

theorem toU32_natCast (n : Nat) (h : n < 4294967296) : toU32 (n : Int) = n := by
  unfold toU32; omega

theorem wrap32_natCast (n : Nat) (h : n < 2147483648) : wrap32 (n : Int) = (n : Int) := by
  unfold wrap32; rw [toU32_natCast n (by omega), toI32_of_lt n h]

theorem u8_toNat_ofNat (n : Nat) (h : n < 256) : (UInt8.ofNat n).toNat = n := by
  simp [UInt8.toNat, UInt8.ofNat, Fin.ofNat, Nat.mod_eq_of_lt h]

theorem u8_ofNat_toNat (b : UInt8) : UInt8.ofNat b.toNat = b := by
  cases b with | mk v =>
  simp [UInt8.toNat, UInt8.ofNat, Fin.ofNat]

theorem u8_toNat_lt (b : UInt8) : b.toNat < 256 := b.val.isLt

theorem int_of_bytes_of_int (x : Int) (hlo : -2147483648 ≤ x) (hhi : x < 2147483648) :
    int_of_bytes (bytes_of_int x) = x := by
  have h := toU32_lt x
  simp only [int_of_bytes, bytes_of_int, List.getD_cons_zero, List.getD_cons_succ]
  rw [u8_toNat_ofNat _ (by omega), u8_toNat_ofNat _ (by omega), u8_toNat_ofNat _ (by omega),
    u8_toNat_ofNat _ (by omega)]
  have : toU32 x % 256 + 256 * (toU32 x / 256 % 256) + 65536 * (toU32 x / 65536 % 256)
      + 16777216 * (toU32 x / 16777216 % 256) = toU32 x := by omega
  rw [this]
  exact toI32_toU32 x hlo hhi

/-! ## The size codec -/

theorem mask_byte (u k : Nat) : u &&& (255 <<< k) = 2 ^ k * (u / 2 ^ k % 256) := by
  apply Nat.eq_of_testBit_eq
  intro i
  have h255 : (255 : Nat) = 2 ^ 8 - 1 := by norm_num
  have h256 : (256 : Nat) = 2 ^ 8 := by norm_num
  rw [Nat.testBit_and, Nat.testBit_shiftLeft, Nat.testBit_mul_pow_two, h256,
    Nat.testBit_mod_two_pow, ← Nat.shiftRight_eq_div_pow, Nat.testBit_shiftRight, h255,
    Nat.testBit_two_pow_sub_one]
  by_cases h : i ≥ k
  · have : k + (i - k) = i := by omega
    simp [h, this, Bool.and_comm]
  · simp [h]

/-- Arithmetic reading of the byte reordering: the four bytes of `u` in the opposite order. -/
theorem swap_bits_eq (u : Nat) (h : u < 4294967296) :
    ((u &&& 0x000000FF) <<< 24) % 4294967296 ||| ((u &&& 0x0000FF00) <<< 8) % 4294967296
        ||| (u &&& 0x00FF0000) >>> 8 ||| (u &&& 0xFF000000) >>> 24
      = 16777216 * (u % 256) + 65536 * (u / 256 % 256) + 256 * (u / 65536 % 256)
        + u / 16777216 := by
  have m0 : u &&& 255 = u % 256 := by simpa using mask_byte u 0
  have m1 : u &&& 65280 = 256 * (u / 256 % 256) := by simpa using mask_byte u 8
  have m2 : u &&& 16711680 = 65536 * (u / 65536 % 256) := by simpa using mask_byte u 16
  have m3 : u &&& 4278190080 = 16777216 * (u / 16777216 % 256) := by
    simpa using mask_byte u 24
  rw [m0, m1, m2, m3]
  simp only [Nat.shiftLeft_eq, Nat.shiftRight_eq_div_pow]
  have e0 : u % 256 * 2 ^ 24 % 4294967296 = 2 ^ 24 * (u % 256) := by omega
  have e1 : 256 * (u / 256 % 256) * 2 ^ 8 % 4294967296 = 2 ^ 16 * (u / 256 % 256) := by omega
  have e2 : 65536 * (u / 65536 % 256) / 2 ^ 8 = 2 ^ 8 * (u / 65536 % 256) := by omega
  have e3 : 16777216 * (u / 16777216 % 256) / 2 ^ 24 = u / 16777216 := by omega
  have o3 : 2 ^ 8 * (u / 65536 % 256) ||| u / 16777216
      = 2 ^ 8 * (u / 65536 % 256) + u / 16777216 :=
    (Nat.mul_add_lt_is_or (by omega) _).symm
  have o2 : 2 ^ 16 * (u / 256 % 256) ||| (2 ^ 8 * (u / 65536 % 256) + u / 16777216)
      = 2 ^ 16 * (u / 256 % 256) + (2 ^ 8 * (u / 65536 % 256) + u / 16777216) :=
    (Nat.mul_add_lt_is_or (by omega) _).symm
  have o1 : 2 ^ 24 * (u % 256)
        ||| (2 ^ 16 * (u / 256 % 256) + (2 ^ 8 * (u / 65536 % 256) + u / 16777216))
      = 2 ^ 24 * (u % 256)
        + (2 ^ 16 * (u / 256 % 256) + (2 ^ 8 * (u / 65536 % 256) + u / 16777216)) :=
    (Nat.mul_add_lt_is_or (by omega) _).symm
  rw [e0, e1, e2, e3, Nat.or_assoc, Nat.or_assoc, o3, o2, o1]
  omega

theorem read_frame_size_swap_eq (x : Int) :
    read_frame_size_swap x
      = toI32 (16777216 * (toU32 x % 256) + 65536 * (toU32 x / 256 % 256)
          + 256 * (toU32 x / 65536 % 256) + toU32 x / 16777216) := by
  unfold read_frame_size_swap
  simp only []
  rw [swap_bits_eq _ (toU32_lt x)]

theorem read_edit_frame_size_swap_eq (x : Int) :
    read_edit_frame_size_swap x
      = toI32 (16777216 * (toU32 x % 256) + 65536 * (toU32 x / 256 % 256)
          + 256 * (toU32 x / 65536 % 256) + toU32 x / 16777216) :=
  read_frame_size_swap_eq x

theorem replace_edit_frame_size_swap_eq (x : Int) :
    replace_edit_frame_size_swap x
      = toI32 (16777216 * (toU32 x % 256) + 65536 * (toU32 x / 256 % 256)
          + 256 * (toU32 x / 65536 % 256) + toU32 x / 16777216) :=
  read_frame_size_swap_eq x

theorem bytes_decompose (u : Nat) (h : u < 4294967296) :
    ∃ p0 p1 p2 p3 : Nat, p0 < 256 ∧ p1 < 256 ∧ p2 < 256 ∧ p3 < 256
      ∧ u % 256 = p0 ∧ u / 256 % 256 = p1 ∧ u / 65536 % 256 = p2 ∧ u / 16777216 = p3
      ∧ u / 16777216 % 256 = p3
      ∧ u = p0 + 256 * p1 + 65536 * p2 + 16777216 * p3 :=
  ⟨u % 256, u / 256 % 256, u / 65536 % 256, u / 16777216, by omega, by omega, by omega,
    by omega, rfl, rfl, rfl, rfl, by omega, by omega⟩

theorem bytes_compose (p0 p1 p2 p3 : Nat) (h0 : p0 < 256) (h1 : p1 < 256) (h2 : p2 < 256)
    (h3 : p3 < 256) :
    (p0 + 256 * p1 + 65536 * p2 + 16777216 * p3) % 256 = p0
      ∧ (p0 + 256 * p1 + 65536 * p2 + 16777216 * p3) / 256 % 256 = p1
      ∧ (p0 + 256 * p1 + 65536 * p2 + 16777216 * p3) / 65536 % 256 = p2
      ∧ (p0 + 256 * p1 + 65536 * p2 + 16777216 * p3) / 16777216 = p3
      ∧ (p0 + 256 * p1 + 65536 * p2 + 16777216 * p3) / 16777216 % 256 = p3
      ∧ p0 + 256 * p1 + 65536 * p2 + 16777216 * p3 < 4294967296 := by
  refine ⟨by omega, by omega, by omega, by omega, by omega, by omega⟩

/-- Bytes of the reordered value, least significant first. -/
theorem toU32_swap (x : Int) :
    toU32 (read_frame_size_swap x)
      = toU32 x / 16777216 + 256 * (toU32 x / 65536 % 256) + 65536 * (toU32 x / 256 % 256)
          + 16777216 * (toU32 x % 256) := by
  have h := toU32_lt x
  rw [read_frame_size_swap_eq, toU32_toI32]
  omega

/-- Reordering twice gives back the 32-bit value. -/
theorem swap_swap (x : Int) (hlo : -2147483648 ≤ x) (hhi : x < 2147483648) :
    read_frame_size_swap (read_frame_size_swap x) = x := by
  rw [read_frame_size_swap_eq (read_frame_size_swap x), toU32_swap]
  obtain ⟨p0, p1, p2, p3, h0, h1, h2, h3, e0, e1, e2, e3, _, e⟩ :=
    bytes_decompose (toU32 x) (toU32_lt x)
  rw [e0, e1, e2, e3]
  obtain ⟨c0, c1, c2, c3, _, _⟩ := bytes_compose p3 p2 p1 p0 h3 h2 h1 h0
  rw [c0, c1, c2, c3]
  have e4 : 16777216 * p3 + 65536 * p2 + 256 * p1 + p0 = toU32 x := by omega
  rw [e4]
  exact toI32_toU32 x hlo hhi

/-- C1: for every 32-bit value `x`, the reordering of `replace_edit_frame_size` (encode)
followed by the one of `read_edit_frame_size`, or of `read_frame_size` (decode), gives `x`. -/
theorem size_codec_round_trip (x : Int) (hlo : -2147483648 ≤ x) (hhi : x < 2147483648) :
    read_edit_frame_size_swap (replace_edit_frame_size_swap x) = x
      ∧ read_frame_size_swap (replace_edit_frame_size_swap x) = x :=
  ⟨swap_swap x hlo hhi, swap_swap x hlo hhi⟩

/-- Instance of C1 at the value `-1234567`. -/
theorem size_codec_round_trip_witness :
    read_edit_frame_size_swap (replace_edit_frame_size_swap (-1234567)) = -1234567
      ∧ read_frame_size_swap (replace_edit_frame_size_swap (-1234567)) = -1234567 :=
  size_codec_round_trip (-1234567) (by decide) (by decide)

/-- C2: the reordering reverses the four bytes of the `int` (positions 0 and 3 exchanged,
1 and 2 exchanged), whatever the value of the top byte, and the three copies of it in
`read_frame_size`, `read_edit_frame_size` and `replace_edit_frame_size` are one function. -/
theorem size_transform_reverses_bytes (x : Int) :
    bytes_of_int (read_frame_size_swap x) = (bytes_of_int x).reverse
      ∧ bytes_of_int (read_edit_frame_size_swap x) = (bytes_of_int x).reverse
      ∧ bytes_of_int (replace_edit_frame_size_swap x) = (bytes_of_int x).reverse
      ∧ read_edit_frame_size_swap x = read_frame_size_swap x
      ∧ replace_edit_frame_size_swap x = read_frame_size_swap x := by
  have key : bytes_of_int (read_frame_size_swap x) = (bytes_of_int x).reverse := by
    simp only [bytes_of_int, toU32_swap, List.reverse_cons, List.reverse_nil, List.nil_append,
      List.cons_append]
    obtain ⟨p0, p1, p2, p3, h0, h1, h2, h3, e0, e1, e2, e3, e3m, _⟩ :=
      bytes_decompose (toU32 x) (toU32_lt x)
    rw [e3m, e0, e1, e2, e3]
    obtain ⟨c0, c1, c2, _, c3, _⟩ := bytes_compose p3 p2 p1 p0 h3 h2 h1 h0
    rw [c0, c1, c2, c3]
  exact ⟨key, key, key, rfl, rfl⟩


theorem u8_toNat_inj (a b : UInt8) (h : a.toNat = b.toNat) : a = b := by
  rw [← u8_ofNat_toNat a, ← u8_ofNat_toNat b, h]

theorem u8_toNat_eq_zero (a : UInt8) : a.toNat = 0 ↔ a = 0 :=
  ⟨fun h => u8_toNat_inj a 0 (by simpa using h), fun h => by subst h; rfl⟩

theorem cstr_nil : cstr [] = [] := rfl

theorem cstr_cons_zero (bs : List UInt8) : cstr (0 :: bs) = [] := by
  simp [cstr, List.takeWhile]

theorem cstr_cons_ne (b : UInt8) (bs : List UInt8) (h : b ≠ 0) : cstr (b :: bs) = b :: cstr bs := by
  have hb : (b != 0) = true := by simpa using h
  simp [cstr, List.takeWhile_cons, hb]

theorem strcmp_eq_zero_iff (a b : List UInt8) : strcmp a b = 0 ↔ cstr a = cstr b := by
  induction a generalizing b with
  | nil =>
    cases b with
    | nil => simp [strcmp]
    | cons y ys =>
      by_cases hy : y = 0
      · subst hy; simp [strcmp, cstr_cons_zero, cstr_nil]
      · have : y.toNat ≠ 0 := fun h => hy ((u8_toNat_eq_zero y).1 h)
        simp [strcmp, hy, cstr_cons_ne, cstr_nil]
        omega
  | cons x xs ih =>
    cases b with
    | nil =>
      by_cases hx : x = 0
      · subst hx; simp [strcmp, cstr_cons_zero, cstr_nil]
      · have : x.toNat ≠ 0 := fun h => hx ((u8_toNat_eq_zero x).1 h)
        simp [strcmp, hx, cstr_cons_ne, cstr_nil]
        omega
    | cons y ys =>
      by_cases hxy : x = y
      · subst hxy
        by_cases hx : x = 0
        · subst hx; simp [strcmp, cstr_cons_zero]
        · simp [strcmp, hx, cstr_cons_ne, ih]
      · have hn : x.toNat ≠ y.toNat := fun h => hxy (u8_toNat_inj x y h)
        have h1 : strcmp (x :: xs) (y :: ys) ≠ 0 := by
          simp [strcmp, hxy]; omega
        have h2 : cstr (x :: xs) ≠ cstr (y :: ys) := by
          by_cases hx : x = 0
          · subst hx
            have hy : y ≠ 0 := fun h => hxy h.symm
            simp [cstr_cons_zero, cstr_cons_ne, hy]
          · by_cases hy : y = 0
            · subst hy; simp [cstr_cons_zero, cstr_cons_ne, hx]
            · simp [cstr_cons_ne, hx, hy, hxy]
        simp [h1, h2]

theorem strncmp_eq_zero_iff (a b : List UInt8) (n : Nat) :
    strncmp a b n = 0 ↔ (cstr a).take n = (cstr b).take n := by
  induction n generalizing a b with
  | zero => simp [strncmp]
  | succ n ih =>
    cases a with
    | nil =>
      cases b with
      | nil => simp [strncmp]
      | cons y ys =>
        by_cases hy : y = 0
        · subst hy; simp [strncmp, cstr_cons_zero, cstr_nil]
        · have : y.toNat ≠ 0 := fun h => hy ((u8_toNat_eq_zero y).1 h)
          simp [strncmp, hy, cstr_cons_ne, cstr_nil]
          omega
    | cons x xs =>
      cases b with
      | nil =>
        by_cases hx : x = 0
        · subst hx; simp [strncmp, cstr_cons_zero, cstr_nil]
        · have : x.toNat ≠ 0 := fun h => hx ((u8_toNat_eq_zero x).1 h)
          simp [strncmp, hx, cstr_cons_ne, cstr_nil]
          omega
      | cons y ys =>
        by_cases hxy : x = y
        · subst hxy
          by_cases hx : x = 0
          · subst hx; simp [strncmp, cstr_cons_zero]
          · simp [strncmp, hx, cstr_cons_ne, ih]
        · have hn : x.toNat ≠ y.toNat := fun h => hxy (u8_toNat_inj x y h)
          have h1 : strncmp (x :: xs) (y :: ys) (n + 1) ≠ 0 := by
            simp [strncmp, hxy]; omega
          have h2 : (cstr (x :: xs)).take (n + 1) ≠ (cstr (y :: ys)).take (n + 1) := by
            by_cases hx : x = 0
            · subst hx
              have hy : y ≠ 0 := fun h => hxy h.symm
              simp [cstr_cons_zero, cstr_cons_ne, hy]
            · by_cases hy : y = 0
              · subst hy; simp [cstr_cons_zero, cstr_cons_ne, hx]
              · simp [cstr_cons_ne, hx, hy, hxy]
          simp [h1, h2]

theorem cstr_eq_self (s : List UInt8) (h : (0 : UInt8) ∉ s) : cstr s = s := by
  induction s with
  | nil => rfl
  | cons x xs ih =>
    have hx : x ≠ 0 := fun e => h (by simp [e])
    rw [cstr_cons_ne x xs hx, ih (fun e => h (List.mem_cons_of_mem _ e))]

theorem cstr_append_zero (s t : List UInt8) : cstr (s ++ 0 :: t) = cstr s := by
  induction s with
  | nil => simp [cstr_cons_zero, cstr_nil]
  | cons x xs ih =>
    by_cases hx : x = 0
    · subst hx; simp [cstr_cons_zero]
    · simp [cstr_cons_ne, hx, ih]

theorem cstr_cstr (s : List UInt8) : cstr (cstr s) = cstr s := by
  induction s with
  | nil => rfl
  | cons x xs ih =>
    by_cases hx : x = 0
    · subst hx; simp [cstr_cons_zero, cstr_nil]
    · simp [cstr_cons_ne, hx, ih]

theorem cstr_length_le (s : List UInt8) : (cstr s).length ≤ s.length := by
  induction s with
  | nil => simp [cstr_nil]
  | cons x xs ih =>
    by_cases hx : x = 0
    · subst hx; simp [cstr_cons_zero]
    · simp [cstr_cons_ne, hx, ih]

theorem cstr_eq_of_length (s : List UInt8) (h : (cstr s).length = s.length) : cstr s = s := by
  induction s with
  | nil => rfl
  | cons x xs ih =>
    by_cases hx : x = 0
    · subst hx; simp [cstr_cons_zero] at h
    · rw [cstr_cons_ne x xs hx] at h ⊢
      simp at h
      rw [ih h]

theorem cstr_strcpy (dst src : List UInt8) : cstr (strcpy dst src) = cstr src := by
  unfold strcpy
  rw [List.append_assoc, List.singleton_append, cstr_append_zero, cstr_cstr]

/-- The comparison of line 153 holds exactly when the four bytes read are the target's. -/
theorem match_iff (stale id tgt : List UInt8) (hid : id.length = 4) (ht : tgt.length = 4)
    (hz : (0 : UInt8) ∉ tgt) :
    strncmp (strcpy stale (id ++ [0])) (tgt ++ [0]) FRAME_ID_SIZE = 0 ↔ id = tgt := by
  rw [strncmp_eq_zero_iff, cstr_strcpy, cstr_append_zero, cstr_append_zero, cstr_eq_self tgt hz]
  have hl := cstr_length_le id
  have t1 : (cstr id).take FRAME_ID_SIZE = cstr id := by
    apply List.take_of_length_le; simp [FRAME_ID_SIZE]; omega
  have t2 : tgt.take FRAME_ID_SIZE = tgt := by
    apply List.take_of_length_le; simp [FRAME_ID_SIZE]; omega
  rw [t1, t2]
  constructor
  · intro h
    have : (cstr id).length = id.length := by rw [h, ht, hid]
    rw [← cstr_eq_of_length id this, h]
  · intro h
    subst h
    exact cstr_eq_self _ hz

/-! ## Streams: reading and writing -/

theorem drop_pos_bound {α} (l : List α) (p : Nat) (xs rest : List α) (h : l.drop p = xs ++ rest)
    (hx : 0 < xs.length) : p + xs.length + rest.length = l.length := by
  have := congrArg List.length h
  simp only [List.length_drop, List.length_append] at this
  omega

theorem drop_add_of_drop {α} (l : List α) (p : Nat) (xs rest : List α)
    (h : l.drop p = xs ++ rest) : l.drop (p + xs.length) = rest := by
  rw [← List.drop_drop, h, List.drop_left]

theorem fread_ok (f : RFile) (xs rest : List UInt8) (h : f.data.drop f.pos = xs ++ rest)
    (hx : 0 < xs.length) :
    fread xs.length f = (1, xs, { f with pos := f.pos + xs.length }) := by
  have hb := drop_pos_bound f.data f.pos xs rest h hx
  unfold fread
  rw [if_neg (by omega), if_pos (by omega), h, List.take_left]

theorem fread_short (f : RFile) (n : Nat) (h : f.data.length < f.pos + n) :
    (fread n f).1 = 0 := by
  unfold fread
  split
  · rfl
  · rw [if_neg (by omega)]

theorem read_data_from_file_ok (f : RFile) (xs rest : List UInt8)
    (h : f.data.drop f.pos = xs ++ rest) (hx : 0 < xs.length) :
    read_data_from_file xs.length f = (e_success, xs, { f with pos := f.pos + xs.length }) := by
  unfold read_data_from_file
  rw [fread_ok f xs rest h hx]

theorem read_data_from_file_short (f : RFile) (n : Nat) (h : f.data.length < f.pos + n) :
    (read_data_from_file n f).1 = e_failure := by
  unfold read_data_from_file
  have := fread_short f n h
  generalize fread n f = r at this
  obtain ⟨c, buf, f1⟩ := r
  simp only at this
  subst this
  rfl

theorem read_data_from_file_zero (f : RFile) : (read_data_from_file 0 f).1 = e_failure := by
  simp [read_data_from_file, fread]

theorem read_size_from_file_ok (f : RFile) (xs rest : List UInt8)
    (h : f.data.drop f.pos = xs ++ rest) (hx : xs.length = 4) :
    read_size_from_file 4 f = (e_success, int_of_bytes xs, { f with pos := f.pos + 4 }) := by
  unfold read_size_from_file
  have := fread_ok f xs rest h (by omega)
  rw [hx] at this
  rw [this]

theorem read_size_from_file_short (f : RFile) (n : Nat) (h : f.data.length < f.pos + n) :
    (read_size_from_file n f).1 = e_failure := by
  unfold read_size_from_file
  have := fread_short f n h
  generalize fread n f = r at this
  obtain ⟨c, buf, f1⟩ := r
  simp only at this
  subst this
  rfl

theorem fwrite_append (buf : List UInt8) (n : Nat) (g : WFile) (hn : 0 < n)
    (hb : n ≤ buf.length) (hp : g.pos = g.data.length) :
    fwrite buf n g =
      if g.data.length + n ≤ g.cap then
        (1, { g with data := g.data ++ buf.take n, pos := g.data.length + n })
      else (0, g) := by
  unfold fwrite
  rw [if_neg (by omega), if_neg (by omega), hp]
  by_cases hc : g.data.length + n ≤ g.cap
  · rw [if_neg (by omega), if_pos hc]
    simp
  · rw [if_pos (by omega), if_neg hc]

theorem write_data_to_file_append (buf : List UInt8) (n : Nat) (g : WFile) (hn : 0 < n)
    (hb : n ≤ buf.length) (hp : g.pos = g.data.length) (hN : n < 18446744073709551616) :
    write_data_to_file buf (n : Int) g =
      if g.data.length + n ≤ g.cap then
        (e_success, { g with data := g.data ++ buf.take n, pos := g.data.length + n })
      else (e_failure, g) := by
  unfold write_data_to_file
  have e : ((n : Int) % 18446744073709551616).toNat = n := by omega
  rw [e, fwrite_append buf n g hn hb hp]
  by_cases hc : g.data.length + n ≤ g.cap
  · rw [if_pos hc, if_pos hc]
  · rw [if_neg hc, if_neg hc]

theorem write_size_to_file_append (x : Int) (g : WFile) (hp : g.pos = g.data.length) :
    write_size_to_file x 4 g =
      if g.data.length + 4 ≤ g.cap then
        (e_success, { g with data := g.data ++ bytes_of_int x, pos := g.data.length + 4 })
      else (e_failure, g) := by
  unfold write_size_to_file
  have e : ((4 : Int) % 18446744073709551616).toNat = 4 := by decide
  rw [e, fwrite_append (bytes_of_int x) 4 g (by decide) (by simp [bytes_of_int]) hp]
  have t : (bytes_of_int x).take 4 = bytes_of_int x := by simp [bytes_of_int]
  rw [t]
  by_cases hc : g.data.length + 4 ≤ g.cap
  · rw [if_pos hc, if_pos hc]
  · rw [if_neg hc, if_neg hc]

/-- Overwriting the four bytes that lie seven bytes before the end. -/
theorem write_size_to_file_patch (x : Int) (g : WFile) (a sz fl : List UInt8)
    (hd : g.data = a ++ sz ++ fl) (hsz : sz.length = 4) (hfl : fl.length = 3)
    (hp : g.pos = a.length) (hcap : g.data.length ≤ g.cap) :
    write_size_to_file x 4 g =
      (e_success, { g with data := a ++ bytes_of_int x ++ fl, pos := a.length + 4 }) := by
  unfold write_size_to_file fwrite
  have e : ((4 : Int) % 18446744073709551616).toNat = 4 := by decide
  have hl : g.data.length = a.length + 7 := by simp [hd, hsz, hfl]
  rw [e, if_neg (by decide), if_neg (by simp [bytes_of_int]), if_neg (by omega)]
  have t : (bytes_of_int x).take 4 = bytes_of_int x := by simp [bytes_of_int]
  simp only [t, hp, hd]
  have d1 : (a ++ sz ++ fl).drop (a.length + 4) = fl := by
    have : a.length + 4 = (a ++ sz).length := by simp [hsz]
    rw [this, List.drop_left]
  have d2 : ((a ++ sz ++ fl) ++ List.replicate (a.length - (a ++ sz ++ fl).length) 0).take a.length
      = a := by
    have : a.length - (a ++ sz ++ fl).length = 0 := by simp
    rw [this]; simp [List.take_append_of_le_length]
  rw [d1, d2]

/-! ## The steps of `edit_tag` -/

theorem Frame.payload_lt (f : Frame) (hc : f.Complete) : f.payload.length + 1 < 2147483648 := by
  have h := hc.2.2.2
  have r := toI32_range ((16777216 * (toU32 (int_of_bytes f.size_field) % 256) + 65536 * (toU32 (int_of_bytes f.size_field) / 256 % 256)
          + 256 * (toU32 (int_of_bytes f.size_field) / 65536 % 256) + toU32 (int_of_bytes f.size_field) / 16777216))
  unfold Frame.size at h
  rw [read_frame_size_swap_eq] at h
  omega

theorem Frame.bytes_length (f : Frame) (hc : f.Complete) :
    f.bytes.length = 11 + f.payload.length := by
  simp [Frame.bytes, hc.1, hc.2.1, hc.2.2.1]; omega

theorem list_length_four (l : List UInt8) (h : l.length = 4) :
    ∃ a b c d, l = [a, b, c, d] := by
  match l, h with
  | [a, b, c, d], _ => exact ⟨a, b, c, d, rfl⟩

theorem bytes_of_int_of_bytes (sz : List UInt8) (h : sz.length = 4) :
    bytes_of_int (int_of_bytes sz) = sz := by
  obtain ⟨a, b, c, d, rfl⟩ := list_length_four sz h
  simp only [bytes_of_int, int_of_bytes, List.getD_cons_zero, List.getD_cons_succ, toU32_toI32]
  obtain ⟨c0, c1, c2, _, c3, c4⟩ := bytes_compose a.toNat b.toNat c.toNat d.toNat
    (u8_toNat_lt a) (u8_toNat_lt b) (u8_toNat_lt c) (u8_toNat_lt d)
  rw [Nat.mod_eq_of_lt c4, c0, c1, c2, c3, u8_ofNat_toNat, u8_ofNat_toNat, u8_ofNat_toNat,
    u8_ofNat_toNat]

theorem read_edit_frame_id_spec (e : Edit) (id rest : List UInt8) (hid : id.length = 4)
    (hR : e.fptr_old.data.drop e.fptr_old.pos = id ++ rest)
    (hW : e.fptr_new.pos = e.fptr_new.data.length) :
    read_edit_frame_id e =
      if e.fptr_new.data.length + 4 ≤ e.fptr_new.cap then
        (e_success, { e with
          fptr_old := { e.fptr_old with pos := e.fptr_old.pos + 4 }
          fptr_new := { e.fptr_new with data := e.fptr_new.data ++ id,
                                        pos := e.fptr_new.data.length + 4 }
          old_frame_id := strcpy e.old_frame_id (id ++ [0]) })
      else
        (e_failure, { e with fptr_old := { e.fptr_old with pos := e.fptr_old.pos + 4 } }) := by
  unfold read_edit_frame_id
  have h1 := read_data_from_file_ok e.fptr_old id rest hR (by omega)
  rw [hid] at h1
  have h2 := write_data_to_file_append (id ++ [0]) 4 e.fptr_new (by decide) (by simp [hid]) hW
    (by decide)
  have t : (id ++ [0]).take 4 = id := by rw [← hid, List.take_left]
  rw [t] at h2
  simp only [FRAME_ID_SIZE, h1]
  rw [h2]
  by_cases hc : e.fptr_new.data.length + 4 ≤ e.fptr_new.cap
  · simp [hc]
  · simp [hc]

theorem read_edit_frame_size_spec (e : Edit) (sz rest : List UInt8) (hsz : sz.length = 4)
    (hR : e.fptr_old.data.drop e.fptr_old.pos = sz ++ rest)
    (hW : e.fptr_new.pos = e.fptr_new.data.length) :
    read_edit_frame_size e =
      if e.fptr_new.data.length + 4 ≤ e.fptr_new.cap then
        (e_success, { e with
          fptr_old := { e.fptr_old with pos := e.fptr_old.pos + 4 }
          fptr_new := { e.fptr_new with data := e.fptr_new.data ++ sz,
                                        pos := e.fptr_new.data.length + 4 }
          frame_size := read_edit_frame_size_swap (int_of_bytes sz) })
      else
        (e_failure, { e with fptr_old := { e.fptr_old with pos := e.fptr_old.pos + 4 } }) := by
  unfold read_edit_frame_size
  have h1 := read_size_from_file_ok e.fptr_old sz rest hR hsz
  have h2 := write_size_to_file_append (int_of_bytes sz) e.fptr_new hW
  rw [bytes_of_int_of_bytes sz hsz] at h2
  simp only [h1]
  rw [h2]
  by_cases hc : e.fptr_new.data.length + 4 ≤ e.fptr_new.cap
  · simp [hc]
  · simp [hc]

theorem copy_flag_to_file_spec (e : Edit) (fl rest : List UInt8) (hfl : fl.length = 3)
    (hR : e.fptr_old.data.drop e.fptr_old.pos = fl ++ rest)
    (hW : e.fptr_new.pos = e.fptr_new.data.length) :
    copy_flag_to_file e =
      if e.fptr_new.data.length + 3 ≤ e.fptr_new.cap then
        (e_success, { e with
          fptr_old := { e.fptr_old with pos := e.fptr_old.pos + 3 }
          fptr_new := { e.fptr_new with data := e.fptr_new.data ++ fl,
                                        pos := e.fptr_new.data.length + 3 } })
      else
        (e_failure, { e with fptr_old := { e.fptr_old with pos := e.fptr_old.pos + 3 } }) := by
  unfold copy_flag_to_file
  have h1 := read_data_from_file_ok e.fptr_old fl rest hR (by omega)
  rw [hfl] at h1
  have h2 := write_data_to_file_append fl 3 e.fptr_new (by decide) (by omega) hW (by decide)
  have t : fl.take 3 = fl := by rw [← hfl, List.take_length]
  rw [t] at h2
  have c : ((FLAG_SIZE : Int) + 1) = ((3 : Nat) : Int) := by decide
  have c2 : FLAG_SIZE + 1 = 3 := rfl
  simp only [c, c2, h1]
  rw [h2]
  by_cases hc : e.fptr_new.data.length + 3 ≤ e.fptr_new.cap
  · simp [hc]
  · simp [hc]

theorem read_old_frame_data_spec (e : Edit) (pl rest : List UInt8)
    (hs : e.frame_size = (pl.length : Int) + 1) (hl : pl.length < 4294967296)
    (hR : e.fptr_old.data.drop e.fptr_old.pos = pl ++ rest) :
    read_old_frame_data e =
      if pl = [] then some (e_failure, { e with old_frame_data := [] })
      else
        some (e_success, { e with
          fptr_old := { e.fptr_old with pos := e.fptr_old.pos + pl.length }
          old_frame_data := pl ++ [0] }) := by
  unfold read_old_frame_data
  have hn : toU32 (e.frame_size - 1) = pl.length := by
    rw [hs]; simp only [add_sub_cancel_right]; exact toU32_natCast _ hl
  simp only [hn]
  rw [if_neg (by rw [hs]; omega)]
  by_cases hp : pl = []
  · subst hp
    simp [read_data_from_file, fread]
  · have hpos : 0 < pl.length := List.length_pos.2 hp
    rw [read_data_from_file_ok e.fptr_old pl rest hR hpos]
    simp [hp]

theorem copy_frame_data_to_file_spec (e : Edit) (pl : List UInt8)
    (hs : e.frame_size = (pl.length : Int) + 1) (hl : pl.length < 4294967296) (hp : pl ≠ [])
    (hd : e.old_frame_data = pl ++ [0])
    (hW : e.fptr_new.pos = e.fptr_new.data.length) :
    copy_frame_data_to_file e =
      if e.fptr_new.data.length + pl.length ≤ e.fptr_new.cap then
        (e_success, { e with
          fptr_new := { e.fptr_new with data := e.fptr_new.data ++ pl,
                                        pos := e.fptr_new.data.length + pl.length } })
      else (e_failure, e) := by
  unfold copy_frame_data_to_file
  have hpos : 0 < pl.length := List.length_pos.2 hp
  have c : e.frame_size - 1 = ((pl.length : Nat) : Int) := by rw [hs]; simp
  have h2 := write_data_to_file_append (pl ++ [0]) pl.length e.fptr_new hpos (by simp) hW
    (by omega)
  rw [List.take_left] at h2
  rw [c, hd, h2]
  by_cases hc : e.fptr_new.data.length + pl.length ≤ e.fptr_new.cap
  · simp [hc]
  · simp only [hc, if_false]
    rw [← hd]


theorem write_data_to_file_exact (buf : List UInt8) (s : Int) (g : WFile)
    (hp : g.pos = g.data.length) :
    write_data_to_file buf s g =
      if 0 < (s % 18446744073709551616).toNat ∧ (s % 18446744073709551616).toNat ≤ buf.length
          ∧ g.data.length + (s % 18446744073709551616).toNat ≤ g.cap then
        (e_success, { g with
          data := g.data ++ buf.take (s % 18446744073709551616).toNat
          pos := g.data.length + (s % 18446744073709551616).toNat })
      else (e_failure, g) := by
  unfold write_data_to_file fwrite
  generalize (s % 18446744073709551616).toNat = n
  by_cases h0 : n = 0
  · simp [h0]
  by_cases h1 : buf.length < n
  · rw [if_neg h0, if_pos h1, if_neg (by omega)]
  by_cases h2 : g.cap < g.pos + n
  · rw [if_neg h0, if_neg h1, if_pos h2, if_neg (by omega)]
  rw [if_neg h0, if_neg h1, if_neg h2, if_pos (by omega), hp]
  simp

theorem seek_cur_back (p k : Nat) (h : k ≤ p) : seek_cur p (-(k : Int)) = p - k := by
  unfold seek_cur
  rw [if_pos (by omega)]
  omega

theorem seek_cur_fwd (p k : Nat) : seek_cur p (k : Int) = p + k := by
  unfold seek_cur
  rw [if_pos (by omega)]
  omega

theorem replace_edit_frame_size_spec (e : Edit) (a sz fl : List UInt8)
    (hd : e.fptr_new.data = a ++ sz ++ fl) (hsz : sz.length = 4) (hfl : fl.length = 3)
    (hp : e.fptr_new.pos = a.length) (hcap : e.fptr_new.data.length ≤ e.fptr_new.cap) :
    replace_edit_frame_size e =
      (e_success, { e with fptr_new := { e.fptr_new with
          data := a ++ bytes_of_int (replace_edit_frame_size_swap e.new_frame_size) ++ fl
          pos := a.length + 4 } }) := by
  unfold replace_edit_frame_size
  rw [write_size_to_file_patch _ e.fptr_new a sz fl hd hsz hfl hp hcap]

theorem write_new_frame_data_spec (e : Edit) (hp : e.fptr_new.pos = e.fptr_new.data.length) :
    write_new_frame_data e =
      if 0 < ((e.new_frame_size - 1) % 18446744073709551616).toNat
          ∧ ((e.new_frame_size - 1) % 18446744073709551616).toNat ≤ e.new_frame_data.length + 1
          ∧ e.fptr_new.data.length + ((e.new_frame_size - 1) % 18446744073709551616).toNat
              ≤ e.fptr_new.cap then
        (e_success, { e with fptr_new := { e.fptr_new with
          data := e.fptr_new.data
            ++ (e.new_frame_data ++ [0]).take
                ((e.new_frame_size - 1) % 18446744073709551616).toNat
          pos := e.fptr_new.data.length
            + ((e.new_frame_size - 1) % 18446744073709551616).toNat } })
      else (e_failure, e) := by
  unfold write_new_frame_data
  rw [write_data_to_file_exact _ _ _ hp]
  simp only [List.length_append, List.length_singleton]
  by_cases hc : 0 < ((e.new_frame_size - 1) % 18446744073709551616).toNat
          ∧ ((e.new_frame_size - 1) % 18446744073709551616).toNat ≤ e.new_frame_data.length + 1
          ∧ e.fptr_new.data.length + ((e.new_frame_size - 1) % 18446744073709551616).toNat
              ≤ e.fptr_new.cap
  · rw [if_pos hc, if_pos hc]
  · rw [if_neg hc, if_neg hc]

/-- Number of bytes that `write_new_frame_data` asks `fwrite` for. -/
theorem new_payload_request (s : Int) (h2 : 2 ≤ s) (h : s < 2147483648) :
    ((s - 1) % 18446744073709551616).toNat = s.toNat - 1 := by
  omega


theorem edit_loop_copy_ok (fuel : Nat) (fe : Int) (e : Edit) (f : Frame)
    (rest tgt : List UInt8) (hc : f.Complete)
    (hR : e.fptr_old.data.drop e.fptr_old.pos = f.bytes ++ rest)
    (hW : e.fptr_new.pos = e.fptr_new.data.length)
    (hfe : fe = (e.fptr_old.data.length : Int))
    (htgt : e.frame_id = tgt ++ [0]) (ht4 : tgt.length = 4) (hz : (0 : UInt8) ∉ tgt)
    (hne : f.id ≠ tgt) (hp : f.payload ≠ [])
    (hcap : e.fptr_new.data.length + f.bytes.length ≤ e.fptr_new.cap) :
    ∃ e', edit_loop (fuel + 1) fe e = edit_loop fuel fe e'
      ∧ e'.fptr_old = { e.fptr_old with pos := e.fptr_old.pos + f.bytes.length }
      ∧ e'.fptr_new = { e.fptr_new with data := e.fptr_new.data ++ f.bytes,
                                        pos := e.fptr_new.data.length + f.bytes.length }
      ∧ e'.frame_id = e.frame_id ∧ e'.new_frame_size = e.new_frame_size
      ∧ e'.new_frame_data = e.new_frame_data := by
  obtain ⟨h1, h2, h3, h4⟩ := hc
  have hc' : f.Complete := ⟨h1, h2, h3, h4⟩
  have hbl := Frame.bytes_length f hc'
  have hpl := Frame.payload_lt f hc'
  have hb := drop_pos_bound _ _ _ _ hR (by omega)
  have hR1 : e.fptr_old.data.drop e.fptr_old.pos
      = f.id ++ (f.size_field ++ (f.flags ++ (f.payload ++ rest))) := by
    rw [hR]; simp [Frame.bytes]
  rw [edit_loop, if_pos (by omega)]
  rw [read_edit_frame_id_spec e f.id _ h1 hR1 hW, if_pos (by omega)]
  simp only []
  have hR2 := drop_add_of_drop _ _ _ _ hR1
  rw [h1] at hR2
  rw [read_edit_frame_size_spec _ f.size_field _ h2 hR2 (by simp [h1]), if_pos (by simp; omega)]
  simp only []
  have hR3 := drop_add_of_drop _ _ _ _ hR2
  rw [h2] at hR3
  rw [copy_flag_to_file_spec _ f.flags _ h3 hR3 (by simp [h1, h2]), if_pos (by simp; omega)]
  simp only []
  have hR4 := drop_add_of_drop _ _ _ _ hR3
  rw [h3] at hR4
  rw [read_old_frame_data_spec _ f.payload rest h4 (by omega) hR4, if_neg hp]
  simp only []
  have hm := match_iff e.old_frame_id f.id tgt h1 ht4 hz
  rw [htgt, if_neg (fun h => hne (hm.1 h))]
  rw [copy_frame_data_to_file_spec _ f.payload h4 (by omega) hp rfl (by simp [h1, h2, h3]),
    if_pos (by simp; omega)]
  simp only []
  refine ⟨_, rfl, ?_, ?_, rfl, rfl, rfl⟩
  · simp [hbl]; omega
  · simp [Frame.bytes, h1, h2, h3]; omega


theorem edit_loop_copy_fail (fuel : Nat) (fe : Int) (e : Edit) (f : Frame)
    (rest tgt : List UInt8) (hc : f.Complete)
    (hR : e.fptr_old.data.drop e.fptr_old.pos = f.bytes ++ rest)
    (hW : e.fptr_new.pos = e.fptr_new.data.length)
    (hfe : fe = (e.fptr_old.data.length : Int))
    (htgt : e.frame_id = tgt ++ [0]) (ht4 : tgt.length = 4) (hz : (0 : UInt8) ∉ tgt)
    (hne : f.id ≠ tgt)
    (hbad : ¬ (f.payload ≠ [] ∧ e.fptr_new.data.length + f.bytes.length ≤ e.fptr_new.cap)) :
    ∃ e', edit_loop (fuel + 1) fe e = some (e_failure, e') := by
  obtain ⟨h1, h2, h3, h4⟩ := hc
  have hc' : f.Complete := ⟨h1, h2, h3, h4⟩
  have hbl := Frame.bytes_length f hc'
  have hpl := Frame.payload_lt f hc'
  have hb := drop_pos_bound _ _ _ _ hR (by omega)
  have hR1 : e.fptr_old.data.drop e.fptr_old.pos
      = f.id ++ (f.size_field ++ (f.flags ++ (f.payload ++ rest))) := by
    rw [hR]; simp [Frame.bytes]
  rw [edit_loop, if_pos (by omega)]
  rw [read_edit_frame_id_spec e f.id _ h1 hR1 hW]
  by_cases c1 : e.fptr_new.data.length + 4 ≤ e.fptr_new.cap
  swap
  · rw [if_neg c1]; exact ⟨_, rfl⟩
  rw [if_pos c1]
  simp only []
  have hR2 := drop_add_of_drop _ _ _ _ hR1
  rw [h1] at hR2
  rw [read_edit_frame_size_spec _ f.size_field _ h2 hR2 (by simp [h1])]
  by_cases c2 : e.fptr_new.data.length + 8 ≤ e.fptr_new.cap
  swap
  · rw [if_neg (by simp; omega)]; exact ⟨_, rfl⟩
  rw [if_pos (by simp; omega)]
  simp only []
  have hR3 := drop_add_of_drop _ _ _ _ hR2
  rw [h2] at hR3
  rw [copy_flag_to_file_spec _ f.flags _ h3 hR3 (by simp [h1, h2])]
  by_cases c3 : e.fptr_new.data.length + 11 ≤ e.fptr_new.cap
  swap
  · rw [if_neg (by simp; omega)]; exact ⟨_, rfl⟩
  rw [if_pos (by simp; omega)]
  simp only []
  have hR4 := drop_add_of_drop _ _ _ _ hR3
  rw [h3] at hR4
  rw [read_old_frame_data_spec _ f.payload rest h4 (by omega) hR4]
  by_cases hp : f.payload = []
  · rw [if_pos hp]; exact ⟨_, rfl⟩
  rw [if_neg hp]
  simp only []
  have hm := match_iff e.old_frame_id f.id tgt h1 ht4 hz
  rw [htgt, if_neg (fun h => hne (hm.1 h))]
  rw [copy_frame_data_to_file_spec _ f.payload h4 (by omega) hp rfl
    (by simp [h1, h2, h3])]
  have c4 : ¬ e.fptr_new.data.length + f.bytes.length ≤ e.fptr_new.cap := fun h => hbad ⟨hp, h⟩
  rw [if_neg (by simp; omega)]
  exact ⟨_, rfl⟩

theorem edit_loop_match (fuel : Nat) (fe : Int) (e : Edit) (f : Frame)
    (rest tgt : List UInt8) (hc : f.Complete)
    (hR : e.fptr_old.data.drop e.fptr_old.pos = f.bytes ++ rest)
    (hW : e.fptr_new.pos = e.fptr_new.data.length)
    (hfe : fe = (e.fptr_old.data.length : Int))
    (htgt : e.frame_id = tgt ++ [0]) (ht4 : tgt.length = 4) (hz : (0 : UInt8) ∉ tgt)
    (hid : f.id = tgt) :
    (f.payload ≠ [] ∧ 0 < ((e.new_frame_size - 1) % 18446744073709551616).toNat
        ∧ ((e.new_frame_size - 1) % 18446744073709551616).toNat ≤ e.new_frame_data.length + 1
        ∧ e.fptr_new.data.length + 11 + ((e.new_frame_size - 1) % 18446744073709551616).toNat
            ≤ e.fptr_new.cap
        ∧ ∃ e', edit_loop (fuel + 1) fe e = some (e_success, e')
          ∧ e'.fptr_old = { e.fptr_old with pos := e.fptr_old.pos + f.bytes.length }
          ∧ e'.fptr_new = { e.fptr_new with
              data := e.fptr_new.data ++ f.id
                ++ bytes_of_int (replace_edit_frame_size_swap e.new_frame_size) ++ f.flags
                ++ (e.new_frame_data ++ [0]).take
                    ((e.new_frame_size - 1) % 18446744073709551616).toNat
              pos := e.fptr_new.data.length + 11
                + ((e.new_frame_size - 1) % 18446744073709551616).toNat })
    ∨ (¬ (f.payload ≠ [] ∧ 0 < ((e.new_frame_size - 1) % 18446744073709551616).toNat
        ∧ ((e.new_frame_size - 1) % 18446744073709551616).toNat ≤ e.new_frame_data.length + 1
        ∧ e.fptr_new.data.length + 11 + ((e.new_frame_size - 1) % 18446744073709551616).toNat
            ≤ e.fptr_new.cap)
        ∧ ∃ e', edit_loop (fuel + 1) fe e = some (e_failure, e')) := by
  obtain ⟨h1, h2, h3, h4⟩ := hc
  have hc' : f.Complete := ⟨h1, h2, h3, h4⟩
  have hbl := Frame.bytes_length f hc'
  have hpl := Frame.payload_lt f hc'
  have hb := drop_pos_bound _ _ _ _ hR (by omega)
  have hR1 : e.fptr_old.data.drop e.fptr_old.pos
      = f.id ++ (f.size_field ++ (f.flags ++ (f.payload ++ rest))) := by
    rw [hR]; simp [Frame.bytes]
  generalize hn : ((e.new_frame_size - 1) % 18446744073709551616).toNat = n
  rw [edit_loop, if_pos (by omega)]
  rw [read_edit_frame_id_spec e f.id _ h1 hR1 hW]
  by_cases c1 : e.fptr_new.data.length + 4 ≤ e.fptr_new.cap
  swap
  · rw [if_neg c1]; exact Or.inr ⟨by omega, _, rfl⟩
  rw [if_pos c1]
  simp only []
  have hR2 := drop_add_of_drop _ _ _ _ hR1
  rw [h1] at hR2
  rw [read_edit_frame_size_spec _ f.size_field _ h2 hR2 (by simp [h1])]
  by_cases c2 : e.fptr_new.data.length + 8 ≤ e.fptr_new.cap
  swap
  · rw [if_neg (by simp; omega)]; exact Or.inr ⟨by omega, _, rfl⟩
  rw [if_pos (by simp; omega)]
  simp only []
  have hR3 := drop_add_of_drop _ _ _ _ hR2
  rw [h2] at hR3
  rw [copy_flag_to_file_spec _ f.flags _ h3 hR3 (by simp [h1, h2])]
  by_cases c3 : e.fptr_new.data.length + 11 ≤ e.fptr_new.cap
  swap
  · rw [if_neg (by simp; omega)]; exact Or.inr ⟨by omega, _, rfl⟩
  rw [if_pos (by simp; omega)]
  simp only []
  have hR4 := drop_add_of_drop _ _ _ _ hR3
  rw [h3] at hR4
  rw [read_old_frame_data_spec _ f.payload rest h4 (by omega) hR4]
  by_cases hp : f.payload = []
  · rw [if_pos hp]; exact Or.inr ⟨fun h => h.1 hp, _, rfl⟩
  rw [if_neg hp]
  simp only []
  have hm := match_iff e.old_frame_id f.id tgt h1 ht4 hz
  rw [htgt, if_pos (hm.2 hid)]
  have hsk : seek_cur ((e.fptr_new.data ++ f.id ++ f.size_field).length + 3) (-7)
      = (e.fptr_new.data ++ f.id).length := by
    have := seek_cur_back ((e.fptr_new.data ++ f.id ++ f.size_field).length + 3) 7
      (by simp [h1, h2])
    simp only [List.length_append, h1, h2] at this ⊢
    rw [show (-7 : Int) = -((7 : Nat) : Int) by rfl, this]
    omega
  rw [hsk]
  rw [replace_edit_frame_size_spec _ (e.fptr_new.data ++ f.id) f.size_field f.flags rfl h2 h3 rfl
    (by simp [h1, h2, h3]; omega)]
  simp only []
  have hsk2 : seek_cur ((e.fptr_new.data ++ f.id).length + 4) ((FLAG_SIZE : Int) + 1)
      = (e.fptr_new.data ++ f.id).length + 4 + 3 := by
    rw [show ((FLAG_SIZE : Int) + 1) = ((3 : Nat) : Int) by rfl, seek_cur_fwd]
  rw [hsk2]
  rw [write_new_frame_data_spec _ (by simp [h1, h3, bytes_of_int])]
  simp only [hn]
  by_cases c4 : 0 < n ∧ n ≤ e.new_frame_data.length + 1
      ∧ e.fptr_new.data.length + 11 + n ≤ e.fptr_new.cap
  · rw [if_pos (by simp [h1, h3, bytes_of_int]; omega)]
    refine Or.inl ⟨hp, c4.1, c4.2.1, c4.2.2, _, rfl, ?_, ?_⟩
    · simp [hbl]; omega
    · simp [h1, h3, bytes_of_int]
  · rw [if_neg (by simp [h1, h3, bytes_of_int]; omega)]
    exact Or.inr ⟨fun h => c4 h.2, _, rfl⟩

theorem copy_header_to_file_spec (e : Edit) (hdr rest : List UInt8) (hh : hdr.length = 10)
    (hR : e.fptr_old.data.drop e.fptr_old.pos = hdr ++ rest)
    (hW : e.fptr_new.pos = e.fptr_new.data.length) :
    copy_header_to_file e =
      if e.fptr_new.data.length + 10 ≤ e.fptr_new.cap then
        (e_success, { e with
          fptr_old := { e.fptr_old with pos := e.fptr_old.pos + 10 }
          fptr_new := { e.fptr_new with data := e.fptr_new.data ++ hdr,
                                        pos := e.fptr_new.data.length + 10 } })
      else
        (e_failure, { e with fptr_old := { e.fptr_old with pos := e.fptr_old.pos + 10 } }) := by
  unfold copy_header_to_file
  have h1 := read_data_from_file_ok e.fptr_old hdr rest hR (by omega)
  rw [hh] at h1
  have h2 := write_data_to_file_append hdr 10 e.fptr_new (by decide) (by omega) hW (by decide)
  have t : hdr.take 10 = hdr := by rw [← hh, List.take_length]
  rw [t] at h2
  simp only [HEADER_SIZE, h1]
  rw [h2]
  by_cases hc : e.fptr_new.data.length + 10 ≤ e.fptr_new.cap
  · simp [hc]
  · simp [hc]

theorem copy_header_to_file_short (e : Edit) (h : e.fptr_old.data.length < e.fptr_old.pos + 10) :
    ∃ e', copy_header_to_file e = (e_failure, e') := by
  unfold copy_header_to_file
  have h1 := read_data_from_file_short e.fptr_old 10 h
  simp only [HEADER_SIZE]
  generalize read_data_from_file 10 e.fptr_old = r at h1
  obtain ⟨s, buf, f1⟩ := r
  simp only at h1
  subst h1
  exact ⟨_, rfl⟩

theorem copy_remainig_data_spec (R : List UInt8) :
    ∀ (fuel : Nat) (e : Edit), e.fptr_old.data.drop e.fptr_old.pos = R →
      e.fptr_new.pos = e.fptr_new.data.length → R.length < fuel →
      e.fptr_new.data.length ≤ e.fptr_new.cap →
      (e.fptr_new.data.length + R.length ≤ e.fptr_new.cap
        ∧ ∃ e', copy_remainig_data fuel e = some (e_success, e')
          ∧ e'.fptr_new.data = e.fptr_new.data ++ R)
      ∨ (¬ e.fptr_new.data.length + R.length ≤ e.fptr_new.cap
        ∧ ∃ e', copy_remainig_data fuel e = some (e_failure, e')) := by
  induction R with
  | nil =>
    intro fuel e hR hW hf hcap
    obtain ⟨k, rfl⟩ : ∃ k, fuel = k + 1 := ⟨fuel - 1, by simp at hf; omega⟩
    left
    refine ⟨by simpa using hcap, ?_⟩
    have hlen : e.fptr_old.data.length ≤ e.fptr_old.pos := by
      have := congrArg List.length hR
      simp at this; omega
    have hfr : fread 1 e.fptr_old
        = (0, e.fptr_old.data.drop e.fptr_old.pos,
            { e.fptr_old with pos := max e.fptr_old.pos e.fptr_old.data.length }) := by
      unfold fread
      rw [if_neg (by decide), if_neg (by omega)]
    rw [copy_remainig_data, hfr]
    exact ⟨_, rfl, by simp⟩
  | cons x R ih =>
    intro fuel e hR hW hf hcap
    obtain ⟨k, rfl⟩ : ∃ k, fuel = k + 1 := ⟨fuel - 1, by simp at hf; omega⟩
    have hR' : e.fptr_old.data.drop e.fptr_old.pos = [x] ++ R := by simpa using hR
    have hfr := fread_ok e.fptr_old [x] R hR' (by simp)
    have hfw := fwrite_append [x] 1 e.fptr_new (by decide) (by simp) hW
    simp only [List.length_singleton] at hfr
    rw [copy_remainig_data, hfr]
    simp only []
    rw [hfw]
    by_cases c : e.fptr_new.data.length + 1 ≤ e.fptr_new.cap
    · rw [if_pos c]
      simp only []
      have hR2 := drop_add_of_drop _ _ _ _ hR'
      simp only [List.length_singleton] at hR2
      rcases ih k
        { e with fptr_old := { e.fptr_old with pos := e.fptr_old.pos + 1 },
                 fptr_new := { e.fptr_new with data := e.fptr_new.data ++ List.take 1 [x],
                                               pos := e.fptr_new.data.length + 1 } }
        hR2 (by simp) (by simp at hf; omega) (by simp; omega) with h | h
      · left
        obtain ⟨hc, e', he, hd⟩ := h
        refine ⟨by simp at hc ⊢; omega, e', he, ?_⟩
        rw [hd]; simp
      · right
        obtain ⟨hc, e', he⟩ := h
        exact ⟨by simp at hc ⊢; omega, e', he⟩
    · rw [if_neg c]
      right
      exact ⟨by simp; omega, _, rfl⟩

theorem frames_bytes_cons (f : Frame) (fs : List Frame) :
    frames_bytes (f :: fs) = f.bytes ++ frames_bytes fs := rfl

/-- The loop run over a sequence of complete frames other than the target: either all are
copied and the loop goes on after them, or the run fails. -/
theorem edit_loop_copy_all (tgt : List UInt8) (ht4 : tgt.length = 4) (hz : (0 : UInt8) ∉ tgt)
    (fe : Int) (B : List Frame) :
    ∀ (fuel : Nat) (e : Edit) (rest : List UInt8),
      (∀ f ∈ B, f.Complete ∧ f.id ≠ tgt) →
      e.fptr_old.data.drop e.fptr_old.pos = frames_bytes B ++ rest →
      e.fptr_new.pos = e.fptr_new.data.length →
      fe = (e.fptr_old.data.length : Int) →
      e.frame_id = tgt ++ [0] →
      e.fptr_new.data.length ≤ e.fptr_new.cap →
      ((∀ f ∈ B, f.payload ≠ [])
        ∧ e.fptr_new.data.length + (frames_bytes B).length ≤ e.fptr_new.cap
        ∧ ∃ e', edit_loop (fuel + B.length) fe e = edit_loop fuel fe e'
          ∧ e'.fptr_old = { e.fptr_old with pos := e.fptr_old.pos + (frames_bytes B).length }
          ∧ e'.fptr_new = { e.fptr_new with
              data := e.fptr_new.data ++ frames_bytes B
              pos := e.fptr_new.data.length + (frames_bytes B).length }
          ∧ e'.frame_id = e.frame_id ∧ e'.new_frame_size = e.new_frame_size
          ∧ e'.new_frame_data = e.new_frame_data)
      ∨ (¬ ((∀ f ∈ B, f.payload ≠ [])
            ∧ e.fptr_new.data.length + (frames_bytes B).length ≤ e.fptr_new.cap)
        ∧ ∃ e', edit_loop (fuel + B.length) fe e = some (e_failure, e')) := by
  induction B with
  | nil =>
    intro fuel e rest _ _ hW _ _ hcap
    left
    refine ⟨by simp, by simpa [frames_bytes] using hcap, e, rfl, ?_, ?_, rfl, rfl, rfl⟩
    · simp [frames_bytes]
    · simp only [frames_bytes, List.append_nil, List.length_nil, Nat.add_zero]
      rw [← hW]
  | cons f B ih =>
    intro fuel e rest hB hR hW hfe htgt hcap
    have hf := hB f (List.mem_cons_self _ _)
    have hB' : ∀ g ∈ B, g.Complete ∧ g.id ≠ tgt := fun g hg => hB g (List.mem_cons_of_mem _ hg)
    have hR1 : e.fptr_old.data.drop e.fptr_old.pos = f.bytes ++ (frames_bytes B ++ rest) := by
      rw [hR, frames_bytes_cons, List.append_assoc]
    have hfuel : fuel + (f :: B).length = (fuel + B.length) + 1 := by simp; omega
    rw [hfuel]
    by_cases hgood : f.payload ≠ [] ∧ e.fptr_new.data.length + f.bytes.length ≤ e.fptr_new.cap
    · obtain ⟨e1, he1, ho1, hn1, hi1, hs1, hd1⟩ :=
        edit_loop_copy_ok (fuel + B.length) fe e f _ tgt hf.1 hR1 hW hfe htgt ht4 hz hf.2
          hgood.1 hgood.2
      have hR2 := drop_add_of_drop _ _ _ _ hR1
      rcases ih fuel e1 rest hB' (by rw [ho1]; exact hR2) (by rw [hn1]; simp)
        (by rw [ho1]; exact hfe) (by rw [hi1]; exact htgt) (by rw [hn1]; simp; omega) with h | h
      · left
        obtain ⟨hp, hc, e2, he2, ho2, hn2, hi2, hs2, hd2⟩ := h
        rw [hn1] at hc
        simp only [List.length_append] at hc
        refine ⟨?_, ?_, e2, by rw [he1, he2], ?_, ?_, by rw [hi2, hi1], by rw [hs2, hs1],
          by rw [hd2, hd1]⟩
        · intro g hg
          rcases List.mem_cons.1 hg with rfl | hg
          · exact hgood.1
          · exact hp g hg
        · simp [frames_bytes_cons]; omega
        · rw [ho2, ho1]; simp [frames_bytes_cons]; omega
        · rw [hn2, hn1]; simp [frames_bytes_cons]; omega
      · right
        obtain ⟨hbad, e2, he2⟩ := h
        refine ⟨?_, e2, by rw [he1, he2]⟩
        intro hall
        apply hbad
        rw [hn1]
        refine ⟨fun g hg => hall.1 g (List.mem_cons_of_mem _ hg), ?_⟩
        have := hall.2
        simp [frames_bytes_cons] at this ⊢
        omega
    · right
      obtain ⟨e1, he1⟩ := edit_loop_copy_fail (fuel + B.length) fe e f _ tgt hf.1 hR1 hW hfe
        htgt ht4 hz hf.2 hgood
      refine ⟨?_, e1, he1⟩
      intro hall
      apply hgood
      refine ⟨hall.1 f (List.mem_cons_self _ _), ?_⟩
      have := hall.2
      simp [frames_bytes_cons] at this
      omega

theorem split_head (A U X Y : List UInt8) (h : A ++ U = X ++ Y) (hl : X.length ≤ A.length) :
    A = X ++ A.drop X.length ∧ A.drop X.length ++ U = Y := by
  have ht : A.take X.length = X := by
    have h' := congrArg (List.take X.length) h
    rw [List.take_append_of_le_length hl, List.take_left] at h'
    exact h'
  have hd : A.drop X.length ++ U = Y := by
    have h' := congrArg (List.drop X.length) h
    rw [List.drop_append_of_le_length hl, List.drop_left] at h'
    exact h'
  refine ⟨?_, hd⟩
  conv_lhs => rw [← List.take_append_drop X.length A]
  rw [ht]

theorem copy_remainig_data_mono (fuel : Nat) :
    ∀ (e : Edit) (r : Status × Edit), copy_remainig_data fuel e = some r →
      copy_remainig_data (fuel + 1) e = some r := by
  induction fuel with
  | zero => intro e r h; simp [copy_remainig_data] at h
  | succ n ih =>
    intro e r h
    rw [copy_remainig_data] at h ⊢
    revert h
    split
    · split
      · exact ih _ _
      · exact id
    · exact id

theorem edit_loop_mono (fuel : Nat) :
    ∀ (fe : Int) (e : Edit) (r : Status × Edit), edit_loop fuel fe e = some r →
      edit_loop (fuel + 1) fe e = some r := by
  induction fuel with
  | zero => intro fe e r h; simp [edit_loop] at h
  | succ n ih =>
    intro fe e r h
    rw [edit_loop] at h ⊢
    revert h
    repeat' split
    all_goals first | exact id | exact ih _ _ _

theorem edit_tag_mono (fuel : Nat) (e : Edit) (disk : Disk) (r : Status × Edit × Disk)
    (h : edit_tag fuel e disk = some r) : edit_tag (fuel + 1) e disk = some r := by
  unfold edit_tag at h ⊢
  revert h
  simp only []
  split
  · exact id
  · rename_i e1 _
    cases hl : edit_loop fuel (wrap32 (e.fptr_old.data.length : Int)) e1 with
    | none => simp
    | some r1 =>
      rw [edit_loop_mono fuel _ _ r1 hl]
      obtain ⟨s1, e2⟩ := r1
      cases s1 with
      | e_failure => exact id
      | e_success =>
        simp only []
        cases hc : copy_remainig_data fuel e2 with
        | none => simp
        | some r2 =>
          rw [copy_remainig_data_mono fuel _ r2 hc]
          exact id

theorem edit_tag_mono_add (k fuel : Nat) (e : Edit) (disk : Disk) (r : Status × Edit × Disk)
    (h : edit_tag fuel e disk = some r) : edit_tag (fuel + k) e disk = some r := by
  induction k with
  | zero => exact h
  | succ k ih => exact edit_tag_mono _ e disk r ih


theorem replace_old_file_status (c : List UInt8) (disk : Disk) :
    (replace_old_file c disk).1 = e_success := rfl

/-- Run of `edit_tag` on a header, complete frames other than the target, a complete frame
with the target identifier and any further bytes: what is written when every step succeeds,
and failure otherwise. -/
theorem edit_tag_found (fuel : Nat) (e : Edit) (disk : Disk) (hdr : List UInt8)
    (B : List Frame) (F : Frame) (R tgt : List UInt8)
    (hh : hdr.length = 10) (hB : ∀ f ∈ B, f.Complete ∧ f.id ≠ tgt)
    (hF : F.Complete) (hid : F.id = tgt)
    (hin : e.fptr_old.data = hdr ++ frames_bytes B ++ F.bytes ++ R)
    (hlen : e.fptr_old.data.length < 2147483648)
    (hnd : e.fptr_new.data = []) (hnp : e.fptr_new.pos = 0)
    (htgt : e.frame_id = tgt ++ [0]) (ht4 : tgt.length = 4) (hz : (0 : UInt8) ∉ tgt)
    (hfB : B.length < fuel) (hfR : R.length < fuel) :
    (((∀ f ∈ B, f.payload ≠ []) ∧ F.payload ≠ []
        ∧ 0 < ((e.new_frame_size - 1) % 18446744073709551616).toNat
        ∧ ((e.new_frame_size - 1) % 18446744073709551616).toNat ≤ e.new_frame_data.length + 1
        ∧ 10 + (frames_bytes B).length + 11
            + ((e.new_frame_size - 1) % 18446744073709551616).toNat + R.length
            ≤ e.fptr_new.cap)
      ∧ ∃ e', edit_tag fuel e disk
          = some (e_success, e',
              (replace_old_file
                (hdr ++ frames_bytes B ++ F.id
                  ++ bytes_of_int (replace_edit_frame_size_swap e.new_frame_size) ++ F.flags
                  ++ (e.new_frame_data ++ [0]).take
                      ((e.new_frame_size - 1) % 18446744073709551616).toNat ++ R) disk).2)
        ∧ e'.fptr_new.data
          = hdr ++ frames_bytes B ++ F.id
              ++ bytes_of_int (replace_edit_frame_size_swap e.new_frame_size) ++ F.flags
              ++ (e.new_frame_data ++ [0]).take
                  ((e.new_frame_size - 1) % 18446744073709551616).toNat ++ R)
    ∨ (¬ ((∀ f ∈ B, f.payload ≠ []) ∧ F.payload ≠ []
        ∧ 0 < ((e.new_frame_size - 1) % 18446744073709551616).toNat
        ∧ ((e.new_frame_size - 1) % 18446744073709551616).toNat ≤ e.new_frame_data.length + 1
        ∧ 10 + (frames_bytes B).length + 11
            + ((e.new_frame_size - 1) % 18446744073709551616).toNat + R.length
            ≤ e.fptr_new.cap)
      ∧ ∃ e', edit_tag fuel e disk = some (e_failure, e', disk)) := by
  obtain ⟨k, rfl⟩ : ∃ k, fuel = k + 1 + B.length := ⟨fuel - 1 - B.length, by omega⟩
  generalize hn : ((e.new_frame_size - 1) % 18446744073709551616).toNat = n
  have hbl := Frame.bytes_length F hF
  unfold edit_tag
  simp only []
  rw [wrap32_natCast _ hlen]
  have hR0 : (e.fptr_old.data).drop 0 = hdr ++ (frames_bytes B ++ (F.bytes ++ R)) := by
    rw [List.drop_zero, hin]; simp
  rw [copy_header_to_file_spec
    { e with fptr_old := { e.fptr_old with pos := 0 } } hdr _ hh hR0 (by simp [hnd, hnp])]
  simp only [hnd, List.length_nil, Nat.zero_add, List.nil_append]
  by_cases c0 : 10 ≤ e.fptr_new.cap
  swap
  · rw [if_neg c0]
    exact Or.inr ⟨by omega, _, rfl⟩
  rw [if_pos c0]
  simp only []
  have hR1 := drop_add_of_drop _ _ _ _ hR0
  rw [hh] at hR1
  rcases edit_loop_copy_all tgt ht4 hz (e.fptr_old.data.length : Int) B (k + 1)
    { e with fptr_old := { e.fptr_old with pos := 10 },
             fptr_new := { e.fptr_new with data := hdr, pos := 10 } }
    (F.bytes ++ R) hB hR1 (by simp [hh]) rfl htgt (by simp [hh]; omega) with h | h
  swap
  · obtain ⟨hbad, e2, he2⟩ := h
    simp only [hh] at hbad
    rw [he2]
    exact Or.inr ⟨fun hc => hbad ⟨hc.1, by omega⟩, _, rfl⟩
  obtain ⟨hBp, hBc, e2, he2, ho2, hn2, hi2, hs2, hd2⟩ := h
  simp only [hh] at hBc ho2 hn2
  simp only at ho2 hn2 hi2 hs2 hd2
  rw [he2]
  have hR2 := drop_add_of_drop _ _ _ _ hR1
  rcases edit_loop_match k (e.fptr_old.data.length : Int) e2 F R tgt hF
    (by rw [ho2]; exact hR2) (by rw [hn2]; simp [hh]) (by rw [ho2]) (by rw [hi2]; exact htgt)
    ht4 hz hid with h | h
  swap
  · obtain ⟨hbad, e3, he3⟩ := h
    rw [hs2, hd2, hn, hn2] at hbad
    simp only [List.length_append, hh] at hbad
    rw [he3]
    exact Or.inr ⟨fun hc => hbad ⟨hc.2.1, hc.2.2.1, hc.2.2.2.1, by omega⟩, _, rfl⟩
  obtain ⟨hFp, hn0, hn1, hFc, e3, he3, ho3, hn3⟩ := h
  rw [hs2, hd2, hn] at hn3
  rw [hs2, hn] at hn0 hFc
  rw [hs2, hd2, hn] at hn1
  rw [hn2] at hFc hn3
  simp only [List.length_append, hh] at hFc hn3
  rw [he3]
  simp only []
  have hR3 := drop_add_of_drop _ _ _ _ hR2
  rcases copy_remainig_data_spec R (k + 1 + B.length) e3 (by rw [ho3, ho2]; exact hR3)
    (by rw [hn3]; simp [hh, hF.1, hF.2.2.1, bytes_of_int]; omega) (by omega)
    (by rw [hn3]; simp [hh, hF.1, hF.2.2.1, bytes_of_int]; omega) with h | h
  swap
  · obtain ⟨hbad, e4, he4⟩ := h
    rw [hn3] at hbad
    simp [hh, hF.1, hF.2.2.1, bytes_of_int] at hbad
    rw [he4]
    exact Or.inr ⟨fun hc => by omega, _, rfl⟩
  obtain ⟨hRc, e4, he4, hd4⟩ := h
  rw [hn3] at hRc hd4
  simp [hh, hF.1, hF.2.2.1, bytes_of_int] at hRc
  rw [he4]
  simp only []
  left
  refine ⟨⟨hBp, hFp, hn0, hn1, by omega⟩, e4, ?_, ?_⟩
  · rw [hd4]
    generalize hOUT : hdr ++ frames_bytes B ++ F.id ++ bytes_of_int (replace_edit_frame_size_swap e.new_frame_size) ++
              F.flags ++ List.take n (e.new_frame_data ++ [0]) ++ R = OUT
    rfl
  · rw [hd4]

/-- Run of `edit_tag` on a header followed by complete frames, none with the target
identifier, up to the end of the file. -/
theorem edit_tag_miss (fuel : Nat) (e : Edit) (disk : Disk) (hdr : List UInt8)
    (B : List Frame) (tgt : List UInt8)
    (hh : hdr.length = 10) (hB : ∀ f ∈ B, f.Complete ∧ f.id ≠ tgt)
    (hin : e.fptr_old.data = hdr ++ frames_bytes B)
    (hlen : e.fptr_old.data.length < 2147483648)
    (hnd : e.fptr_new.data = []) (hnp : e.fptr_new.pos = 0)
    (htgt : e.frame_id = tgt ++ [0]) (ht4 : tgt.length = 4) (hz : (0 : UInt8) ∉ tgt)
    (hfB : B.length < fuel) :
    (((∀ f ∈ B, f.payload ≠ []) ∧ e.fptr_old.data.length ≤ e.fptr_new.cap)
      ∧ ∃ e', edit_tag fuel e disk
          = some (e_success, e', (replace_old_file e.fptr_old.data disk).2)
        ∧ e'.fptr_new.data = e.fptr_old.data)
    ∨ (¬ ((∀ f ∈ B, f.payload ≠ []) ∧ e.fptr_old.data.length ≤ e.fptr_new.cap)
      ∧ ∃ e', edit_tag fuel e disk = some (e_failure, e', disk)) := by
  obtain ⟨k, rfl⟩ : ∃ k, fuel = k + 1 + B.length := ⟨fuel - 1 - B.length, by omega⟩
  have hl : e.fptr_old.data.length = 10 + (frames_bytes B).length := by
    rw [hin]; simp [hh]
  unfold edit_tag
  simp only []
  rw [wrap32_natCast _ hlen]
  have hR0 : (e.fptr_old.data).drop 0 = hdr ++ (frames_bytes B ++ []) := by
    rw [List.drop_zero, hin]; simp
  rw [copy_header_to_file_spec
    { e with fptr_old := { e.fptr_old with pos := 0 } } hdr _ hh hR0 (by simp [hnd, hnp])]
  simp only [hnd, List.length_nil, Nat.zero_add, List.nil_append]
  by_cases c0 : 10 ≤ e.fptr_new.cap
  swap
  · rw [if_neg c0]
    exact Or.inr ⟨by omega, _, rfl⟩
  rw [if_pos c0]
  simp only []
  have hR1 := drop_add_of_drop _ _ _ _ hR0
  rw [hh] at hR1
  rcases edit_loop_copy_all tgt ht4 hz (e.fptr_old.data.length : Int) B (k + 1)
    { e with fptr_old := { e.fptr_old with pos := 10 },
             fptr_new := { e.fptr_new with data := hdr, pos := 10 } }
    [] hB hR1 (by simp [hh]) rfl htgt (by simp [hh]; omega) with h | h
  swap
  · obtain ⟨hbad, e2, he2⟩ := h
    simp only [hh] at hbad
    rw [he2]
    exact Or.inr ⟨fun hc => hbad ⟨hc.1, by omega⟩, _, rfl⟩
  obtain ⟨hBp, hBc, e2, he2, ho2, hn2, hi2, hs2, hd2⟩ := h
  simp only [hh] at hBc ho2 hn2
  rw [he2, edit_loop, if_neg (by rw [ho2]; simp; omega)]
  simp only []
  have hR2 := drop_add_of_drop _ _ _ _ hR1
  rcases copy_remainig_data_spec [] (k + 1 + B.length) e2 (by rw [ho2]; exact hR2)
    (by rw [hn2]; simp [hh]) (by simp) (by rw [hn2]; simp [hh]; omega) with h | h
  swap
  · obtain ⟨hbad, e4, he4⟩ := h
    rw [hn2] at hbad
    simp [hh] at hbad
    omega
  obtain ⟨_, e4, he4, hd4⟩ := h
  rw [hn2] at hd4
  simp only [List.append_nil] at hd4
  rw [he4]
  simp only []
  left
  refine ⟨⟨hBp, by omega⟩, e4, ?_, ?_⟩
  · rw [hd4, hin]
    generalize hdr ++ frames_bytes B = OUT
    rfl
  · rw [hd4, hin]

theorem cstr_append_of_not_mem (s t : List UInt8) (h : (0 : UInt8) ∉ s) :
    cstr (s ++ t) = s ++ cstr t := by
  induction s with
  | nil => rfl
  | cons x xs ih =>
    have hx : x ≠ 0 := fun e => h (by simp [e])
    rw [List.cons_append, cstr_cons_ne x _ hx, ih (fun e => h (List.mem_cons_of_mem _ e))]
    rfl

theorem mp3_suffix_cmp_long (argv : List (List UInt8)) (i : Nat) (path : List UInt8)
    (h : 4 ≤ strlen path) :
    mp3_suffix_cmp argv i path
      = some (strncmp ((cstr path).drop (strlen path - 4)) (ascii ".mp3") 4) := by
  unfold mp3_suffix_cmp
  rw [if_pos h]

/-- Argument parsing for `-t <stem>.mp3 Song`. -/
theorem read_and_validate_edit_args_title (prog stem : List UInt8) (e0 : Edit)
    (hstem : (0 : UInt8) ∉ stem) :
    read_and_validate_edit_args
        [prog, ascii "-e", ascii "-t", stem ++ ascii ".mp3", ascii "Song"] e0
      = some (e_success, { e0 with
          frame_id := strcpy e0.frame_id (ascii "TIT2")
          old_fname := stem ++ ascii ".mp3"
          new_frame_data := ascii "Song "
          new_frame_size := 5 }) := by
  have hc : cstr (stem ++ ascii ".mp3") = stem ++ ascii ".mp3" := by
    rw [cstr_append_of_not_mem _ _ hstem]; rfl
  have hl : strlen (stem ++ ascii ".mp3") = stem.length + 4 := by
    unfold strlen; rw [hc]; simp [ascii]
  have hd : (stem ++ ascii ".mp3").drop (stem.length + 4 - 4) = ascii ".mp3" := by
    simp
  have hi : check_edit_operation (ascii "-t") = 1 := by decide
  have hcmp : strncmp (ascii ".mp3") (ascii ".mp3") 4 = 0 := by decide
  have hbuf : concat_args ([prog, ascii "-e", ascii "-t", stem ++ ascii ".mp3",
      ascii "Song"].drop 4) = ascii "Song " := by
    show concat_args [ascii "Song"] = ascii "Song "
    decide
  unfold read_and_validate_edit_args
  simp only [List.get?, hi]
  rw [if_neg (by decide), mp3_suffix_cmp_long _ _ _ (by rw [hl]; omega)]
  simp only [hl, hc, hd, hcmp, hbuf]
  rw [if_neg (by simp), if_neg (by decide)]
  rfl


theorem strcpy_array (dst src : List UInt8) (h : dst.length ≤ (cstr src).length + 1) :
    strcpy dst src = cstr src ++ [0] := by
  unfold strcpy
  rw [List.drop_of_length_le h, List.append_nil]

theorem wrap32_neg (n : Nat) (h1 : 2147483648 ≤ n) (h2 : n < 4294967296) :
    wrap32 (n : Int) < 0 := by
  unfold wrap32
  rw [toU32_natCast n h2]
  unfold toI32
  rw [Nat.mod_eq_of_lt h2, if_neg (by omega)]
  omega

/-- Run of `edit_tag` when `file_end` is not above 10: the frame loop is not entered and
the whole input is copied. -/
theorem edit_tag_skip (fuel : Nat) (e : Edit) (disk : Disk) (hdr rest : List UInt8)
    (hh : hdr.length = 10) (hin : e.fptr_old.data = hdr ++ rest)
    (hfe : wrap32 (e.fptr_old.data.length : Int) ≤ 10)
    (hnd : e.fptr_new.data = []) (hnp : e.fptr_new.pos = 0)
    (hcap : e.fptr_old.data.length ≤ e.fptr_new.cap) (hfuel : rest.length < fuel) :
    ∃ e', edit_tag fuel e disk
        = some (e_success, e', (replace_old_file e.fptr_old.data disk).2)
      ∧ e'.fptr_new.data = e.fptr_old.data := by
  obtain ⟨k, rfl⟩ : ∃ k, fuel = k + 1 := ⟨fuel - 1, by omega⟩
  have hl : e.fptr_old.data.length = 10 + rest.length := by rw [hin]; simp [hh]
  unfold edit_tag
  simp only []
  have hR0 : (e.fptr_old.data).drop 0 = hdr ++ rest := by rw [List.drop_zero, hin]
  rw [copy_header_to_file_spec
    { e with fptr_old := { e.fptr_old with pos := 0 } } hdr _ hh hR0 (by simp [hnd, hnp])]
  simp only [hnd, List.length_nil, Nat.zero_add, List.nil_append]
  rw [if_pos (by omega)]
  simp only []
  rw [edit_loop, if_neg (by simp only []; omega)]
  simp only []
  have hR1 := drop_add_of_drop _ _ _ _ hR0
  rw [hh] at hR1
  rcases copy_remainig_data_spec rest (k + 1)
    { e with fptr_old := { e.fptr_old with pos := 10 },
             fptr_new := { e.fptr_new with data := hdr, pos := 10 } }
    hR1 (by simp [hh]) hfuel (by simp [hh]; omega) with h | h
  · obtain ⟨_, e2, he2, hd2⟩ := h
    rw [he2]
    simp only []
    simp only [] at hd2
    refine ⟨e2, ?_, ?_⟩
    · rw [hd2, ← hin]; rfl
    · rw [hd2, ← hin]
  · obtain ⟨hbad, _⟩ := h
    simp only [hh] at hbad
    omega

/-- Run of `edit_tag` on a file of `2 ^ 31` bytes or more, and less than `2 ^ 32`:
`file_end` is negative, and the output is the input. -/
theorem edit_tag_large (fuel : Nat) (e : Edit) (disk : Disk)
    (hlo : 2147483648 ≤ e.fptr_old.data.length) (hhi : e.fptr_old.data.length < 4294967296)
    (hnd : e.fptr_new.data = []) (hnp : e.fptr_new.pos = 0)
    (hcap : e.fptr_old.data.length ≤ e.fptr_new.cap)
    (hfuel : e.fptr_old.data.length < fuel) :
    ∃ e', edit_tag fuel e disk
        = some (e_success, e', (replace_old_file e.fptr_old.data disk).2)
      ∧ e'.fptr_new.data = e.fptr_old.data := by
  have hw := wrap32_neg e.fptr_old.data.length hlo hhi
  exact edit_tag_skip fuel e disk (e.fptr_old.data.take 10) (e.fptr_old.data.drop 10)
    (by rw [List.length_take]; omega) (List.take_append_drop 10 _).symm (by omega) hnd hnp hcap
    (by rw [List.length_drop]; omega)

/-- Length of the example file that ends in `2 ^ 31` zero bytes. -/
theorem demo_padding_length : demo_padding.length = 2147483648 := by
  unfold demo_padding
  exact List.length_replicate _ _

/-- Length of the example frame of the largest size. -/
theorem demo_large_title_length : demo_large_title.bytes.length = 2147483657 := by
  have a1 : (ascii "TIT2").length = 4 := rfl
  simp only [Frame.bytes, demo_large_title, List.length_append, List.length_replicate, a1,
    List.length_cons, List.length_nil]

/-! ## Properties of the rewriter -/

/-- C3 (structural preservation): the input is a 10-byte header, complete frames `B` whose
identifiers differ from the target, the first frame `F` with the target identifier, and any
bytes `R`; the file is shorter than `2 ^ 31` bytes, the bound of `int file_end`.  When
`edit_tag` reports success, the output is the header, the bytes of `B`, the identifier of `F`,
four size bytes, the flag and reserved bytes of `F`, a payload, and `R`: all but the size field
and the payload of `F` is the input, in the same order. -/
theorem edit_tag_structural_preservation (fuel : Nat) (e e' : Edit) (disk disk' : Disk)
    (hdr : List UInt8) (B : List Frame) (F : Frame) (R tgt : List UInt8)
    (hh : hdr.length = 10) (hB : ∀ f ∈ B, f.Complete ∧ f.id ≠ tgt)
    (hF : F.Complete) (hid : F.id = tgt)
    (hin : e.fptr_old.data = hdr ++ frames_bytes B ++ F.bytes ++ R)
    (hlen : e.fptr_old.data.length < 2147483648)
    (hnd : e.fptr_new.data = []) (hnp : e.fptr_new.pos = 0)
    (htgt : e.frame_id = tgt ++ [0]) (ht4 : tgt.length = 4) (hz : (0 : UInt8) ∉ tgt)
    (hrun : edit_tag fuel e disk = some (e_success, e', disk')) :
    ∃ sz pl : List UInt8, sz.length = 4
      ∧ e'.fptr_new.data = hdr ++ frames_bytes B ++ F.id ++ sz ++ F.flags ++ pl ++ R := by
  have hrun2 := edit_tag_mono_add (B.length + R.length + 1) fuel e disk _ hrun
  rcases edit_tag_found (fuel + (B.length + R.length + 1)) e disk hdr B F R tgt hh hB hF hid hin
    hlen hnd hnp htgt ht4 hz (by omega) (by omega) with h | h
  · obtain ⟨_, e2, he2, hd2⟩ := h
    rw [hrun2] at he2
    have he : e' = e2 := by
      have := Option.some.inj he2
      exact (Prod.mk.inj (Prod.mk.inj this).2).1
    subst he
    exact ⟨_, _, by simp [bytes_of_int], hd2⟩
  · obtain ⟨_, e2, he2⟩ := h
    rw [hrun2] at he2
    have := (Prod.mk.inj (Option.some.inj he2)).1
    cases this

/-- Instance of C3: header, `TPE1` frame, `TIT2` frame and three further bytes, edited with
the text `Song `. -/
theorem edit_tag_structural_preservation_witness :
    ∃ sz pl : List UInt8, sz.length = 4
      ∧ [0, 0, 0, 0, 0, 0, 0, 0, 0, 0, 84, 80, 69, 49, 0, 0, 0, 3, 0, 0, 0, 97, 98,
          84, 73, 84, 50, 0, 0, 0, 5, 0, 0, 0, 83, 111, 110, 103, 255, 251, 144]
        = demo_header ++ frames_bytes [demo_artist] ++ demo_title.id ++ sz ++ demo_title.flags
            ++ pl ++ demo_audio :=
  edit_tag_structural_preservation 5
    (demo_edit (demo_header ++ frames_bytes [demo_artist] ++ demo_title.bytes ++ demo_audio))
    { fptr_old := { data := demo_header ++ frames_bytes [demo_artist] ++ demo_title.bytes
                      ++ demo_audio, pos := 41 }
      fptr_new := { data := [0, 0, 0, 0, 0, 0, 0, 0, 0, 0, 84, 80, 69, 49, 0, 0, 0, 3, 0, 0, 0,
                      97, 98, 84, 73, 84, 50, 0, 0, 0, 5, 0, 0, 0, 83, 111, 110, 103, 255, 251,
                      144], pos := 41, cap := 1000 }
      old_fname := ascii "a.mp3"
      frame_id := ascii "TIT2" ++ [0]
      old_frame_id := ascii "TIT2" ++ [0]
      frame_size := 5
      new_frame_size := 5
      old_frame_data := ascii "Test" ++ [0]
      new_frame_data := ascii "Song "
      new_fname := ascii "temp.mp3" }
    (demo_disk (demo_header ++ frames_bytes [demo_artist] ++ demo_title.bytes ++ demo_audio))
    { old_file := some [0, 0, 0, 0, 0, 0, 0, 0, 0, 0, 84, 80, 69, 49, 0, 0, 0, 3, 0, 0, 0, 97, 98,
          84, 73, 84, 50, 0, 0, 0, 5, 0, 0, 0, 83, 111, 110, 103, 255, 251, 144]
      old_is_temp := false, temp_ok := true, temp_cap := 1000, temp_room := 1000,
      rename_ok := true,
      rename_calls := 1 }
    demo_header [demo_artist] demo_title demo_audio (ascii "TIT2")
    (by decide) (by decide) (by decide) (by decide) (by decide) (by decide) (by decide)
    (by decide) (by decide) (by decide) (by decide) (by decide)

/-- C4, as stated, fails: with `new_frame_data` the five bytes `Song ` and `new_frame_size` 5,
the frame written has a size field `00 00 00 05`, which decodes to 5 and not to 6, and the four
payload bytes `Song`, not the five bytes of `new_frame_data`. -/
theorem new_frame_size_counterexample :
    (demo_edit []).new_frame_size = ((demo_edit []).new_frame_data.length : Int)
      ∧ (edit_tag 5 (demo_edit (demo_header ++ demo_title.bytes ++ demo_audio))
            (demo_disk (demo_header ++ demo_title.bytes ++ demo_audio))).map
          (fun r => (r.1, r.2.1.fptr_new.data))
        = some (e_success,
            demo_header ++ ascii "TIT2" ++ [0, 0, 0, 5] ++ [0, 0, 0] ++ ascii "Song" ++ demo_audio)
      ∧ read_frame_size_swap (int_of_bytes [0, 0, 0, 5]) = 5
      ∧ (5 : Int) ≠ ((demo_edit []).new_frame_data.length : Int) + 1
      ∧ ascii "Song" ≠ (demo_edit []).new_frame_data := by
  decide

/-- C4, amended: under the conditions of C3, with `new_frame_size` the length of
`new_frame_data` (an `int`, so below `2 ^ 31`), a successful `edit_tag` writes in place of `F` a
complete frame with the identifier and flag bytes of `F`, whose size field decodes to
`new_frame_size` and whose payload is `new_frame_data` without its last byte. -/
theorem edit_tag_new_frame (fuel : Nat) (e e' : Edit) (disk disk' : Disk)
    (hdr : List UInt8) (B : List Frame) (F : Frame) (R tgt : List UInt8)
    (hh : hdr.length = 10) (hB : ∀ f ∈ B, f.Complete ∧ f.id ≠ tgt)
    (hF : F.Complete) (hid : F.id = tgt)
    (hin : e.fptr_old.data = hdr ++ frames_bytes B ++ F.bytes ++ R)
    (hlen : e.fptr_old.data.length < 2147483648)
    (hnd : e.fptr_new.data = []) (hnp : e.fptr_new.pos = 0)
    (htgt : e.frame_id = tgt ++ [0]) (ht4 : tgt.length = 4) (hz : (0 : UInt8) ∉ tgt)
    (hP : e.new_frame_size = (e.new_frame_data.length : Int))
    (hPl : e.new_frame_data.length < 2147483648)
    (hrun : edit_tag fuel e disk = some (e_success, e', disk')) :
    ∃ F' : Frame, e'.fptr_new.data = hdr ++ frames_bytes B ++ F'.bytes ++ R
      ∧ F'.id = F.id ∧ F'.flags = F.flags ∧ F'.Complete
      ∧ F'.size = e.new_frame_size
      ∧ F'.payload = e.new_frame_data.take (e.new_frame_data.length - 1) := by
  have hrun2 := edit_tag_mono_add (B.length + R.length + 1) fuel e disk _ hrun
  rcases edit_tag_found (fuel + (B.length + R.length + 1)) e disk hdr B F R tgt hh hB hF hid hin
    hlen hnd hnp htgt ht4 hz (by omega) (by omega) with h | h
  · obtain ⟨⟨_, _, hn0, _, _⟩, e2, he2, hd2⟩ := h
    rw [hrun2] at he2
    have he : e' = e2 := by
      have := Option.some.inj he2
      exact (Prod.mk.inj (Prod.mk.inj this).2).1
    subst he
    have hn : ((e.new_frame_size - 1) % 18446744073709551616).toNat
        = e.new_frame_data.length - 1 := by
      rw [hP]; omega
    have hpos : 0 < e.new_frame_data.length - 1 := by rw [← hn]; exact hn0
    rw [hn] at hd2
    have htake : (e.new_frame_data ++ [0]).take (e.new_frame_data.length - 1)
        = e.new_frame_data.take (e.new_frame_data.length - 1) :=
      List.take_append_of_le_length (by omega)
    rw [htake] at hd2
    have hdec : read_frame_size_swap
        (int_of_bytes (bytes_of_int (replace_edit_frame_size_swap e.new_frame_size)))
        = e.new_frame_size := by
      have hr := toI32_range (16777216 * (toU32 e.new_frame_size % 256)
          + 65536 * (toU32 e.new_frame_size / 256 % 256)
          + 256 * (toU32 e.new_frame_size / 65536 % 256) + toU32 e.new_frame_size / 16777216)
      rw [← replace_edit_frame_size_swap_eq] at hr
      rw [int_of_bytes_of_int _ hr.1 hr.2]
      exact swap_swap e.new_frame_size (by omega) (by omega)
    refine ⟨{ id := F.id
              size_field := bytes_of_int (replace_edit_frame_size_swap e.new_frame_size)
              flags := F.flags
              payload := e.new_frame_data.take (e.new_frame_data.length - 1) },
      ?_, rfl, rfl, ⟨hF.1, by simp [bytes_of_int], hF.2.2.1, ?_⟩, hdec, rfl⟩
    · rw [hd2]; simp [Frame.bytes]
    · show read_frame_size_swap _ = _
      rw [hdec, hP]
      simp only [List.length_take]
      omega
  · obtain ⟨_, e2, he2⟩ := h
    rw [hrun2] at he2
    have := (Prod.mk.inj (Option.some.inj he2)).1
    cases this

/-- Instance of the amended C4 on the same run. -/
theorem edit_tag_new_frame_witness :
    ∃ F' : Frame,
      [0, 0, 0, 0, 0, 0, 0, 0, 0, 0, 84, 80, 69, 49, 0, 0, 0, 3, 0, 0, 0, 97, 98,
          84, 73, 84, 50, 0, 0, 0, 5, 0, 0, 0, 83, 111, 110, 103, 255, 251, 144]
        = demo_header ++ frames_bytes [demo_artist] ++ F'.bytes ++ demo_audio
      ∧ F'.id = demo_title.id ∧ F'.flags = demo_title.flags ∧ F'.Complete
      ∧ F'.size = 5
      ∧ F'.payload = (ascii "Song ").take ((ascii "Song ").length - 1) :=
  edit_tag_new_frame 5
    (demo_edit (demo_header ++ frames_bytes [demo_artist] ++ demo_title.bytes ++ demo_audio))
    { fptr_old := { data := demo_header ++ frames_bytes [demo_artist] ++ demo_title.bytes
                      ++ demo_audio, pos := 41 }
      fptr_new := { data := [0, 0, 0, 0, 0, 0, 0, 0, 0, 0, 84, 80, 69, 49, 0, 0, 0, 3, 0, 0, 0,
                      97, 98, 84, 73, 84, 50, 0, 0, 0, 5, 0, 0, 0, 83, 111, 110, 103, 255, 251,
                      144], pos := 41, cap := 1000 }
      old_fname := ascii "a.mp3"
      frame_id := ascii "TIT2" ++ [0]
      old_frame_id := ascii "TIT2" ++ [0]
      frame_size := 5
      new_frame_size := 5
      old_frame_data := ascii "Test" ++ [0]
      new_frame_data := ascii "Song "
      new_fname := ascii "temp.mp3" }
    (demo_disk (demo_header ++ frames_bytes [demo_artist] ++ demo_title.bytes ++ demo_audio))
    { old_file := some [0, 0, 0, 0, 0, 0, 0, 0, 0, 0, 84, 80, 69, 49, 0, 0, 0, 3, 0, 0, 0, 97, 98,
          84, 73, 84, 50, 0, 0, 0, 5, 0, 0, 0, 83, 111, 110, 103, 255, 251, 144]
      old_is_temp := false, temp_ok := true, temp_cap := 1000, temp_room := 1000,
      rename_ok := true,
      rename_calls := 1 }
    demo_header [demo_artist] demo_title demo_audio (ascii "TIT2")
    (by decide) (by decide) (by decide) (by decide) (by decide) (by decide) (by decide)
    (by decide) (by decide) (by decide) (by decide) (by decide) (by decide) (by decide)

/-- C5, as stated, fails: the file is the one of the claim with `2 ^ 31` zero bytes after the
frame.  Its length does not fit `int file_end`, the frame loop is not entered, and the edit
for the arguments `-e -t a.mp3 Song` succeeds with an output that is the input: the payload of
`TIT2` is still `Test`. -/
theorem title_edit_counterexample :
    ∃ e1 e2 e3 : Edit, ∃ disk3 : Disk,
      read_and_validate_edit_args
          [ascii "mp3tag", ascii "-e", ascii "-t", ascii "a" ++ ascii ".mp3", ascii "Song"]
          (demo_edit [])
        = some (e_success, e1)
      ∧ open_edit_files e1 (demo_large_disk (demo_header ++ demo_title.bytes ++ demo_padding))
        = (e_success, e2, demo_large_disk (demo_header ++ demo_title.bytes ++ demo_padding))
      ∧ edit_tag 2147483700 e2
          (demo_large_disk (demo_header ++ demo_title.bytes ++ demo_padding))
        = some (e_success, e3, disk3)
      ∧ e3.fptr_new.data = demo_header ++ demo_title.bytes ++ demo_padding
      ∧ disk3.old_file = some (demo_header ++ demo_title.bytes ++ demo_padding) := by
  have hlen : (demo_header ++ demo_title.bytes ++ demo_padding).length = 2147483673 := by
    have a1 : demo_header.length = 10 := rfl
    have a2 : demo_title.bytes.length = 15 := rfl
    simp only [List.length_append, demo_padding_length, a1, a2]
  have hopen : open_edit_files
      { demo_edit [] with
          frame_id := strcpy (demo_edit []).frame_id (ascii "TIT2")
          old_fname := ascii "a" ++ ascii ".mp3"
          new_frame_data := ascii "Song "
          new_frame_size := 5 }
      (demo_large_disk (demo_header ++ demo_title.bytes ++ demo_padding))
      = (e_success,
          { demo_edit [] with
            frame_id := strcpy (demo_edit []).frame_id (ascii "TIT2")
            old_fname := ascii "a" ++ ascii ".mp3"
            new_frame_data := ascii "Song "
            new_frame_size := 5
            fptr_old := { data := demo_header ++ demo_title.bytes ++ demo_padding, pos := 0 }
            new_fname := ascii "temp.mp3"
            fptr_new := { data := [], pos := 0, cap := 4294967296 } },
          demo_large_disk (demo_header ++ demo_title.bytes ++ demo_padding)) := by
    unfold open_edit_files
    simp only [demo_large_disk, demo_disk, if_true]
    rw [if_neg (by decide)]
  obtain ⟨e3, he3, hd3⟩ := edit_tag_large 2147483700
    { demo_edit [] with
      frame_id := strcpy (demo_edit []).frame_id (ascii "TIT2")
      old_fname := ascii "a" ++ ascii ".mp3"
      new_frame_data := ascii "Song "
      new_frame_size := 5
      fptr_old := { data := demo_header ++ demo_title.bytes ++ demo_padding, pos := 0 }
      new_fname := ascii "temp.mp3"
      fptr_new := { data := [], pos := 0, cap := 4294967296 } }
    (demo_large_disk (demo_header ++ demo_title.bytes ++ demo_padding))
    (by simp only [hlen]; omega) (by simp only [hlen]; omega) rfl rfl
    (by simp only [hlen]; omega) (by simp only [hlen]; omega)
  refine ⟨_, _, e3, _,
    read_and_validate_edit_args_title (ascii "mp3tag") (ascii "a") (demo_edit []) (by decide),
    hopen, he3, hd3, ?_⟩
  simp only [replace_old_file, demo_large_disk, demo_disk, if_true]
  rw [List.take_of_length_le (by rw [hlen]; omega)]

/-- C5, amended: the file is ten zero bytes, `TIT2`, the size field `00 00 00 05` (decoded
size 5), three flag and reserved bytes, the payload `Test` and any further bytes `R`; it is
shorter than `2 ^ 31` bytes, and the path `<stem>.mp3` does not designate the file `temp.mp3`.
The edit branch of `main` for the arguments `-e -t <stem>.mp3 Song` (argument parsing, opening
of the files, `edit_tag`) succeeds, and the output is the same file with `Song` in place of
`Test`: the frame `TIT2` keeps the decoded size 5 and has the four payload bytes `Song`.  It
takes the place of the original when `rename` succeeds and the device keeps its bytes. -/
theorem title_edit_scenario (fuel : Nat) (prog stem flags R : List UInt8) (e0 : Edit)
    (disk : Disk) (hstem : (0 : UInt8) ∉ stem) (hfl : flags.length = 3)
    (he0 : e0.frame_id.length = 5)
    (hfile : disk.old_file
      = some (List.replicate 10 0 ++ ascii "TIT2" ++ [0, 0, 0, 5] ++ flags ++ ascii "Test" ++ R))
    (hlen : 25 + R.length < 2147483648)
    (hname : stem ≠ ascii "temp") (halias : disk.old_is_temp = false)
    (htemp : disk.temp_ok = true) (hcap : 25 + R.length ≤ disk.temp_cap)
    (hfuel : R.length < fuel) :
    read_frame_size_swap (int_of_bytes [0, 0, 0, 5]) = 5
      ∧ ∃ e1 e2 e3 : Edit, ∃ disk3 : Disk,
        read_and_validate_edit_args
            [prog, ascii "-e", ascii "-t", stem ++ ascii ".mp3", ascii "Song"] e0
          = some (e_success, e1)
        ∧ open_edit_files e1 disk = (e_success, e2, disk)
        ∧ edit_tag fuel e2 disk = some (e_success, e3, disk3)
        ∧ e3.fptr_new.data
          = List.replicate 10 0 ++ ascii "TIT2" ++ [0, 0, 0, 5] ++ flags ++ ascii "Song" ++ R
        ∧ (disk.rename_ok = true → 25 + R.length ≤ disk.temp_room → disk3.old_file
          = some (List.replicate 10 0 ++ ascii "TIT2" ++ [0, 0, 0, 5] ++ flags ++ ascii "Song"
              ++ R)) := by
  refine ⟨by decide, ?_⟩
  have hfid : strcpy e0.frame_id (ascii "TIT2") = ascii "TIT2" ++ [0] := by
    rw [strcpy_array _ _ (by rw [he0]; decide)]; rfl
  have hc : cstr (stem ++ ascii ".mp3") = stem ++ ascii ".mp3" := by
    rw [cstr_append_of_not_mem _ _ hstem]; rfl
  have hne : ¬ (disk.old_is_temp = true ∨ cstr (stem ++ ascii ".mp3") = ascii "temp.mp3") := by
    rw [hc, halias]
    rintro (h | h)
    · exact Bool.noConfusion h
    · have h2 : stem ++ ascii ".mp3" = ascii "temp" ++ ascii ".mp3" := h
      exact hname (List.append_cancel_right h2)
  have hopen : open_edit_files
      { e0 with
          frame_id := strcpy e0.frame_id (ascii "TIT2")
          old_fname := stem ++ ascii ".mp3"
          new_frame_data := ascii "Song "
          new_frame_size := 5 } disk
      = (e_success,
          { e0 with
            frame_id := strcpy e0.frame_id (ascii "TIT2")
            old_fname := stem ++ ascii ".mp3"
            new_frame_data := ascii "Song "
            new_frame_size := 5
            fptr_old := { data := List.replicate 10 0 ++ ascii "TIT2" ++ [0, 0, 0, 5] ++ flags
                            ++ ascii "Test" ++ R, pos := 0 }
            new_fname := ascii "temp.mp3"
            fptr_new := { data := [], pos := 0, cap := disk.temp_cap } }, disk) := by
    unfold open_edit_files
    simp only [hfile, htemp, if_true]
    rw [if_neg hne]
  have hFc : Frame.Complete
      { id := ascii "TIT2", size_field := [0, 0, 0, 5], flags := flags, payload := ascii "Test" } :=
    ⟨rfl, rfl, hfl, by
      show read_frame_size_swap (int_of_bytes [0, 0, 0, 5]) = ((ascii "Test").length : Int) + 1
      decide⟩
  have hinl : (List.replicate 10 (0 : UInt8) ++ ascii "TIT2" ++ [0, 0, 0, 5] ++ flags
      ++ ascii "Test" ++ R).length = 25 + R.length := by
    have a1 : (ascii "TIT2").length = 4 := rfl
    have a2 : (ascii "Test").length = 4 := rfl
    simp only [List.length_append, List.length_replicate, hfl, a1, a2, List.length_cons,
      List.length_nil]
  have hfound := edit_tag_found fuel
    { e0 with
      frame_id := strcpy e0.frame_id (ascii "TIT2")
      old_fname := stem ++ ascii ".mp3"
      new_frame_data := ascii "Song "
      new_frame_size := 5
      fptr_old := { data := List.replicate 10 0 ++ ascii "TIT2" ++ [0, 0, 0, 5] ++ flags
                      ++ ascii "Test" ++ R, pos := 0 }
      new_fname := ascii "temp.mp3"
      fptr_new := { data := [], pos := 0, cap := disk.temp_cap } }
    disk (List.replicate 10 0) []
    { id := ascii "TIT2", size_field := [0, 0, 0, 5], flags := flags, payload := ascii "Test" }
    R (ascii "TIT2") rfl (by simp) hFc rfl
    (by simp [frames_bytes, Frame.bytes]) (by simp only []; rw [hinl]; exact hlen) rfl rfl hfid
    rfl (by decide) (by simp; omega) hfuel
  have hsz : bytes_of_int (replace_edit_frame_size_swap 5) = [0, 0, 0, 5] := by decide
  have hn4 : ((((5 : Int) - 1) % 18446744073709551616).toNat) = 4 := by decide
  have htk : (ascii "Song " ++ [0]).take 4 = ascii "Song" := by decide
  simp only [hsz, hn4, htk, frames_bytes, List.append_nil, List.length_nil] at hfound
  rcases hfound with h | h
  · obtain ⟨_, e3, he3, hd3⟩ := h
    refine ⟨_, _, e3, _, read_and_validate_edit_args_title prog stem e0 hstem, hopen, he3, hd3,
      ?_⟩
    intro hr hroom
    have hl3 : e3.fptr_new.data.length ≤ disk.temp_room := by
      have a1 : (ascii "TIT2").length = 4 := rfl
      have a2 : (ascii "Song").length = 4 := rfl
      rw [hd3]
      simp only [List.length_append, List.length_replicate, hfl, a1, a2, List.length_cons,
        List.length_nil]
      omega
    simp only [replace_old_file, hr, if_true]
    rw [hd3] at hl3
    rw [List.take_of_length_le hl3]
  · exfalso
    apply h.1
    refine ⟨by simp, by decide, by decide, by decide, ?_⟩
    omega

/-- Instance of C5 for the program name `mp3tag`, the path `a.mp3` and three trailing bytes. -/
theorem title_edit_scenario_witness :
    read_frame_size_swap (int_of_bytes [0, 0, 0, 5]) = 5
      ∧ ∃ e1 e2 e3 : Edit, ∃ disk3 : Disk,
        read_and_validate_edit_args
            [ascii "mp3tag", ascii "-e", ascii "-t", ascii "a" ++ ascii ".mp3", ascii "Song"]
            (demo_edit [])
          = some (e_success, e1)
        ∧ open_edit_files e1
            (demo_disk (List.replicate 10 0 ++ ascii "TIT2" ++ [0, 0, 0, 5] ++ [0, 0, 0]
              ++ ascii "Test" ++ demo_audio))
          = (e_success, e2,
              demo_disk (List.replicate 10 0 ++ ascii "TIT2" ++ [0, 0, 0, 5] ++ [0, 0, 0]
                ++ ascii "Test" ++ demo_audio))
        ∧ edit_tag 5 e2
            (demo_disk (List.replicate 10 0 ++ ascii "TIT2" ++ [0, 0, 0, 5] ++ [0, 0, 0]
              ++ ascii "Test" ++ demo_audio))
          = some (e_success, e3, disk3)
        ∧ e3.fptr_new.data
          = List.replicate 10 0 ++ ascii "TIT2" ++ [0, 0, 0, 5] ++ [0, 0, 0] ++ ascii "Song"
              ++ demo_audio
        ∧ ((demo_disk (List.replicate 10 0 ++ ascii "TIT2" ++ [0, 0, 0, 5] ++ [0, 0, 0]
              ++ ascii "Test" ++ demo_audio)).rename_ok = true →
            25 + demo_audio.length
              ≤ (demo_disk (List.replicate 10 0 ++ ascii "TIT2" ++ [0, 0, 0, 5] ++ [0, 0, 0]
                  ++ ascii "Test" ++ demo_audio)).temp_room →
            disk3.old_file
              = some (List.replicate 10 0 ++ ascii "TIT2" ++ [0, 0, 0, 5] ++ [0, 0, 0]
                  ++ ascii "Song" ++ demo_audio)) :=
  title_edit_scenario 5 (ascii "mp3tag") (ascii "a") [0, 0, 0] demo_audio (demo_edit [])
    (demo_disk (List.replicate 10 0 ++ ascii "TIT2" ++ [0, 0, 0, 5] ++ [0, 0, 0] ++ ascii "Test"
      ++ demo_audio))
    (by decide) (by decide) (by decide) (by decide) (by decide) (by decide) (by decide)
    (by decide) (by decide) (by decide)

/-- C6 fails on a file with bytes after the last frame: the file is a header, a complete
`TPE1` frame and three further bytes; the target `TIT2` occurs nowhere in it, and `edit_tag`
reports failure, because the three bytes are read as the start of a frame. -/
theorem no_op_on_miss_counterexample :
    ¬ (ascii "TIT2" <:+: demo_header ++ demo_artist.bytes ++ demo_audio)
      ∧ (edit_tag 5 (demo_edit (demo_header ++ demo_artist.bytes ++ demo_audio))
            (demo_disk (demo_header ++ demo_artist.bytes ++ demo_audio))).map (fun r => r.1)
        = some e_failure := by
  decide

/-- Run on a file without the target frame and with nothing after its last frame: the input
is a 10-byte header followed, up to the end of the file, by complete frames of decoded size at
least 2, none with the target identifier; it is shorter than `2 ^ 31` bytes and the stream
accepts as many bytes.  Then `edit_tag` succeeds, the output is the input, and
`replace_old_file` is given these bytes. -/
theorem edit_tag_no_op_on_miss (fuel : Nat) (e : Edit) (disk : Disk) (hdr : List UInt8)
    (B : List Frame) (tgt : List UInt8)
    (hh : hdr.length = 10) (hB : ∀ f ∈ B, f.Complete ∧ 2 ≤ f.size ∧ f.id ≠ tgt)
    (hin : e.fptr_old.data = hdr ++ frames_bytes B)
    (hlen : e.fptr_old.data.length < 2147483648)
    (hnd : e.fptr_new.data = []) (hnp : e.fptr_new.pos = 0)
    (hcap : e.fptr_old.data.length ≤ e.fptr_new.cap)
    (htgt : e.frame_id = tgt ++ [0]) (ht4 : tgt.length = 4) (hz : (0 : UInt8) ∉ tgt)
    (hfuel : B.length < fuel) :
    ∃ e', edit_tag fuel e disk
        = some (e_success, e', (replace_old_file e.fptr_old.data disk).2)
      ∧ e'.fptr_new.data = e.fptr_old.data := by
  rcases edit_tag_miss fuel e disk hdr B tgt hh (fun f hf => ⟨(hB f hf).1, (hB f hf).2.2⟩) hin
    hlen hnd hnp htgt ht4 hz hfuel with h | h
  · exact h.2
  · exfalso
    apply h.1
    refine ⟨?_, hcap⟩
    intro f hf hp
    obtain ⟨hc, h2, _⟩ := hB f hf
    have := hc.2.2.2
    rw [this, hp] at h2
    simp at h2

/-- Instance of the run without the target frame: header, `TPE1` frame and `XXXX` frame,
target `TIT2`. -/
theorem edit_tag_no_op_on_miss_witness :
    ∃ e', edit_tag 5 (demo_edit (demo_header ++ frames_bytes [demo_artist, demo_other]))
          (demo_disk (demo_header ++ frames_bytes [demo_artist, demo_other]))
        = some (e_success, e',
            (replace_old_file
              (demo_edit (demo_header ++ frames_bytes [demo_artist, demo_other])).fptr_old.data
              (demo_disk (demo_header ++ frames_bytes [demo_artist, demo_other]))).2)
      ∧ e'.fptr_new.data
        = (demo_edit (demo_header ++ frames_bytes [demo_artist, demo_other])).fptr_old.data :=
  edit_tag_no_op_on_miss 5 (demo_edit (demo_header ++ frames_bytes [demo_artist, demo_other]))
    (demo_disk (demo_header ++ frames_bytes [demo_artist, demo_other])) demo_header
    [demo_artist, demo_other] (ascii "TIT2") (by decide) (by decide) (by decide) (by decide)
    (by decide) (by decide) (by decide) (by decide) (by decide) (by decide) (by decide)

theorem tags_name_props : ∀ t ∈ tags_name, t.length = 4 ∧ (0 : UInt8) ∉ t := by decide

theorem check_frame_index_iff (id : List UInt8) (hid : id.length = 4) :
    check_frame_index (id ++ [0]) = e_success ↔ id ∈ tags_name := by
  unfold check_frame_index
  have hc : ∀ t ∈ tags_name, (strcmp t (id ++ [0]) = 0 ↔ t = id) := by
    intro t ht
    obtain ⟨h4, hz⟩ := tags_name_props t ht
    rw [strcmp_eq_zero_iff, cstr_append_zero, cstr_eq_self t hz]
    constructor
    · intro h
      have : (cstr id).length = id.length := by rw [← h, h4, hid]
      rw [h, cstr_eq_of_length id this]
    · intro h
      subst h
      exact (cstr_eq_self _ hz).symm
  constructor
  · intro h
    cases hf : (List.range MAX_FRAME_COUNT).find?
        (fun i => strcmp (tags_name.getD i []) (id ++ [0]) == 0) with
    | none => rw [hf] at h; cases h
    | some i =>
      have hp := List.find?_some hf
      have hm := List.mem_of_find?_eq_some hf
      simp only [MAX_FRAME_COUNT, List.mem_range] at hm
      simp only [beq_iff_eq] at hp
      have hmem : tags_name.getD i [] ∈ tags_name := by
        interval_cases i <;> decide
      rw [← (hc _ hmem).1 hp]
      exact hmem
  · intro h
    cases hf : (List.range MAX_FRAME_COUNT).find?
        (fun i => strcmp (tags_name.getD i []) (id ++ [0]) == 0) with
    | some i => rfl
    | none =>
      exfalso
      rw [List.find?_eq_none] at hf
      obtain ⟨i, hi, hge⟩ := List.getElem_of_mem h
      have hi8 : i < 8 := hi
      have := hf i (by simp [MAX_FRAME_COUNT]; exact hi8)
      apply this
      simp only [beq_iff_eq]
      have hg : tags_name.getD i [] = id := by
        rw [List.getD_eq_getElem _ _ hi, hge]
      rw [hg]
      exact (hc id h).2 rfl

theorem check_frame_index_not (id : List UInt8) (hid : id.length = 4) (h : id ∉ tags_name) :
    check_frame_index (id ++ [0]) = e_failure := by
  cases hc : check_frame_index (id ++ [0]) with
  | e_failure => rfl
  | e_success => exact absurd ((check_frame_index_iff id hid).1 hc) h


theorem read_frame_id_spec (index : Nat) (t : TagInfo) (id rest : List UInt8)
    (hid : id.length = 4)
    (hR : t.fptr_src_mp3.data.drop t.fptr_src_mp3.pos = id ++ rest) :
    read_frame_id index t =
      if id ∈ tags_name then
        (e_success, { t with
          fptr_src_mp3 := { t.fptr_src_mp3 with pos := t.fptr_src_mp3.pos + 4 }
          frame_id := t.frame_id.set index (strcpy (t.frame_id.getD index []) (id ++ [0])) })
      else
        (e_failure, { t with
          fptr_src_mp3 := { t.fptr_src_mp3 with pos := t.fptr_src_mp3.pos + 4 } }) := by
  unfold read_frame_id
  have h1 := read_data_from_file_ok t.fptr_src_mp3 id rest hR (by omega)
  rw [hid] at h1
  rw [h1]
  simp only []
  by_cases hm : id ∈ tags_name
  · rw [if_pos hm, if_neg (by rw [(check_frame_index_iff id hid).2 hm]; decide)]
  · rw [if_neg hm, if_pos (check_frame_index_not id hid hm)]

theorem read_frame_id_short (index : Nat) (t : TagInfo)
    (h : t.fptr_src_mp3.data.length < t.fptr_src_mp3.pos + 4) :
    ∃ f1 : RFile, read_frame_id index t = (e_failure, { t with fptr_src_mp3 := f1 })
      ∧ f1.data = t.fptr_src_mp3.data ∧ t.fptr_src_mp3.pos ≤ f1.pos := by
  unfold read_frame_id read_data_from_file fread
  rw [if_neg (by decide), if_neg (by omega)]
  exact ⟨_, rfl, rfl, by simp⟩

theorem read_frame_size_spec (index : Nat) (t : TagInfo) (sz rest : List UInt8)
    (hsz : sz.length = 4)
    (hR : t.fptr_src_mp3.data.drop t.fptr_src_mp3.pos = sz ++ rest) :
    read_frame_size index t =
      (e_success, { t with
        fptr_src_mp3 := { t.fptr_src_mp3 with pos := t.fptr_src_mp3.pos + 4 }
        frame_Size := t.frame_Size.set index (read_frame_size_swap (int_of_bytes sz)) }) := by
  unfold read_frame_size
  rw [read_size_from_file_ok t.fptr_src_mp3 sz rest hR hsz]

theorem read_frame_size_short (index : Nat) (t : TagInfo)
    (h : t.fptr_src_mp3.data.length < t.fptr_src_mp3.pos + 4) :
    ∃ t', read_frame_size index t = (e_failure, t') := by
  unfold read_frame_size
  have h1 := read_size_from_file_short t.fptr_src_mp3 4 h
  generalize read_size_from_file 4 t.fptr_src_mp3 = r at h1
  obtain ⟨s, buf, f1⟩ := r
  simp only at h1
  subst h1
  exact ⟨_, rfl⟩

theorem read_frame_data_spec (index : Nat) (t : TagInfo) (pl rest : List UInt8)
    (hs : t.frame_Size.getD index 0 = (pl.length : Int) + 1) (hl : pl.length < 4294967296)
    (hR : t.fptr_src_mp3.data.drop t.fptr_src_mp3.pos = pl ++ rest) :
    read_frame_data index t =
      if pl = [] then (e_failure, t)
      else
        (e_success, { t with
          fptr_src_mp3 := { t.fptr_src_mp3 with pos := t.fptr_src_mp3.pos + pl.length }
          frame_data := t.frame_data.set index (pl ++ [0]) }) := by
  unfold read_frame_data
  have hn : toU32 (t.frame_Size.getD index 0 - 1) = pl.length := by
    rw [hs]; simp only [add_sub_cancel_right]; exact toU32_natCast _ hl
  simp only [hn]
  rw [if_neg (by rw [hs]; omega)]
  by_cases hp : pl = []
  · subst hp
    simp [read_data_from_file, fread]
  · have hpos : 0 < pl.length := List.length_pos.2 hp
    rw [read_data_from_file_ok t.fptr_src_mp3 pl rest hR hpos]
    simp [hp]

theorem read_frame_data_short (index : Nat) (t : TagInfo)
    (h : t.fptr_src_mp3.data.length
      < t.fptr_src_mp3.pos + toU32 (t.frame_Size.getD index 0 - 1)) :
    ∃ t', read_frame_data index t = (e_failure, t') := by
  unfold read_frame_data
  simp only []
  split
  · exact ⟨_, rfl⟩
  · have h1 := read_data_from_file_short t.fptr_src_mp3 _ h
    generalize read_data_from_file (toU32 (t.frame_Size.getD index 0 - 1)) t.fptr_src_mp3 = r
      at h1
    obtain ⟨s, buf, f1⟩ := r
    simp only at h1
    subst h1
    exact ⟨_, rfl⟩

theorem getD_set_self {α} (l : List α) (k : Nat) (x d : α) (h : k < l.length) :
    (l.set k x).getD k d = x := by
  rw [List.getD_eq_getElem _ _ (by simpa using h)]
  simp

theorem Frame.size_add_two (f : Frame) (hc : f.Complete) (h : f.payload.length + 3 < 2147483648) :
    wrap32 (f.size + 2) = ((f.payload.length + 3 : Nat) : Int) := by
  rw [hc.2.2.2]
  have : ((f.payload.length : Int) + 1 + 2) = ((f.payload.length + 3 : Nat) : Int) := by
    push_cast; ring
  rw [this, wrap32_natCast _ h]

/-- One turn of the loop at a complete frame whose identifier is not in `tags_name`: the
frame is passed over; only the scratch entry `frame_Size[index]` changes. -/
theorem display_scan_skip (fuel k : Nat) (fe : Int) (t : TagInfo) (f : Frame)
    (rest : List UInt8) (hc : f.Complete) (hk : k < 8)
    (hR : t.fptr_src_mp3.data.drop t.fptr_src_mp3.pos = f.bytes ++ rest)
    (hfe : fe = (t.fptr_src_mp3.data.length : Int))
    (hlen : t.fptr_src_mp3.data.length < 2147483648)
    (hS : t.frame_Size.length = 8) (hu : f.id ∉ tags_name) :
    display_scan (fuel + 1) k fe t
      = display_scan fuel k fe { t with
          fptr_src_mp3 := { t.fptr_src_mp3 with pos := t.fptr_src_mp3.pos + f.bytes.length }
          frame_Size := t.frame_Size.set k f.size } := by
  obtain ⟨h1, h2, h3, h4⟩ := hc
  have hc' : f.Complete := ⟨h1, h2, h3, h4⟩
  have hbl := Frame.bytes_length f hc'
  have hb := drop_pos_bound _ _ _ _ hR (by omega)
  have hR1 : t.fptr_src_mp3.data.drop t.fptr_src_mp3.pos
      = f.id ++ (f.size_field ++ (f.flags ++ (f.payload ++ rest))) := by
    rw [hR]; simp [Frame.bytes]
  rw [display_scan, if_pos ⟨by simpa [MAX_FRAME_COUNT] using hk, by omega⟩]
  rw [read_frame_id_spec k t f.id _ h1 hR1, if_neg hu]
  simp only []
  have hR2 := drop_add_of_drop _ _ _ _ hR1
  rw [h1] at hR2
  rw [read_frame_size_spec k _ f.size_field _ h2 hR2]
  simp only []
  rw [getD_set_self _ _ _ _ (by omega)]
  have hw := Frame.size_add_two f hc' (by omega)
  unfold Frame.size at hw
  rw [hw, seek_cur_fwd]
  have hp : t.fptr_src_mp3.pos + 4 + 4 + (f.payload.length + 3)
      = t.fptr_src_mp3.pos + f.bytes.length := by omega
  rw [hp]
  rfl

/-- One turn of the loop at a complete frame with an identifier of `tags_name` and a
non-empty payload: the frame is recorded in slot `index`. -/
theorem display_scan_record (fuel k : Nat) (fe : Int) (t : TagInfo) (f : Frame)
    (rest : List UInt8) (hc : f.Complete) (hk : k < 8)
    (hR : t.fptr_src_mp3.data.drop t.fptr_src_mp3.pos = f.bytes ++ rest)
    (hfe : fe = (t.fptr_src_mp3.data.length : Int))
    (hS : t.frame_Size.length = 8) (hm : f.id ∈ tags_name) (hp : f.payload ≠ []) :
    display_scan (fuel + 1) k fe t
      = display_scan fuel (k + 1) fe { t with
          fptr_src_mp3 := { t.fptr_src_mp3 with pos := t.fptr_src_mp3.pos + f.bytes.length }
          frame_id := t.frame_id.set k (strcpy (t.frame_id.getD k []) (f.id ++ [0]))
          frame_Size := t.frame_Size.set k f.size
          frame_data := t.frame_data.set k (f.payload ++ [0]) } := by
  obtain ⟨h1, h2, h3, h4⟩ := hc
  have hc' : f.Complete := ⟨h1, h2, h3, h4⟩
  have hbl := Frame.bytes_length f hc'
  have hpl := Frame.payload_lt f hc'
  have hb := drop_pos_bound _ _ _ _ hR (by omega)
  have hR1 : t.fptr_src_mp3.data.drop t.fptr_src_mp3.pos
      = f.id ++ (f.size_field ++ (f.flags ++ (f.payload ++ rest))) := by
    rw [hR]; simp [Frame.bytes]
  rw [display_scan, if_pos ⟨by simpa [MAX_FRAME_COUNT] using hk, by omega⟩]
  rw [read_frame_id_spec k t f.id _ h1 hR1, if_pos hm]
  simp only []
  have hR2 := drop_add_of_drop _ _ _ _ hR1
  rw [h1] at hR2
  rw [read_frame_size_spec k _ f.size_field _ h2 hR2]
  simp only []
  have hR3 := drop_add_of_drop _ _ _ _ hR2
  rw [h2] at hR3
  have hR4 := drop_add_of_drop _ _ _ _ hR3
  rw [h3] at hR4
  rw [show (3 : Int) = ((3 : Nat) : Int) by rfl, seek_cur_fwd]
  rw [read_frame_data_spec k _ f.payload rest
    (by simp only []; rw [getD_set_self _ _ _ _ (by omega)]; exact h4) (by omega) hR4, if_neg hp]
  simp only []
  have hpos : t.fptr_src_mp3.pos + 4 + 4 + 3 + f.payload.length
      = t.fptr_src_mp3.pos + f.bytes.length := by omega
  rw [hpos]
  rfl

/-- One turn of the loop at a complete frame with an identifier of `tags_name` and an empty
payload: the read of zero bytes is taken for a failure. -/
theorem display_scan_empty (fuel k : Nat) (fe : Int) (t : TagInfo) (f : Frame)
    (rest : List UInt8) (hc : f.Complete) (hk : k < 8)
    (hR : t.fptr_src_mp3.data.drop t.fptr_src_mp3.pos = f.bytes ++ rest)
    (hfe : fe = (t.fptr_src_mp3.data.length : Int))
    (hS : t.frame_Size.length = 8) (hm : f.id ∈ tags_name) (hp : f.payload = []) :
    ∃ t', display_scan (fuel + 1) k fe t = some (e_failure, k, t') := by
  obtain ⟨h1, h2, h3, h4⟩ := hc
  have hc' : f.Complete := ⟨h1, h2, h3, h4⟩
  have hbl := Frame.bytes_length f hc'
  have hpl := Frame.payload_lt f hc'
  have hb := drop_pos_bound _ _ _ _ hR (by omega)
  have hR1 : t.fptr_src_mp3.data.drop t.fptr_src_mp3.pos
      = f.id ++ (f.size_field ++ (f.flags ++ (f.payload ++ rest))) := by
    rw [hR]; simp [Frame.bytes]
  rw [display_scan, if_pos ⟨by simpa [MAX_FRAME_COUNT] using hk, by omega⟩]
  rw [read_frame_id_spec k t f.id _ h1 hR1, if_pos hm]
  simp only []
  have hR2 := drop_add_of_drop _ _ _ _ hR1
  rw [h1] at hR2
  rw [read_frame_size_spec k _ f.size_field _ h2 hR2]
  simp only []
  have hR3 := drop_add_of_drop _ _ _ _ hR2
  rw [h2] at hR3
  have hR4 := drop_add_of_drop _ _ _ _ hR3
  rw [h3] at hR4
  rw [show (3 : Int) = ((3 : Nat) : Int) by rfl, seek_cur_fwd]
  rw [read_frame_data_spec k _ f.payload rest
    (by simp only []; rw [getD_set_self _ _ _ _ (by omega)]; exact h4) (by omega) hR4, if_pos hp]
  exact ⟨_, rfl⟩

theorem take_set_of_le {α} (l : List α) (k n : Nat) (x : α) (h : n ≤ k) :
    (l.set k x).take n = l.take n := by
  induction l generalizing k n with
  | nil => simp
  | cons a l ih =>
    cases n with
    | zero => simp
    | succ n =>
      cases k with
      | zero => omega
      | succ k => simp [List.set, ih k n (by omega)]

theorem take_succ_set {α} (l : List α) (k : Nat) (x : α) (h : k < l.length) :
    (l.set k x).take (k + 1) = l.take k ++ [x] := by
  induction l generalizing k with
  | nil => simp at h
  | cons a l ih =>
    cases k with
    | zero => simp
    | succ k => simp [List.set, ih k (by simpa using h)]

theorem cstr_strcpy_id (dst id : List UInt8) (hm : id ∈ tags_name) :
    cstr (strcpy dst (id ++ [0])) = id := by
  rw [cstr_strcpy, cstr_append_zero, cstr_eq_self id (tags_name_props id hm).2]

/-- The loop over complete frames with non-empty payloads lying up to the end of the file. -/
theorem display_scan_frames (B : List Frame) :
    ∀ (fuel k : Nat) (fe : Int) (t : TagInfo),
      (∀ f ∈ B, f.Complete ∧ f.payload ≠ []) →
      k ≤ 8 →
      t.fptr_src_mp3.data.drop t.fptr_src_mp3.pos = frames_bytes B →
      fe = (t.fptr_src_mp3.data.length : Int) →
      t.fptr_src_mp3.data.length < 2147483648 →
      t.fptr_src_mp3.pos ≤ t.fptr_src_mp3.data.length →
      t.frame_id.length = 8 → t.frame_Size.length = 8 → t.frame_data.length = 8 →
      B.length < fuel →
      ∃ t', display_scan fuel k fe t
          = some (e_success,
              k + ((B.filter (fun f => decide (f.id ∈ tags_name))).take (8 - k)).length, t')
        ∧ (t'.frame_id.take
              (k + ((B.filter (fun f => decide (f.id ∈ tags_name))).take (8 - k)).length)).map cstr
          = (t.frame_id.take k).map cstr
            ++ ((B.filter (fun f => decide (f.id ∈ tags_name))).take (8 - k)).map (fun f => f.id)
        ∧ t'.frame_Size.take
              (k + ((B.filter (fun f => decide (f.id ∈ tags_name))).take (8 - k)).length)
          = t.frame_Size.take k
            ++ ((B.filter (fun f => decide (f.id ∈ tags_name))).take (8 - k)).map
                (fun f => f.size)
        ∧ t'.frame_data.take
              (k + ((B.filter (fun f => decide (f.id ∈ tags_name))).take (8 - k)).length)
          = t.frame_data.take k
            ++ ((B.filter (fun f => decide (f.id ∈ tags_name))).take (8 - k)).map
                (fun f => f.payload ++ [0]) := by
  induction B with
  | nil =>
    intro fuel k fe t _ hk hR hfe hlen hpos _ _ _ hfuel
    obtain ⟨n, rfl⟩ : ∃ n, fuel = n + 1 := ⟨fuel - 1, by simp at hfuel; omega⟩
    have hl : t.fptr_src_mp3.data.length ≤ t.fptr_src_mp3.pos := by
      have := congrArg List.length hR
      simp [frames_bytes] at this; omega
    rw [display_scan, if_neg (by intro h; omega)]
    exact ⟨t, by simp, by simp, by simp, by simp⟩
  | cons f B ih =>
    intro fuel k fe t hB hk hR hfe hlen hpos hI hS hD hfuel
    obtain ⟨n, rfl⟩ : ∃ n, fuel = n + 1 := ⟨fuel - 1, by simp at hfuel; omega⟩
    have hf := hB f (List.mem_cons_self _ _)
    have hB' : ∀ g ∈ B, g.Complete ∧ g.payload ≠ [] := fun g hg => hB g (List.mem_cons_of_mem _ hg)
    have hR1 : t.fptr_src_mp3.data.drop t.fptr_src_mp3.pos = f.bytes ++ frames_bytes B := hR
    have hb := drop_pos_bound _ _ _ _ hR1 (by rw [Frame.bytes_length f hf.1]; omega)
    have hR2 := drop_add_of_drop _ _ _ _ hR1
    by_cases hk8 : k = 8
    · subst hk8
      rw [display_scan, if_neg (by simp [MAX_FRAME_COUNT])]
      exact ⟨t, by simp, by simp, by simp, by simp⟩
    have hklt : k < 8 := by omega
    by_cases hm : f.id ∈ tags_name
    · rw [display_scan_record n k fe t f _ hf.1 hklt hR1 hfe hS hm hf.2]
      obtain ⟨t', h1, h2, h3, h4⟩ := ih n (k + 1) fe
        { t with
          fptr_src_mp3 := { t.fptr_src_mp3 with pos := t.fptr_src_mp3.pos + f.bytes.length }
          frame_id := t.frame_id.set k (strcpy (t.frame_id.getD k []) (f.id ++ [0]))
          frame_Size := t.frame_Size.set k f.size
          frame_data := t.frame_data.set k (f.payload ++ [0]) }
        hB' (by omega) hR2 hfe hlen
        (by show t.fptr_src_mp3.pos + f.bytes.length ≤ t.fptr_src_mp3.data.length; omega)
        (by simpa using hI) (by simpa using hS) (by simpa using hD)
        (by simp at hfuel; omega)
      have hfil : (List.filter (fun f => decide (f.id ∈ tags_name)) (f :: B)).take (8 - k)
          = f :: (List.filter (fun f => decide (f.id ∈ tags_name)) B).take (8 - (k + 1)) := by
        rw [List.filter_cons_of_pos (by simpa using hm)]
        have : 8 - k = (8 - (k + 1)) + 1 := by omega
        rw [this, List.take_succ_cons]
      rw [hfil]
      generalize (List.filter (fun f => decide (f.id ∈ tags_name)) B).take (8 - (k + 1)) = recs
        at h1 h2 h3 h4 ⊢
      simp only [List.length_cons, List.map_cons]
      have hidx : k + (recs.length + 1) = k + 1 + recs.length := by omega
      rw [hidx]
      refine ⟨t', h1, ?_, ?_, ?_⟩
      · rw [h2, take_succ_set _ _ _ (by omega)]
        simp [cstr_strcpy_id _ _ hm]
      · rw [h3, take_succ_set _ _ _ (by omega)]
        simp
      · rw [h4, take_succ_set _ _ _ (by omega)]
        simp
    · rw [display_scan_skip n k fe t f _ hf.1 hklt hR1 hfe hlen hS hm]
      obtain ⟨t', h1, h2, h3, h4⟩ := ih n k fe
        { t with
          fptr_src_mp3 := { t.fptr_src_mp3 with pos := t.fptr_src_mp3.pos + f.bytes.length }
          frame_Size := t.frame_Size.set k f.size }
        hB' hk hR2 hfe hlen
        (by show t.fptr_src_mp3.pos + f.bytes.length ≤ t.fptr_src_mp3.data.length; omega)
        hI (by simpa using hS) hD (by simp at hfuel; omega)
      have hfil : List.filter (fun f => decide (f.id ∈ tags_name)) (f :: B)
          = List.filter (fun f => decide (f.id ∈ tags_name)) B :=
        List.filter_cons_of_neg (by simpa using hm)
      rw [hfil]
      refine ⟨t', h1, h2, ?_, h4⟩
      rw [h3]
      simp only []
      rw [take_set_of_le _ _ _ _ (Nat.le_refl k)]

/-- The loop at a frame cut short by the end of the file, when the frame has an identifier of
`tags_name` or the cut lies in its identifier or size field: the run fails. -/
theorem display_scan_truncated (fuel k : Nat) (fe : Int) (t : TagInfo) (F : Frame)
    (T : List UInt8) (hF : F.Complete) (hk : k < 8) (hT : T ≠ []) (hpre : T <+: F.bytes)
    (hne : T ≠ F.bytes)
    (hcase : F.id ∈ tags_name ∨ T.length < 8)
    (hR : t.fptr_src_mp3.data.drop t.fptr_src_mp3.pos = T)
    (hfe : fe = (t.fptr_src_mp3.data.length : Int))
    (hS : t.frame_Size.length = 8) :
    ∃ k' t', display_scan (fuel + 1) k fe t = some (e_failure, k', t') := by
  obtain ⟨h1, h2, h3, h4⟩ := hF
  have hF' : F.Complete := ⟨h1, h2, h3, h4⟩
  have hbl := Frame.bytes_length F hF'
  have hpl := Frame.payload_lt F hF'
  obtain ⟨U, hU⟩ := hpre
  have hTl : 0 < T.length := List.length_pos.2 hT
  have hUl : 0 < U.length := by
    apply List.length_pos.2
    intro hu; subst hu; apply hne; simpa using hU
  have hlenTU : T.length + U.length = F.bytes.length := by
    rw [← hU]; simp
  have hdl : t.fptr_src_mp3.pos + T.length = t.fptr_src_mp3.data.length := by
    have := drop_pos_bound _ _ T [] (by simpa using hR) hTl
    simpa using this
  have hU0 : T ++ U = F.id ++ (F.size_field ++ (F.flags ++ F.payload)) := by
    rw [hU]; simp [Frame.bytes]
  rw [display_scan, if_pos ⟨by simpa [MAX_FRAME_COUNT] using hk, by omega⟩]
  by_cases k4 : T.length < 4
  · obtain ⟨f1, he1, hd1, hp1⟩ := read_frame_id_short k t (by omega)
    rw [he1]
    simp only []
    obtain ⟨t2, he2⟩ := read_frame_size_short k { t with fptr_src_mp3 := f1 }
      (by simp only [hd1]; omega)
    rw [he2]
    exact ⟨_, _, rfl⟩
  obtain ⟨hT1, hU1⟩ := split_head T U _ _ hU0 (by omega)
  rw [h1] at hT1 hU1
  rw [read_frame_id_spec k t F.id (T.drop 4) h1 (by rw [hR]; exact hT1)]
  have hR1 : t.fptr_src_mp3.data.drop (t.fptr_src_mp3.pos + 4) = T.drop 4 := by
    rw [← List.drop_drop, hR]
  by_cases k8 : T.length < 8
  · by_cases hm : F.id ∈ tags_name
    · rw [if_pos hm]
      simp only []
      obtain ⟨t2, he2⟩ := read_frame_size_short k
        { t with
          fptr_src_mp3 := { t.fptr_src_mp3 with pos := t.fptr_src_mp3.pos + 4 }
          frame_id := t.frame_id.set k (strcpy (t.frame_id.getD k []) (F.id ++ [0])) }
        (by simp only []; omega)
      rw [he2]
      exact ⟨_, _, rfl⟩
    · rw [if_neg hm]
      simp only []
      obtain ⟨t2, he2⟩ := read_frame_size_short k
        { t with fptr_src_mp3 := { t.fptr_src_mp3 with pos := t.fptr_src_mp3.pos + 4 } }
        (by simp only []; omega)
      rw [he2]
      exact ⟨_, _, rfl⟩
  have hm : F.id ∈ tags_name := by
    rcases hcase with h | h
    · exact h
    · omega
  rw [if_pos hm]
  simp only []
  obtain ⟨hT2, hU2⟩ := split_head (T.drop 4) U _ _ hU1 (by simp; omega)
  rw [h2, List.drop_drop] at hT2 hU2
  rw [read_frame_size_spec k _ F.size_field (T.drop 8) h2 (by rw [← hT2]; exact hR1)]
  simp only []
  rw [show (3 : Int) = ((3 : Nat) : Int) by rfl, seek_cur_fwd]
  have hsz : toU32 (read_frame_size_swap (int_of_bytes F.size_field) - 1)
      = F.payload.length := by
    have : read_frame_size_swap (int_of_bytes F.size_field) = (F.payload.length : Int) + 1 :=
      h4
    rw [this]; simp only [add_sub_cancel_right]; exact toU32_natCast _ (by omega)
  obtain ⟨t3, he3⟩ := read_frame_data_short k
    { t with
      fptr_src_mp3 := { t.fptr_src_mp3 with pos := t.fptr_src_mp3.pos + 4 + 4 + 3 }
      frame_id := t.frame_id.set k (strcpy (t.frame_id.getD k []) (F.id ++ [0]))
      frame_Size := t.frame_Size.set k (read_frame_size_swap (int_of_bytes F.size_field)) }
    (by simp only []; rw [getD_set_self _ _ _ _ (by omega), hsz]; omega)
  rw [he3]
  exact ⟨_, _, rfl⟩

/-- The loop over complete frames of which fewer than `8 - k` have an identifier of
`tags_name`: the run fails, or all are passed and the loop goes on after them. -/
theorem display_scan_pass (B : List Frame) :
    ∀ (fuel k : Nat) (fe : Int) (t : TagInfo) (rest : List UInt8),
      (∀ f ∈ B, f.Complete) →
      k + (B.filter (fun f => decide (f.id ∈ tags_name))).length < 8 →
      t.fptr_src_mp3.data.drop t.fptr_src_mp3.pos = frames_bytes B ++ rest →
      fe = (t.fptr_src_mp3.data.length : Int) →
      t.fptr_src_mp3.data.length < 2147483648 →
      t.frame_Size.length = 8 →
      (∃ k' t', display_scan (fuel + B.length) k fe t = some (e_failure, k', t'))
      ∨ ∃ t', display_scan (fuel + B.length) k fe t
          = display_scan fuel (k + (B.filter (fun f => decide (f.id ∈ tags_name))).length) fe t'
        ∧ t'.fptr_src_mp3
          = { t.fptr_src_mp3 with pos := t.fptr_src_mp3.pos + (frames_bytes B).length }
        ∧ t'.frame_Size.length = 8 := by
  induction B with
  | nil =>
    intro fuel k fe t rest _ _ _ _ _ hS
    right
    exact ⟨t, rfl, by simp [frames_bytes], hS⟩
  | cons f B ih =>
    intro fuel k fe t rest hB hk hR hfe hlen hS
    have hf := hB f (List.mem_cons_self _ _)
    have hB' : ∀ g ∈ B, g.Complete := fun g hg => hB g (List.mem_cons_of_mem _ hg)
    have hR1 : t.fptr_src_mp3.data.drop t.fptr_src_mp3.pos
        = f.bytes ++ (frames_bytes B ++ rest) := by
      rw [hR, frames_bytes_cons, List.append_assoc]
    have hR2 := drop_add_of_drop _ _ _ _ hR1
    have hfuel : fuel + (f :: B).length = (fuel + B.length) + 1 := by simp; omega
    rw [hfuel]
    by_cases hm : f.id ∈ tags_name
    · have hfil : List.filter (fun f => decide (f.id ∈ tags_name)) (f :: B)
          = f :: List.filter (fun f => decide (f.id ∈ tags_name)) B :=
        List.filter_cons_of_pos (by simpa using hm)
      rw [hfil] at hk ⊢
      simp only [List.length_cons] at hk ⊢
      by_cases hp : f.payload = []
      · left
        obtain ⟨t', ht'⟩ := display_scan_empty (fuel + B.length) k fe t f _ hf (by omega) hR1 hfe
          hS hm hp
        exact ⟨_, _, ht'⟩
      · rw [display_scan_record (fuel + B.length) k fe t f _ hf (by omega) hR1 hfe hS hm hp]
        rcases ih fuel (k + 1) fe
          { t with
            fptr_src_mp3 := { t.fptr_src_mp3 with pos := t.fptr_src_mp3.pos + f.bytes.length }
            frame_id := t.frame_id.set k (strcpy (t.frame_id.getD k []) (f.id ++ [0]))
            frame_Size := t.frame_Size.set k f.size
            frame_data := t.frame_data.set k (f.payload ++ [0]) }
          rest hB' (by omega) hR2 hfe hlen (by simpa using hS) with h | h
        · left; exact h
        · right
          obtain ⟨t', h1, h2, h3⟩ := h
          have hidx : k + ((List.filter (fun f => decide (f.id ∈ tags_name)) B).length + 1)
              = k + 1 + (List.filter (fun f => decide (f.id ∈ tags_name)) B).length := by omega
          rw [hidx]
          refine ⟨t', h1, ?_, h3⟩
          rw [h2]
          simp [frames_bytes_cons]; omega
    · have hfil : List.filter (fun f => decide (f.id ∈ tags_name)) (f :: B)
          = List.filter (fun f => decide (f.id ∈ tags_name)) B :=
        List.filter_cons_of_neg (by simpa using hm)
      rw [hfil] at hk ⊢
      rw [display_scan_skip (fuel + B.length) k fe t f _ hf (by omega) hR1 hfe hlen hS hm]
      rcases ih fuel k fe
        { t with
          fptr_src_mp3 := { t.fptr_src_mp3 with pos := t.fptr_src_mp3.pos + f.bytes.length }
          frame_Size := t.frame_Size.set k f.size }
        rest hB' hk hR2 hfe hlen (by simpa using hS) with h | h
      · left; exact h
      · right
        obtain ⟨t', h1, h2, h3⟩ := h
        refine ⟨t', h1, ?_, h3⟩
        rw [h2]
        simp [frames_bytes_cons]; omega

/-! ## Properties of the reader -/

/-- C8, as stated, fails: the file is a header, a complete `TPE1` frame, and the first 13 bytes
of a frame `XXXX` of declared size 5 (two of its four payload bytes are missing).  One frame
has been recorded when the cut frame is met, and `display_tag` reports success: a frame whose
identifier is not in `tags_name` is passed with `fseek`, which does not read. -/
theorem reader_truncation_counterexample :
    demo_other.Complete
      ∧ demo_other.bytes.take 13 <+: demo_other.bytes
      ∧ demo_other.bytes.take 13 ≠ demo_other.bytes
      ∧ (display_tag 5 (demo_tagInfo
            (demo_header ++ demo_artist.bytes ++ demo_other.bytes.take 13))).map
          (fun r => (r.1, r.2.1))
        = some (e_success, 1) := by
  decide

/-- C8, amended: the input is a 10-byte header, complete frames of which fewer than 8 have an
identifier of `tags_name`, and a non-empty proper prefix `T` of a complete frame `F`.  When
`F` has an identifier of `tags_name`, or when the file ends inside the identifier or the size
field of `F`, `display_tag` returns failure. -/
theorem display_tag_truncation_detected (fuel : Nat) (t : TagInfo) (hdr : List UInt8)
    (B : List Frame) (F : Frame) (T : List UInt8)
    (hh : hdr.length = 10) (hB : ∀ f ∈ B, f.Complete)
    (hcount : (B.filter (fun f => decide (f.id ∈ tags_name))).length < 8)
    (hF : F.Complete) (hT : T ≠ []) (hpre : T <+: F.bytes) (hne : T ≠ F.bytes)
    (hcase : F.id ∈ tags_name ∨ T.length < 8)
    (hin : t.fptr_src_mp3.data = hdr ++ frames_bytes B ++ T)
    (hlen : t.fptr_src_mp3.data.length < 2147483648)
    (hS : t.frame_Size.length = 8)
    (hfuel : B.length < fuel) :
    ∃ k' t', display_tag fuel t = some (e_failure, k', t') := by
  obtain ⟨n, rfl⟩ : ∃ n, fuel = n + 1 + B.length := ⟨fuel - 1 - B.length, by omega⟩
  unfold display_tag
  simp only []
  rw [wrap32_natCast _ hlen]
  have hR0 : t.fptr_src_mp3.data.drop 10 = frames_bytes B ++ T := by
    rw [hin, List.append_assoc, ← hh, List.drop_left]
  rcases display_scan_pass B (n + 1) 0 (t.fptr_src_mp3.data.length : Int)
    { t with fptr_src_mp3 := { t.fptr_src_mp3 with pos := 10 } } T hB (by omega) hR0 rfl hlen hS
    with h | h
  · exact h
  · obtain ⟨t1, h1, h2, h3⟩ := h
    rw [h1]
    have hR1 := drop_add_of_drop _ _ _ _ hR0
    exact display_scan_truncated n _ _ t1 F T hF (by omega) hT hpre hne hcase
      (by rw [h2]; exact hR1) (by rw [h2]) h3

/-- Instance of the amended C8: the `TIT2` frame is cut after 13 of its 15 bytes. -/
theorem display_tag_truncation_detected_witness :
    ∃ k' t', display_tag 5 (demo_tagInfo
        (demo_header ++ frames_bytes [demo_artist, demo_other] ++ demo_title.bytes.take 13))
      = some (e_failure, k', t') :=
  display_tag_truncation_detected 5
    (demo_tagInfo
      (demo_header ++ frames_bytes [demo_artist, demo_other] ++ demo_title.bytes.take 13))
    demo_header [demo_artist, demo_other] demo_title (demo_title.bytes.take 13)
    (by decide) (by decide) (by decide) (by decide) (by decide) (by decide) (by decide)
    (by decide) (by decide) (by decide) (by decide) (by decide)

/-- Run of `display_tag` on a file of `2 ^ 31` bytes or more, and less than `2 ^ 32`:
`file_end` is negative, the loop is not entered and nothing is recorded. -/
theorem display_tag_large (fuel : Nat) (t : TagInfo)
    (hlo : 2147483648 ≤ t.fptr_src_mp3.data.length)
    (hhi : t.fptr_src_mp3.data.length < 4294967296) :
    display_tag (fuel + 1) t
      = some (e_success, 0, { t with fptr_src_mp3 := { t.fptr_src_mp3 with pos := 10 } }) := by
  have hw := wrap32_neg t.fptr_src_mp3.data.length hlo hhi
  unfold display_tag
  simp only []
  rw [display_scan, if_neg (by simp only []; omega)]

theorem frames_bytes_one (f : Frame) : frames_bytes [f] = f.bytes := by
  simp [frames_bytes]

/-- The example frame of the largest size is complete, of decoded size `2 ^ 31 - 1`. -/
theorem demo_large_title_complete :
    demo_large_title.Complete ∧ demo_large_title.size = 2147483647 := by
  have hs : demo_large_title.size = 2147483647 := by
    show read_frame_size_swap (int_of_bytes [127, 255, 255, 255]) = 2147483647
    decide
  have hp : demo_large_title.payload.length = 2147483646 := by
    show (List.replicate 2147483646 (65 : UInt8)).length = 2147483646
    exact List.length_replicate _ _
  exact ⟨⟨rfl, rfl, rfl, by rw [hs, hp]; rfl⟩, hs⟩

/-- Length of the file made of a header and the example frame of the largest size. -/
theorem demo_large_file_length :
    (demo_header ++ frames_bytes [demo_large_title]).length = 2147483667 := by
  have a1 : demo_header.length = 10 := rfl
  rw [frames_bytes_one, List.length_append, demo_large_title_length, a1]

/-- C10, as stated, fails: the file is a header and one complete frame `TIT2` of decoded size
`2 ^ 31 - 1`, an identifier of the catalog.  The file has more than `2 ^ 31` bytes, `file_end`
is negative, and the scan succeeds with an empty table. -/
theorem reader_table_counterexample :
    demo_large_title.Complete ∧ 2 ≤ demo_large_title.size ∧ demo_large_title.id ∈ tags_name
      ∧ display_tag 2 (demo_tagInfo (demo_header ++ frames_bytes [demo_large_title]))
        = some (e_success, 0,
            { demo_tagInfo (demo_header ++ frames_bytes [demo_large_title]) with
              fptr_src_mp3 :=
                { data := demo_header ++ frames_bytes [demo_large_title], pos := 10 } }) := by
  refine ⟨demo_large_title_complete.1, by rw [demo_large_title_complete.2]; decide, by decide,
    ?_⟩
  exact display_tag_large 1 (demo_tagInfo (demo_header ++ frames_bytes [demo_large_title]))
    (by simp only [demo_tagInfo, demo_large_file_length]; omega)
    (by simp only [demo_tagInfo, demo_large_file_length]; omega)

/-- C10, amended: the input is a 10-byte header followed, up to the end of the file, by
complete frames of decoded size at least 2; it is shorter than `2 ^ 31` bytes and the three
arrays of `TagInfo` have 8 entries.  Then the scan succeeds with `index` the smaller of 8 and
the number of frames whose identifier is in `tags_name`, and slots `0` to `index - 1` hold
these frames in file order: the identifier as a string, the decoded size, and the
`size - 1` payload bytes followed by a NUL.  Other frames leave no entry. -/
theorem display_tag_table (fuel : Nat) (t : TagInfo) (hdr : List UInt8) (B : List Frame)
    (hh : hdr.length = 10) (hB : ∀ f ∈ B, f.Complete ∧ 2 ≤ f.size)
    (hin : t.fptr_src_mp3.data = hdr ++ frames_bytes B)
    (hlen : t.fptr_src_mp3.data.length < 2147483648)
    (hI : t.frame_id.length = 8) (hS : t.frame_Size.length = 8) (hD : t.frame_data.length = 8)
    (hfuel : B.length < fuel) :
    ∃ t', display_tag fuel t
        = some (e_success, min 8 (B.filter (fun f => decide (f.id ∈ tags_name))).length, t')
      ∧ (t'.frame_id.take (min 8 (B.filter (fun f => decide (f.id ∈ tags_name))).length)).map cstr
        = ((B.filter (fun f => decide (f.id ∈ tags_name))).take 8).map (fun f => f.id)
      ∧ t'.frame_Size.take (min 8 (B.filter (fun f => decide (f.id ∈ tags_name))).length)
        = ((B.filter (fun f => decide (f.id ∈ tags_name))).take 8).map (fun f => f.size)
      ∧ t'.frame_data.take (min 8 (B.filter (fun f => decide (f.id ∈ tags_name))).length)
        = ((B.filter (fun f => decide (f.id ∈ tags_name))).take 8).map
            (fun f => f.payload ++ [0])
      ∧ ∀ f ∈ B, (f.payload.length : Int) = f.size - 1 := by
  have hB' : ∀ f ∈ B, f.Complete ∧ f.payload ≠ [] := by
    intro f hf
    obtain ⟨hc, h2⟩ := hB f hf
    refine ⟨hc, fun hp => ?_⟩
    rw [hc.2.2.2, hp] at h2
    simp at h2
  have hR0 : t.fptr_src_mp3.data.drop 10 = frames_bytes B := by
    rw [hin, ← hh, List.drop_left]
  have hpos : 10 ≤ t.fptr_src_mp3.data.length := by
    rw [hin]; simp [hh]
  obtain ⟨t', h1, h2, h3, h4⟩ := display_scan_frames B fuel 0 (t.fptr_src_mp3.data.length : Int)
    { t with fptr_src_mp3 := { t.fptr_src_mp3 with pos := 10 } } hB' (by omega) hR0 rfl hlen
    hpos hI hS hD hfuel
  simp only [Nat.zero_add, Nat.sub_zero, List.take_zero, List.map_nil, List.nil_append,
    List.length_take] at h1 h2 h3 h4
  refine ⟨t', ?_, h2, h3, h4, ?_⟩
  · unfold display_tag
    simp only []
    rw [wrap32_natCast _ hlen]
    exact h1
  · intro f hf
    rw [(hB f hf).1.2.2.2]
    simp

/-- Instance of C10: header, `TPE1` frame, `XXXX` frame and `TIT2` frame. -/
theorem display_tag_table_witness :
    ∃ t', display_tag 5 (demo_tagInfo
          (demo_header ++ frames_bytes [demo_artist, demo_other, demo_title]))
        = some (e_success,
            min 8 ([demo_artist, demo_other, demo_title].filter
              (fun f => decide (f.id ∈ tags_name))).length, t')
      ∧ (t'.frame_id.take (min 8 ([demo_artist, demo_other, demo_title].filter
            (fun f => decide (f.id ∈ tags_name))).length)).map cstr
        = (([demo_artist, demo_other, demo_title].filter
            (fun f => decide (f.id ∈ tags_name))).take 8).map (fun f => f.id)
      ∧ t'.frame_Size.take (min 8 ([demo_artist, demo_other, demo_title].filter
            (fun f => decide (f.id ∈ tags_name))).length)
        = (([demo_artist, demo_other, demo_title].filter
            (fun f => decide (f.id ∈ tags_name))).take 8).map (fun f => f.size)
      ∧ t'.frame_data.take (min 8 ([demo_artist, demo_other, demo_title].filter
            (fun f => decide (f.id ∈ tags_name))).length)
        = (([demo_artist, demo_other, demo_title].filter
            (fun f => decide (f.id ∈ tags_name))).take 8).map (fun f => f.payload ++ [0])
      ∧ ∀ f ∈ [demo_artist, demo_other, demo_title], (f.payload.length : Int) = f.size - 1 :=
  display_tag_table 5
    (demo_tagInfo (demo_header ++ frames_bytes [demo_artist, demo_other, demo_title]))
    demo_header [demo_artist, demo_other, demo_title]
    (by decide) (by decide) (by decide) (by decide) (by decide) (by decide) (by decide)
    (by decide)

/-! ## The selector table -/

theorem cstr_edit_operation : ∀ t ∈ edit_operation, cstr t = t := by decide

theorem check_edit_operation_unknown (op : List UInt8) (h : cstr op ∉ edit_operation) :
    check_edit_operation op = -1 := by
  unfold check_edit_operation
  have : (List.range MAX_FRAME_COUNT).find?
      (fun i => strcmp (edit_operation.getD i []) op == 0) = none := by
    rw [List.find?_eq_none]
    intro i hi
    simp only [beq_iff_eq, strcmp_eq_zero_iff]
    intro hc
    apply h
    rw [← hc]
    simp only [MAX_FRAME_COUNT, List.mem_range] at hi
    interval_cases i <;> decide
  rw [this]

/-- C9 (selector mapping): `check_edit_operation` followed by the lookup in `tags_name` sends
`-a -t -A -y -m -l -c -C` to `TPE1 TIT2 TALB TYER TCON TEXT TCOM COMM`; the eight identifiers
obtained are pairwise different; and for a string (the bytes of `op` before the first NUL) that
is none of the eight tokens, `check_edit_operation` returns `-1` and
`read_and_validate_edit_args` returns failure. -/
theorem selector_mapping :
    edit_operation
        = [ascii "-a", ascii "-t", ascii "-A", ascii "-y", ascii "-m", ascii "-l", ascii "-c",
           ascii "-C"]
      ∧ edit_operation.map
          (fun op => (check_edit_operation op,
            tags_name.getD (check_edit_operation op).toNat []))
        = [(0, ascii "TPE1"), (1, ascii "TIT2"), (2, ascii "TALB"), (3, ascii "TYER"),
           (4, ascii "TCON"), (5, ascii "TEXT"), (6, ascii "TCOM"), (7, ascii "COMM")]
      ∧ (edit_operation.map
          (fun op => tags_name.getD (check_edit_operation op).toNat [])).Nodup
      ∧ ∀ op : List UInt8, cstr op ∉ edit_operation →
          check_edit_operation op = -1
            ∧ ∀ (argv : List (List UInt8)) (edit : Edit), argv.get? 2 = some op →
                read_and_validate_edit_args argv edit = some (e_failure, edit) := by
  refine ⟨rfl, by decide, by decide, ?_⟩
  intro op hop
  have h := check_edit_operation_unknown op hop
  refine ⟨h, ?_⟩
  intro argv edit hargv
  unfold read_and_validate_edit_args
  rw [hargv]
  simp only [h, if_true]

/-- Instance of C9 for the token `-x`. -/
theorem selector_mapping_witness :
    check_edit_operation (ascii "-x") = -1
      ∧ read_and_validate_edit_args
          [ascii "mp3tag", ascii "-e", ascii "-x", ascii "a.mp3", ascii "Song"] (demo_edit [])
        = some (e_failure, demo_edit []) :=
  ⟨(selector_mapping.2.2.2 (ascii "-x") (by decide)).1,
   (selector_mapping.2.2.2 (ascii "-x") (by decide)).2 _ _ rfl⟩

/-! ## Termination of the reader -/

theorem looping_first (fuel : Nat) :
    display_scan (fuel + 1) 0 18
        { demo_tagInfo demo_looping with fptr_src_mp3 := { data := demo_looping, pos := 10 } }
      = display_scan fuel 0 18 demo_looping_state := by
  rw [display_scan]
  rfl

theorem looping_again (fuel : Nat) :
    display_scan (fuel + 1) 0 18 demo_looping_state
      = display_scan fuel 0 18 demo_looping_state := by
  rw [display_scan]
  rfl

theorem looping_none (fuel : Nat) : display_scan fuel 0 18 demo_looping_state = none := by
  induction fuel with
  | zero => rfl
  | succ n ih => rw [looping_again, ih]

/-- C11 (reader finiteness) fails on the file `demo_looping`: the unrecognized frame `XXXX`
has the size bytes `FF FF FF F6`, which decode to -10, so that `fseek` moves 8 bytes back to
the start of the frame and the scan reads the same frame again without end: no amount of fuel
gives a result. -/
theorem reader_loops_forever (fuel : Nat) :
    display_tag fuel (demo_tagInfo demo_looping) = none := by
  cases fuel with
  | zero => rfl
  | succ n =>
    show display_scan (n + 1) 0 18
        { demo_tagInfo demo_looping with fptr_src_mp3 := { data := demo_looping, pos := 10 } }
      = none
    rw [looping_first, looping_none]

/-! ## The file system on failure -/

theorem edit_tag_failure_disk (fuel : Nat) (e e' : Edit) (disk disk' : Disk)
    (h : edit_tag fuel e disk = some (e_failure, e', disk')) : disk' = disk := by
  unfold edit_tag at h
  simp only [] at h
  split at h
  · exact ((Prod.mk.inj (Prod.mk.inj (Option.some.inj h)).2).2).symm
  · split at h
    · cases h
    · exact ((Prod.mk.inj (Prod.mk.inj (Option.some.inj h)).2).2).symm
    · split at h
      · cases h
      · exact ((Prod.mk.inj (Prod.mk.inj (Option.some.inj h)).2).2).symm
      · simp [replace_old_file] at h

theorem edit_tag_success_steps (fuel : Nat) (e e' : Edit) (disk disk' : Disk)
    (h : edit_tag fuel e disk = some (e_success, e', disk')) :
    ∃ e1 e2 : Edit,
      copy_header_to_file { e with fptr_old := { e.fptr_old with pos := 0 } } = (e_success, e1)
      ∧ edit_loop fuel (wrap32 (e.fptr_old.data.length : Int)) e1 = some (e_success, e2)
      ∧ copy_remainig_data fuel e2 = some (e_success, e')
      ∧ disk' = (replace_old_file e'.fptr_new.data disk).2 := by
  unfold edit_tag at h
  simp only [] at h
  split at h
  · cases (Prod.mk.inj (Option.some.inj h)).1
  · rename_i e1 he1
    split at h
    · cases h
    · cases (Prod.mk.inj (Option.some.inj h)).1
    · rename_i e2 he2
      split at h
      · cases h
      · cases (Prod.mk.inj (Option.some.inj h)).1
      · rename_i e3 he3
        simp only [replace_old_file] at h
        have h' := Option.some.inj h
        have h1 := (Prod.mk.inj (Prod.mk.inj h').2).1
        have h2 := (Prod.mk.inj (Prod.mk.inj h').2).2
        subst h1
        exact ⟨e1, e2, he1, he2, he3, by rw [← h2]; rfl⟩

/-- C13 fails when the device has no room left.  The file is a header, the frame `TIT2` and
three further bytes, the request is the title `Song`.  The output stream accepts every write,
since the 28 bytes stay in its buffer and the code neither flushes nor closes it; the device
keeps none of them.  No step reports a failure, `edit_tag` returns success after one call of
`rename`, and the file that has taken the place of the original is empty. -/
theorem device_full_unreported :
    (edit_tag 5 (demo_edit (demo_header ++ demo_title.bytes ++ demo_audio))
          { demo_disk (demo_header ++ demo_title.bytes ++ demo_audio) with
            temp_room := 0 }).map (fun r => (r.1, r.2.1.fptr_new.data, r.2.2))
      = some (e_success,
          demo_header ++ ascii "TIT2" ++ [0, 0, 0, 5] ++ [0, 0, 0] ++ ascii "Song" ++ demo_audio,
          { demo_disk (demo_header ++ demo_title.bytes ++ demo_audio) with
            temp_room := 0, old_file := some [], rename_calls := 1 }) := by
  decide

/-- C12 (replacement failure is not reported): `replace_old_file` returns success whatever
`rename` answers, and a run of `edit_tag` whose `rename` fails returns success while the
original keeps its old contents. -/
theorem rename_failure_unreported :
    (∀ (new_contents : List UInt8) (disk : Disk),
        (replace_old_file new_contents disk).1 = e_success)
      ∧ replace_old_file (ascii "new")
          { demo_disk (ascii "old") with rename_ok := false }
        = (e_success, { demo_disk (ascii "old") with rename_ok := false, rename_calls := 1 })
      ∧ (edit_tag 5 (demo_edit (demo_header ++ demo_title.bytes ++ demo_audio))
            { demo_disk (demo_header ++ demo_title.bytes ++ demo_audio) with
              rename_ok := false }).map (fun r => (r.1, r.2.2))
        = some (e_success,
            { demo_disk (demo_header ++ demo_title.bytes ++ demo_audio) with
              rename_ok := false, rename_calls := 1 }) := by
  refine ⟨fun _ _ => rfl, by decide, by decide⟩

/-! ## Validation of the arguments of the editor -/

theorem zero_not_mem_cstr (s : List UInt8) : (0 : UInt8) ∉ cstr s := by
  induction s with
  | nil => simp [cstr_nil]
  | cons x xs ih =>
    by_cases hx : x = 0
    · subst hx; simp [cstr_cons_zero]
    · rw [cstr_cons_ne x xs hx]
      intro h
      rcases List.mem_cons.1 h with h | h
      · exact hx h.symm
      · exact ih h

theorem check_edit_operation_known (op : List UInt8) (h : cstr op ∈ edit_operation) :
    ∃ i : Nat, i < 8 ∧ check_edit_operation op = (i : Int)
      ∧ edit_operation.getD i [] = cstr op := by
  unfold check_edit_operation
  cases hf : (List.range MAX_FRAME_COUNT).find?
      (fun i => strcmp (edit_operation.getD i []) op == 0) with
  | none =>
    exfalso
    rw [List.find?_eq_none] at hf
    obtain ⟨j, hj, hge⟩ := List.getElem_of_mem h
    have hj8 : j < 8 := hj
    apply hf j (by simp [MAX_FRAME_COUNT]; exact hj8)
    simp only [beq_iff_eq, strcmp_eq_zero_iff]
    rw [List.getD_eq_getElem _ _ hj, hge, cstr_cstr]
  | some i =>
    have hp := List.find?_some hf
    have hm := List.mem_of_find?_eq_some hf
    simp only [MAX_FRAME_COUNT, List.mem_range] at hm
    simp only [beq_iff_eq, strcmp_eq_zero_iff] at hp
    refine ⟨i, hm, rfl, ?_⟩
    rw [← hp]
    have : edit_operation.getD i [] ∈ edit_operation := by
      interval_cases i <;> decide
    exact (cstr_edit_operation _ this).symm

theorem tags_name_getD_mem (i : Nat) (h : i < 8) : tags_name.getD i [] ∈ tags_name := by
  interval_cases i <;> decide

/-- The comparison of the last four bytes of the path with `.mp3`. -/
theorem mp3_suffix_iff (path : List UInt8) (h4 : 4 ≤ strlen path) :
    strncmp ((cstr path).drop (strlen path - 4)) (ascii ".mp3") 4 = 0
      ↔ ascii ".mp3" <:+ cstr path := by
  unfold strlen at h4 ⊢
  generalize hs : cstr path = s at h4 ⊢
  have hz : (0 : UInt8) ∉ s := by rw [← hs]; exact zero_not_mem_cstr path
  have hX : (0 : UInt8) ∉ s.drop (s.length - 4) := fun h => hz (List.mem_of_mem_drop h)
  have hXl : (s.drop (s.length - 4)).length = 4 := by simp; omega
  have hc : cstr (ascii ".mp3") = ascii ".mp3" := by decide
  have hl : (ascii ".mp3").length = 4 := rfl
  rw [strncmp_eq_zero_iff, cstr_eq_self _ hX, hc, List.take_of_length_le (by omega),
    List.take_of_length_le (by omega)]
  constructor
  · intro h
    rw [← h]
    exact List.drop_suffix _ _
  · intro h
    obtain ⟨t, ht⟩ := h
    have : s.length = t.length + 4 := by rw [← ht]; simp [hl]
    rw [← ht, List.length_append, hl, Nat.add_sub_cancel, List.drop_left]

theorem concat_args_eq (a : List UInt8) (rest : List (List UInt8)) :
    concat_args (a :: rest) = spec_joined_text ((a :: rest).map cstr) := by
  induction rest generalizing a with
  | nil => simp [concat_args, spec_joined_text, List.intercalate]
  | cons b rest ih =>
    rw [concat_args, ih b]
    simp [spec_joined_text, List.intercalate, List.intersperse]

theorem concat_args_length (texts : List (List UInt8)) :
    (concat_args texts).length = (texts.map strlen).sum + texts.length := by
  induction texts with
  | nil => rfl
  | cons a rest ih =>
    simp only [concat_args, List.length_append, List.length_cons, List.length_nil, ih,
      List.map_cons, List.sum_cons, strlen]
    omega

/-- The bytes before `argv[3]`: three strings with their terminators. -/
theorem argv_before_three (a0 a1 op : List UInt8) (rest : List (List UInt8)) :
    argv_before (a0 :: a1 :: op :: rest) 3
      = (cstr a0 ++ [0] ++ cstr a1 ++ [0] ++ cstr op) ++ [0] := by
  cases rest <;> simp [argv_before]

/-- A comparison of four bytes that starts `k` bytes before a terminator, `k < 4`, does not
find `.mp3`. -/
theorem strncmp_before_terminator (M T : List UInt8) (h : M.length < 4) :
    strncmp (M ++ [0] ++ T) (ascii ".mp3") 4 ≠ 0 := by
  rw [Ne, strncmp_eq_zero_iff]
  have hc : cstr (ascii ".mp3") = ascii ".mp3" := by decide
  have h1 : cstr (M ++ [0] ++ T) = cstr M := by
    rw [List.append_assoc]; exact cstr_append_zero M T
  rw [h1, hc]
  intro heq
  have h2 := congrArg List.length heq
  have h3 := cstr_length_le M
  have h4 : ((ascii ".mp3").take 4).length = 4 := rfl
  rw [h4, List.length_take] at h2
  omega

/-- The comparison with `.mp3` for a path of fewer than 4 bytes in `argv[3]`, after a
selector that is not empty: it is defined and does not answer 0. -/
theorem mp3_suffix_cmp_short (a0 a1 op path : List UInt8) (rest : List (List UInt8))
    (hop : 1 ≤ strlen op) (h : strlen path < 4) :
    ∃ c, mp3_suffix_cmp (a0 :: a1 :: op :: path :: rest) 3 path = some c ∧ c ≠ 0 := by
  unfold mp3_suffix_cmp
  rw [if_neg (by omega), argv_before_three]
  have hl : (cstr a0 ++ [0] ++ cstr a1 ++ [0] ++ cstr op ++ [0]).length
      = (cstr a0 ++ [0] ++ cstr a1 ++ [0] ++ cstr op).length + 1 := by
    rw [List.length_append]; rfl
  have hm : 3 ≤ (cstr a0 ++ [0] ++ cstr a1 ++ [0] ++ cstr op).length := by
    unfold strlen at hop
    simp only [List.length_append, List.length_cons, List.length_nil]
    omega
  rw [if_neg (by rw [hl]; omega)]
  refine ⟨_, rfl, ?_⟩
  rw [hl, List.drop_append_of_le_length (by omega), List.append_assoc _ [0] (cstr path),
    List.append_assoc _ ([0] ++ cstr path) [0], List.append_assoc [0] (cstr path) [0],
    ← List.append_assoc _ [0] (cstr path ++ [0])]
  apply strncmp_before_terminator
  rw [List.length_drop]
  omega

/-- A string that ends in `.mp3` has at least 4 bytes. -/
theorem strlen_of_mp3_suffix (path : List UInt8) (h : ascii ".mp3" <:+ cstr path) :
    4 ≤ strlen path := by
  obtain ⟨t, ht⟩ := h
  unfold strlen
  rw [← ht, List.length_append]
  have : (ascii ".mp3").length = 4 := rfl
  omega

theorem selector_mapping_aux (op : List UInt8) (hop : cstr op ∉ edit_operation) :
    ∀ (argv : List (List UInt8)) (edit : Edit), argv.get? 2 = some op →
      read_and_validate_edit_args argv edit = some (e_failure, edit) := by
  intro argv edit hargv
  have h := check_edit_operation_unknown op hop
  unfold read_and_validate_edit_args
  rw [hargv]
  simp only [h, if_true]

theorem read_and_validate_edit_args_ok (a0 a1 op path : List UInt8)
    (texts : List (List UInt8)) (edit : Edit) (hop : cstr op ∈ edit_operation)
    (h4 : 4 ≤ strlen path) (hsuf : ascii ".mp3" <:+ cstr path) (hne : texts ≠ [])
    (hlen : (concat_args texts).length < 100) :
    read_and_validate_edit_args (a0 :: a1 :: op :: path :: texts) edit
      = some (e_success, { edit with
          frame_id := strcpy edit.frame_id
            (tags_name.getD (check_edit_operation op).toNat [])
          old_fname := cstr path
          new_frame_data := concat_args texts
          new_frame_size := ((concat_args texts).length : Int) }) := by
  obtain ⟨i, hi, hci, _⟩ := check_edit_operation_known op hop
  obtain ⟨t, ts, rfl⟩ := List.exists_cons_of_ne_nil hne
  unfold read_and_validate_edit_args
  simp only [List.get?, List.drop]
  rw [if_neg (by rw [hci]; omega), mp3_suffix_cmp_long _ _ _ h4]
  simp only []
  rw [if_neg (by rw [(mp3_suffix_iff path h4).2 hsuf]; simp), if_neg (by omega)]

/-- C14, as stated, fails: the selector `-t` is in the table, the file argument `mp3` is
there and a text follows it; the path has 3 bytes, so none of the cases of failure of the
claim applies, and `read_and_validate_edit_args` returns failure: the four bytes compared
with `.mp3` start at the terminator of `-t`. -/
theorem edit_args_counterexample :
    cstr (ascii "-t") ∈ edit_operation ∧ strlen (ascii "mp3") < 4
      ∧ (read_and_validate_edit_args
          [ascii "mp3tag", ascii "-e", ascii "-t", ascii "mp3", ascii "Song"]
          (demo_edit [])).map (fun r => r.1)
        = some e_failure := by
  decide

/-- C14, amended: `read_and_validate_edit_args` returns failure when the selector is not in
the table, when the file argument is missing, when the path does not end in `.mp3` (a path of
fewer than 4 bytes does not), and when no replacement text follows the path; for a selector of
the table, a path ending in `.mp3` and a text whose assembly stays below the 100 bytes of
`buffer` it returns success, with the identifier mapped from the selector in `frame_id` and the
path in `old_fname`. -/
theorem edit_args_validation (a0 a1 op : List UInt8) (rest : List (List UInt8))
    (edit : Edit) :
    (cstr op ∉ edit_operation →
        read_and_validate_edit_args (a0 :: a1 :: op :: rest) edit = some (e_failure, edit))
      ∧ (cstr op ∈ edit_operation →
        (rest = [] →
          ∃ e', read_and_validate_edit_args (a0 :: a1 :: op :: rest) edit
            = some (e_failure, e'))
        ∧ ∀ (path : List UInt8) (texts : List (List UInt8)), rest = path :: texts →
          (¬ ascii ".mp3" <:+ cstr path →
            ∃ e', read_and_validate_edit_args (a0 :: a1 :: op :: rest) edit
              = some (e_failure, e'))
          ∧ (ascii ".mp3" <:+ cstr path → texts = [] →
            ∃ e', read_and_validate_edit_args (a0 :: a1 :: op :: rest) edit
              = some (e_failure, e'))
          ∧ (ascii ".mp3" <:+ cstr path → texts ≠ [] → (concat_args texts).length < 100 →
            ∃ e', read_and_validate_edit_args (a0 :: a1 :: op :: rest) edit
                = some (e_success, e')
              ∧ cstr e'.frame_id = tags_name.getD (check_edit_operation op).toNat []
              ∧ tags_name.getD (check_edit_operation op).toNat [] ∈ tags_name
              ∧ edit_operation.getD (check_edit_operation op).toNat [] = cstr op
              ∧ e'.old_fname = cstr path)) := by
  refine ⟨?_, ?_⟩
  · intro hop
    exact (selector_mapping_aux op hop) _ _ rfl
  · intro hop
    obtain ⟨i, hi, hci, hge⟩ := check_edit_operation_known op hop
    have hop1 : 1 ≤ strlen op := by
      have : ∀ t ∈ edit_operation, 1 ≤ t.length := by decide
      exact this _ hop
    refine ⟨?_, ?_⟩
    · intro hr
      subst hr
      unfold read_and_validate_edit_args
      simp only [List.get?]
      rw [if_neg (by rw [hci]; omega)]
      exact ⟨_, rfl⟩
    · intro path texts hr
      subst hr
      refine ⟨?_, ?_, ?_⟩
      · intro hns
        unfold read_and_validate_edit_args
        simp only [List.get?]
        rw [if_neg (by rw [hci]; omega)]
        by_cases h4 : 4 ≤ strlen path
        · rw [mp3_suffix_cmp_long _ _ _ h4]
          simp only []
          rw [if_pos (by rw [Ne, mp3_suffix_iff path h4]; exact hns)]
          exact ⟨_, rfl⟩
        · obtain ⟨c, hc, hc0⟩ := mp3_suffix_cmp_short a0 a1 op path texts hop1 (by omega)
          rw [hc]
          simp only []
          rw [if_pos hc0]
          exact ⟨_, rfl⟩
      · intro hs ht
        subst ht
        have h4 := strlen_of_mp3_suffix path hs
        unfold read_and_validate_edit_args
        simp only [List.get?]
        rw [if_neg (by rw [hci]; omega), mp3_suffix_cmp_long _ _ _ h4]
        simp only []
        rw [if_neg (by rw [(mp3_suffix_iff path h4).2 hs]; simp)]
        exact ⟨_, rfl⟩
      · intro hs hne hlen
        have h4 := strlen_of_mp3_suffix path hs
        refine ⟨_, read_and_validate_edit_args_ok a0 a1 op path texts edit hop h4 hs hne hlen,
          ?_, ?_, ?_, rfl⟩
        · show cstr (strcpy edit.frame_id (tags_name.getD (check_edit_operation op).toNat []))
            = _
          rw [hci, Int.toNat_ofNat, cstr_strcpy,
            cstr_eq_self _ (tags_name_props _ (tags_name_getD_mem i hi)).2]
        · rw [hci, Int.toNat_ofNat]; exact tags_name_getD_mem i hi
        · rw [hci, Int.toNat_ofNat]; exact hge

/-- Instance of the amended C14: `-t a.mp3 Song` gives success, `TIT2` and the path. -/
theorem edit_args_validation_witness :
    ∃ e', read_and_validate_edit_args
          (ascii "mp3tag" :: ascii "-e" :: ascii "-t" :: [ascii "a.mp3", ascii "Song"])
          (demo_edit [])
        = some (e_success, e')
      ∧ cstr e'.frame_id = tags_name.getD (check_edit_operation (ascii "-t")).toNat []
      ∧ tags_name.getD (check_edit_operation (ascii "-t")).toNat [] ∈ tags_name
      ∧ edit_operation.getD (check_edit_operation (ascii "-t")).toNat [] = cstr (ascii "-t")
      ∧ e'.old_fname = cstr (ascii "a.mp3") :=
  (((edit_args_validation (ascii "mp3tag") (ascii "-e") (ascii "-t")
      [ascii "a.mp3", ascii "Song"] (demo_edit [])).2 (by decide)).2
      (ascii "a.mp3") [ascii "Song"] rfl).2.2 (by decide) (by decide) (by decide)

/-- C15 (replacement text assembly): for a selector of the table, a path ending in `.mp3` and
a non-empty list of trailing arguments whose assembly is shorter than 100 bytes,
`read_and_validate_edit_args` succeeds and stores in `new_frame_data` the arguments joined by
single spaces and followed by one space (`spec_joined_text`), and in `new_frame_size` its
length, the sum of the lengths of the arguments plus their number. -/
theorem replacement_text_assembly (a0 a1 op path : List UInt8) (texts : List (List UInt8))
    (edit : Edit) (hop : cstr op ∈ edit_operation) (h4 : 4 ≤ strlen path)
    (hsuf : ascii ".mp3" <:+ cstr path) (hne : texts ≠ [])
    (hlen : (spec_joined_text (texts.map cstr)).length < 100) :
    ∃ e', read_and_validate_edit_args (a0 :: a1 :: op :: path :: texts) edit
        = some (e_success, e')
      ∧ e'.new_frame_data = spec_joined_text (texts.map cstr)
      ∧ e'.new_frame_size = (((spec_joined_text (texts.map cstr)).length : Nat) : Int)
      ∧ (spec_joined_text (texts.map cstr)).length = (texts.map strlen).sum + texts.length := by
  obtain ⟨t, ts, rfl⟩ := List.exists_cons_of_ne_nil hne
  rw [← concat_args_eq] at hlen ⊢
  exact ⟨_, read_and_validate_edit_args_ok a0 a1 op path (t :: ts) edit hop h4 hsuf hne hlen,
    rfl, rfl, concat_args_length _⟩

/-- Instance of C15: the arguments `New` and `Song` give `New Song ` and the size 9. -/
theorem replacement_text_assembly_witness :
    ∃ e', read_and_validate_edit_args
          (ascii "mp3tag" :: ascii "-e" :: ascii "-t" :: ascii "a.mp3"
            :: [ascii "New", ascii "Song"]) (demo_edit [])
        = some (e_success, e')
      ∧ e'.new_frame_data = spec_joined_text ([ascii "New", ascii "Song"].map cstr)
      ∧ e'.new_frame_size
        = (((spec_joined_text ([ascii "New", ascii "Song"].map cstr)).length : Nat) : Int)
      ∧ (spec_joined_text ([ascii "New", ascii "Song"].map cstr)).length
        = ([ascii "New", ascii "Song"].map strlen).sum + [ascii "New", ascii "Song"].length :=
  replacement_text_assembly (ascii "mp3tag") (ascii "-e") (ascii "-t") (ascii "a.mp3")
    [ascii "New", ascii "Song"] (demo_edit []) (by decide) (by decide) (by decide) (by decide)
    (by decide)

/-! ## The exit status of `main` -/

theorem get?_one_lt (argv : List (List UInt8)) (a1 : List UInt8)
    (h : argv.get? 1 = some a1) : ¬ argv.length < 2 := by
  intro hl
  have : argv.get? 1 = none := List.get?_eq_none.2 (by omega)
  rw [this] at h
  exact Option.noConfusion h

/-- C16, as stated, fails: an invocation without any argument is answered with the hint on
the error stream and the status 0. -/
theorem exit_status_counterexample :
    main 1 [ascii "mp3tag"] (demo_tagInfo []) (demo_edit []) (demo_disk [])
      = some (0, demo_disk []) := by
  decide

/-- A failure of `open_edit_files` leaves the file system as it was. -/
theorem open_edit_files_failure_disk (e e' : Edit) (disk disk' : Disk)
    (h : open_edit_files e disk = (e_failure, e', disk')) : disk' = disk := by
  unfold open_edit_files at h
  split at h
  · exact ((Prod.mk.inj (Prod.mk.inj h).2).2).symm
  · simp only [] at h
    split at h
    · split at h
      · cases (Prod.mk.inj h).1
      · cases (Prod.mk.inj h).1
    · exact ((Prod.mk.inj (Prod.mk.inj h).2).2).symm

/-- C16, amended: `main` returns -1 when fewer than 3 arguments are given without `--help`,
when the mode is neither `-v` nor `-e`, and when the number of arguments does not fit the mode;
it returns 1 when the validation of the arguments, the opening of the files, `display_tag` or
`edit_tag` returns failure; it returns 0 when no argument at all is given, when `--help` is
asked for, and when the three steps of the view or of the edit have returned success, and in no
other case. -/
theorem main_exit_status (fuel : Nat) (argv : List (List UInt8)) (tagInfo : TagInfo)
    (edit : Edit) (disk : Disk) :
    (argv.length < 2 → main fuel argv tagInfo edit disk = some (0, disk))
      ∧ (∀ a1, argv.get? 1 = some a1 → strcmp a1 (ascii "--help") = 0 →
          main fuel argv tagInfo edit disk = some (0, disk))
      ∧ (∀ a1, argv.get? 1 = some a1 → strcmp a1 (ascii "--help") ≠ 0 →
          (argv.length < 3 → main fuel argv tagInfo edit disk = some (-1, disk))
          ∧ (3 ≤ argv.length →
            (check_operation_type argv = some e_unsupported →
              main fuel argv tagInfo edit disk = some (-1, disk))
            ∧ (check_operation_type argv = some e_display →
              (argv.length ≠ 3 → main fuel argv tagInfo edit disk = some (-1, disk))
              ∧ (argv.length = 3 →
                (∀ t1, read_and_validate_args argv tagInfo = some (e_failure, t1) →
                  main fuel argv tagInfo edit disk = some (1, disk))
                ∧ (∀ t1 t2, read_and_validate_args argv tagInfo = some (e_success, t1) →
                  open_files t1 disk = (e_failure, t2) →
                  main fuel argv tagInfo edit disk = some (1, disk))
                ∧ (∀ t1 t2 t3, read_and_validate_args argv tagInfo = some (e_success, t1) →
                  open_files t1 disk = (e_success, t2) →
                  display_tag fuel t2 = some (e_failure, t3) →
                  main fuel argv tagInfo edit disk = some (1, disk))
                ∧ (∀ t1 t2 t3, read_and_validate_args argv tagInfo = some (e_success, t1) →
                  open_files t1 disk = (e_success, t2) →
                  display_tag fuel t2 = some (e_success, t3) →
                  main fuel argv tagInfo edit disk = some (0, disk))))
            ∧ (check_operation_type argv = some e_edit →
              (argv.length < 4 → main fuel argv tagInfo edit disk = some (-1, disk))
              ∧ (4 ≤ argv.length →
                (∀ e1, read_and_validate_edit_args argv edit = some (e_failure, e1) →
                  main fuel argv tagInfo edit disk = some (1, disk))
                ∧ (∀ e1 e2 d1, read_and_validate_edit_args argv edit = some (e_success, e1) →
                  open_edit_files e1 disk = (e_failure, e2, d1) →
                  main fuel argv tagInfo edit disk = some (1, disk))
                ∧ (∀ e1 e2 d1 e3 d,
                  read_and_validate_edit_args argv edit = some (e_success, e1) →
                  open_edit_files e1 disk = (e_success, e2, d1) →
                  edit_tag fuel e2 d1 = some (e_failure, e3, d) →
                  main fuel argv tagInfo edit disk = some (1, d))
                ∧ (∀ e1 e2 d1 e3 d,
                  read_and_validate_edit_args argv edit = some (e_success, e1) →
                  open_edit_files e1 disk = (e_success, e2, d1) →
                  edit_tag fuel e2 d1 = some (e_success, e3, d) →
                  main fuel argv tagInfo edit disk = some (0, d))))))
      ∧ (∀ d, main fuel argv tagInfo edit disk = some (0, d) →
          argv.length < 2
          ∨ (∃ a1, argv.get? 1 = some a1 ∧ strcmp a1 (ascii "--help") = 0)
          ∨ (check_operation_type argv = some e_display ∧ argv.length = 3
              ∧ ∃ t1 t2 t3, read_and_validate_args argv tagInfo = some (e_success, t1)
                ∧ open_files t1 disk = (e_success, t2)
                ∧ display_tag fuel t2 = some (e_success, t3) ∧ d = disk)
          ∨ (check_operation_type argv = some e_edit ∧ 4 ≤ argv.length
              ∧ ∃ e1 e2 d1 e3, read_and_validate_edit_args argv edit = some (e_success, e1)
                ∧ open_edit_files e1 disk = (e_success, e2, d1)
                ∧ edit_tag fuel e2 d1 = some (e_success, e3, d))) := by
  refine ⟨?_, ?_, ?_, ?_⟩
  · intro h
    unfold main
    rw [if_pos h]
  · intro a1 ha1 hh
    unfold main
    rw [if_neg (get?_one_lt argv a1 ha1)]
    simp only [ha1, hh, if_true]
  · intro a1 ha1 hh
    have h2 := get?_one_lt argv a1 ha1
    refine ⟨?_, ?_⟩
    · intro h3
      unfold main
      rw [if_neg h2]
      simp only [ha1, hh, if_false, h3, if_true]
    · intro h3
      have h3n : ¬ argv.length < 3 := by omega
      refine ⟨?_, ?_, ?_⟩
      · intro hop
        unfold main
        rw [if_neg h2]
        simp only [ha1, hh, if_false, h3n, hop]
      · intro hop
        refine ⟨?_, ?_⟩
        · intro hn
          unfold main
          rw [if_neg h2]
          simp only [ha1, hh, if_false, h3n, hop, hn]
        · intro hl
          refine ⟨?_, ?_, ?_, ?_⟩
          · intro t1 h1
            unfold main
            rw [if_neg h2]
            simp only [ha1, hh, if_false, h3n, hop, hl, if_true, h1]
            rfl
          · intro t1 t2 h1 h2
            unfold main
            rw [if_neg (by omega)]
            simp only [ha1, hh, if_false, h3n, hop, hl, if_true, h1, h2]
            rfl
          · intro t1 t2 t3 h1 h2 h3
            unfold main
            rw [if_neg (by omega)]
            simp only [ha1, hh, if_false, h3n, hop, hl, if_true, h1, h2, h3]
            rfl
          · intro t1 t2 t3 h1 h2 h3
            unfold main
            rw [if_neg (by omega)]
            simp only [ha1, hh, if_false, h3n, hop, if_pos hl, h1, h2, h3]
      · intro hop
        refine ⟨?_, ?_⟩
        · intro hn
          unfold main
          rw [if_neg h2]
          simp only [ha1, hh, if_false, h3n, hop, if_neg (show ¬ 4 ≤ argv.length by omega)]
        · intro hl
          refine ⟨?_, ?_, ?_, ?_⟩
          · intro t1 h1
            unfold main
            rw [if_neg h2]
            simp only [ha1, hh, if_false, h3n, hop, hl, if_true, h1]
            rfl
          · intro t1 t2 d1 h1 h2
            have hd := open_edit_files_failure_disk t1 t2 disk d1 h2
            subst hd
            unfold main
            rw [if_neg (by omega)]
            simp only [ha1, hh, if_false, h3n, hop, hl, if_true, h1, h2]
            rfl
          · intro t1 t2 d1 t3 d h1 h2 h3
            unfold main
            rw [if_neg (by omega)]
            simp only [ha1, hh, if_false, h3n, hop, hl, if_true, h1, h2, h3]
            rfl
          · intro t1 t2 d1 t3 d h1 h2 h3
            unfold main
            rw [if_neg (by omega)]
            simp only [ha1, hh, if_false, h3n, hop, hl, if_true, h1, h2, h3]
  · intro d h
    unfold main at h
    by_cases h2 : argv.length < 2
    · exact Or.inl h2
    · right
      rw [if_neg h2] at h
      cases ha1 : argv.get? 1 with
      | none => rw [ha1] at h; exact Option.noConfusion h
      | some a1 =>
        rw [ha1] at h
        simp only [] at h
        by_cases hh : strcmp a1 (ascii "--help") = 0
        · exact Or.inl ⟨a1, rfl, hh⟩
        · right
          rw [if_neg hh] at h
          by_cases h3 : argv.length < 3
          · rw [if_pos h3] at h
            simp at h
          · rw [if_neg h3] at h
            cases hop : check_operation_type argv with
            | none => rw [hop] at h; exact Option.noConfusion h
            | some op =>
              rw [hop] at h
              cases op with
              | e_unsupported => simp at h
              | e_display =>
                left
                simp only [] at h
                by_cases hl : argv.length = 3
                · rw [if_pos hl] at h
                  refine ⟨rfl, hl, ?_⟩
                  cases h1 : read_and_validate_args argv tagInfo with
                  | none => rw [h1] at h; exact Option.noConfusion h
                  | some r1 =>
                    obtain ⟨s1, t1⟩ := r1
                    rw [h1] at h
                    cases s1 with
                    | e_failure => simp [Status.toInt] at h
                    | e_success =>
                      simp only [] at h
                      cases h2 : open_files t1 disk with
                      | mk s2 t2 =>
                        rw [h2] at h
                        cases s2 with
                        | e_failure => simp [Status.toInt] at h
                        | e_success =>
                          simp only [] at h
                          cases h3 : display_tag fuel t2 with
                          | none => rw [h3] at h; exact Option.noConfusion h
                          | some r3 =>
                            obtain ⟨s3, t3⟩ := r3
                            rw [h3] at h
                            cases s3 with
                            | e_failure => simp [Status.toInt] at h
                            | e_success =>
                              simp only [Option.some.injEq, Prod.mk.injEq, true_and] at h
                              exact ⟨t1, t2, t3, rfl, h2, h3, h.symm⟩
                · rw [if_neg hl] at h
                  simp at h
              | e_edit =>
                right
                simp only [] at h
                by_cases hl : 4 ≤ argv.length
                · rw [if_pos hl] at h
                  refine ⟨rfl, hl, ?_⟩
                  cases h1 : read_and_validate_edit_args argv edit with
                  | none => rw [h1] at h; exact Option.noConfusion h
                  | some r1 =>
                    obtain ⟨s1, e1⟩ := r1
                    rw [h1] at h
                    cases s1 with
                    | e_failure => simp [Status.toInt] at h
                    | e_success =>
                      simp only [] at h
                      cases h2 : open_edit_files e1 disk with
                      | mk s2 r2 =>
                        obtain ⟨e2, d1⟩ := r2
                        rw [h2] at h
                        cases s2 with
                        | e_failure => simp [Status.toInt] at h
                        | e_success =>
                          simp only [] at h
                          cases h3 : edit_tag fuel e2 d1 with
                          | none => rw [h3] at h; exact Option.noConfusion h
                          | some r3 =>
                            obtain ⟨s3, e3, d3⟩ := r3
                            rw [h3] at h
                            cases s3 with
                            | e_failure => simp [Status.toInt] at h
                            | e_success =>
                              simp only [Option.some.injEq, Prod.mk.injEq, true_and] at h
                              subst h
                              exact ⟨e1, e2, d1, e3, rfl, h2, h3⟩
                · rw [if_neg hl] at h
                  simp at h

/-- Instance of the amended C16: a view of `a.txt` gives the status 1, and the edit
`-e -t a.mp3 Song` gives the status 0 and the rewritten file. -/
theorem main_exit_status_witness :
    main 5 [ascii "mp3tag", ascii "-v", ascii "a.txt"] (demo_tagInfo []) (demo_edit [])
        (demo_disk (demo_header ++ demo_title.bytes ++ demo_audio))
      = some (1, demo_disk (demo_header ++ demo_title.bytes ++ demo_audio))
    ∧ main 5 [ascii "mp3tag", ascii "-e", ascii "-t", ascii "a.mp3", ascii "Song"]
        (demo_tagInfo []) (demo_edit [])
        (demo_disk (demo_header ++ demo_title.bytes ++ demo_audio))
      = some (0, { demo_disk (demo_header ++ ascii "TIT2" ++ [0, 0, 0, 5] ++ [0, 0, 0]
                      ++ ascii "Song" ++ demo_audio) with rename_calls := 1 }) :=
  ⟨(((((main_exit_status 5 [ascii "mp3tag", ascii "-v", ascii "a.txt"] (demo_tagInfo [])
        (demo_edit []) (demo_disk (demo_header ++ demo_title.bytes ++ demo_audio))).2.2.1
        (ascii "-v") rfl (by decide)).2 (by decide)).2.1 (by decide)).2 (by decide)).1
        (demo_tagInfo []) (by decide),
   (((((main_exit_status 5 [ascii "mp3tag", ascii "-e", ascii "-t", ascii "a.mp3", ascii "Song"]
        (demo_tagInfo []) (demo_edit [])
        (demo_disk (demo_header ++ demo_title.bytes ++ demo_audio))).2.2.1
        (ascii "-e") rfl (by decide)).2 (by decide)).2.2 (by decide)).2 (by decide)).2.2.2
        _ _ _ _ _ rfl rfl rfl⟩

/-! ## The first matching frame -/

theorem edit_loop_mono_add (k fuel : Nat) (fe : Int) (e : Edit) (r : Status × Edit)
    (h : edit_loop fuel fe e = some r) : edit_loop (fuel + k) fe e = some r := by
  induction k with
  | zero => exact h
  | succ k ih => exact edit_loop_mono _ fe e r ih

/-- Where a successful frame loop stops: right after the first frame with the target
identifier, with that frame rewritten and nothing after it read. -/
theorem edit_loop_found_stop (fuel : Nat) (fe : Int) (e e2 : Edit) (B : List Frame) (F : Frame)
    (rest tgt : List UInt8) (hB : ∀ f ∈ B, f.Complete ∧ f.id ≠ tgt)
    (hF : F.Complete) (hid : F.id = tgt)
    (hR : e.fptr_old.data.drop e.fptr_old.pos = frames_bytes B ++ (F.bytes ++ rest))
    (hW : e.fptr_new.pos = e.fptr_new.data.length)
    (hfe : fe = (e.fptr_old.data.length : Int))
    (htgt : e.frame_id = tgt ++ [0]) (ht4 : tgt.length = 4) (hz : (0 : UInt8) ∉ tgt)
    (hcap : e.fptr_new.data.length ≤ e.fptr_new.cap)
    (hrun : edit_loop fuel fe e = some (e_success, e2)) :
    e2.fptr_old = { e.fptr_old with
        pos := e.fptr_old.pos + (frames_bytes B).length + F.bytes.length }
      ∧ e2.fptr_new.data = e.fptr_new.data ++ frames_bytes B ++ F.id
          ++ bytes_of_int (replace_edit_frame_size_swap e.new_frame_size) ++ F.flags
          ++ (e.new_frame_data ++ [0]).take
              ((e.new_frame_size - 1) % 18446744073709551616).toNat := by
  have hm := edit_loop_mono_add (B.length + 1) fuel fe e _ hrun
  rw [show fuel + (B.length + 1) = (fuel + 1) + B.length by omega] at hm
  rcases edit_loop_copy_all tgt ht4 hz fe B (fuel + 1) e (F.bytes ++ rest) hB hR hW hfe htgt hcap
    with ⟨_, _, e', heq, hold, hnew, hfid, hnfs, hnfd⟩ | ⟨_, e', hf⟩
  · rw [heq] at hm
    have hR' : e'.fptr_old.data.drop e'.fptr_old.pos = F.bytes ++ rest := by
      rw [hold]
      show e.fptr_old.data.drop (e.fptr_old.pos + (frames_bytes B).length) = _
      exact drop_add_of_drop _ _ _ _ hR
    have hW' : e'.fptr_new.pos = e'.fptr_new.data.length := by
      rw [hnew]; simp
    have hfe' : fe = (e'.fptr_old.data.length : Int) := by rw [hold]; exact hfe
    rcases edit_loop_match fuel fe e' F rest tgt hF hR' hW' hfe' (hfid.trans htgt) ht4 hz hid
      with ⟨_, _, _, _, e3, h3, hold3, hnew3⟩ | ⟨_, e3, hf⟩
    · rw [h3] at hm
      have he : e3 = e2 := (Prod.mk.inj (Option.some.inj hm)).2
      subst he
      refine ⟨?_, ?_⟩
      · rw [hold3, hold]
      · rw [hnew3, hnew, hnfs, hnfd]
    · rw [hf] at hm
      cases (Prod.mk.inj (Option.some.inj hm)).1
  · rw [hf] at hm
    cases (Prod.mk.inj (Option.some.inj hm)).1


/-- C17, as stated, fails: the file is a header, two `TIT2` frames and `2 ^ 31` zero bytes.
Its length does not fit `int file_end`, the frame loop is not entered, and `edit_tag`
succeeds with an output that is the input: the first `TIT2` frame has not been replaced by
the frame of the request, `Song` with the size 5. -/
theorem first_match_counterexample :
    (∃ (e' : Edit) (disk' : Disk),
        edit_tag 2147483700
            (demo_large_edit
              (demo_header ++ demo_title.bytes ++ demo_title.bytes ++ demo_padding))
            (demo_large_disk
              (demo_header ++ demo_title.bytes ++ demo_title.bytes ++ demo_padding))
          = some (e_success, e', disk')
        ∧ e'.fptr_new.data
          = demo_header ++ demo_title.bytes ++ demo_title.bytes ++ demo_padding)
      ∧ demo_header ++ demo_title.bytes ++ demo_title.bytes ++ demo_padding
        ≠ demo_header ++ (ascii "TIT2" ++ [0, 0, 0, 5] ++ [0, 0, 0] ++ ascii "Song")
            ++ demo_title.bytes ++ demo_padding := by
  have hlen : (demo_header ++ demo_title.bytes ++ demo_title.bytes ++ demo_padding).length
      = 2147483688 := by
    have a1 : demo_header.length = 10 := rfl
    have a2 : demo_title.bytes.length = 15 := rfl
    rw [List.length_append, List.length_append, List.length_append, demo_padding_length, a1, a2]
  refine ⟨?_, ?_⟩
  · obtain ⟨e', he', hd'⟩ := edit_tag_large 2147483700
      (demo_large_edit (demo_header ++ demo_title.bytes ++ demo_title.bytes ++ demo_padding))
      (demo_large_disk (demo_header ++ demo_title.bytes ++ demo_title.bytes ++ demo_padding))
      (by simp only [demo_large_edit, demo_edit, hlen]; omega)
      (by simp only [demo_large_edit, demo_edit, hlen]; omega) rfl rfl
      (by simp only [demo_large_edit, demo_edit, hlen]; omega)
      (by simp only [demo_large_edit, demo_edit, hlen]; omega)
    exact ⟨e', _, he', hd'⟩
  · intro h
    have h1 := List.append_cancel_right (List.append_cancel_right h)
    revert h1
    decide

/-- C17, amended: the input is a header, complete frames other than the target, a complete
frame `F` with the target identifier, further frames `C`, a second frame `F2` with the target
identifier, and any bytes `R`; it is shorter than `2 ^ 31` bytes.  With enough fuel, payloads
that are not empty, a usable `new_frame_size` and room in the stream, `edit_tag` succeeds;
and in every successful run the frame loop ends right after `F` (the input stream stands at
the end of `F`, the output holds the header, the frames before `F` and the rewritten `F`), and
the output ends with `C`, `F2` and `R` as they were in the input. -/
theorem edit_tag_first_match_only (fuel : Nat) (e : Edit) (disk : Disk)
    (hdr : List UInt8) (B : List Frame) (F : Frame) (C : List Frame) (F2 : Frame)
    (R tgt : List UInt8)
    (hh : hdr.length = 10) (hB : ∀ f ∈ B, f.Complete ∧ f.id ≠ tgt)
    (hF : F.Complete) (hid : F.id = tgt) (hid2 : F2.id = F.id)
    (hin : e.fptr_old.data
      = hdr ++ frames_bytes B ++ F.bytes ++ frames_bytes C ++ F2.bytes ++ R)
    (hlen : e.fptr_old.data.length < 2147483648)
    (hnd : e.fptr_new.data = []) (hnp : e.fptr_new.pos = 0)
    (htgt : e.frame_id = tgt ++ [0]) (ht4 : tgt.length = 4) (hz : (0 : UInt8) ∉ tgt) :
    ((∀ f ∈ B, f.payload ≠ []) → F.payload ≠ [] →
        0 < ((e.new_frame_size - 1) % 18446744073709551616).toNat →
        ((e.new_frame_size - 1) % 18446744073709551616).toNat ≤ e.new_frame_data.length + 1 →
        10 + (frames_bytes B).length + 11
            + ((e.new_frame_size - 1) % 18446744073709551616).toNat
            + (frames_bytes C ++ F2.bytes ++ R).length ≤ e.fptr_new.cap →
        B.length < fuel → (frames_bytes C ++ F2.bytes ++ R).length < fuel →
        ∃ e' disk', edit_tag fuel e disk = some (e_success, e', disk'))
      ∧ ∀ e' disk', edit_tag fuel e disk = some (e_success, e', disk') →
        e'.fptr_new.data
          = hdr ++ frames_bytes B
            ++ (F.id ++ bytes_of_int (replace_edit_frame_size_swap e.new_frame_size) ++ F.flags
              ++ (e.new_frame_data ++ [0]).take
                  ((e.new_frame_size - 1) % 18446744073709551616).toNat)
            ++ frames_bytes C ++ F2.bytes ++ R
        ∧ F2.id = tgt
        ∧ ∃ e1 e2 : Edit,
          copy_header_to_file { e with fptr_old := { e.fptr_old with pos := 0 } }
            = (e_success, e1)
          ∧ edit_loop fuel (wrap32 (e.fptr_old.data.length : Int)) e1 = some (e_success, e2)
          ∧ e2.fptr_old.pos = (hdr ++ frames_bytes B ++ F.bytes).length
          ∧ e2.fptr_new.data
            = hdr ++ frames_bytes B
              ++ (F.id ++ bytes_of_int (replace_edit_frame_size_swap e.new_frame_size)
                ++ F.flags
                ++ (e.new_frame_data ++ [0]).take
                    ((e.new_frame_size - 1) % 18446744073709551616).toNat)
          ∧ copy_remainig_data fuel e2 = some (e_success, e') := by
  have hin' : e.fptr_old.data
      = hdr ++ frames_bytes B ++ F.bytes ++ (frames_bytes C ++ F2.bytes ++ R) := by
    rw [hin]; simp only [List.append_assoc]
  refine ⟨?_, ?_⟩
  · intro c1 c2 c3 c4 c5 hfB hfR
    rcases edit_tag_found fuel e disk hdr B F (frames_bytes C ++ F2.bytes ++ R) tgt hh hB hF hid
      hin' hlen hnd hnp htgt ht4 hz hfB hfR with h | h
    · obtain ⟨_, e2, he2, _⟩ := h
      exact ⟨e2, _, he2⟩
    · exact absurd ⟨c1, c2, c3, c4, c5⟩ h.1
  · intro e' disk' hrun
    have hrun2 := edit_tag_mono_add (B.length + (frames_bytes C ++ F2.bytes ++ R).length + 1)
      fuel e disk _ hrun
    refine ⟨?_, hid2.trans hid, ?_⟩
    · rcases edit_tag_found
        (fuel + (B.length + (frames_bytes C ++ F2.bytes ++ R).length + 1)) e disk hdr B F
        (frames_bytes C ++ F2.bytes ++ R) tgt hh hB hF hid hin' hlen hnd hnp htgt ht4 hz
        (by omega) (by omega) with h | h
      · obtain ⟨_, e2, he2, hd2⟩ := h
        rw [hrun2] at he2
        have he : e' = e2 := (Prod.mk.inj (Prod.mk.inj (Option.some.inj he2)).2).1
        subst he
        rw [hd2]; simp only [List.append_assoc]
      · obtain ⟨_, e2, he2⟩ := h
        rw [hrun2] at he2
        cases (Prod.mk.inj (Option.some.inj he2)).1
    · obtain ⟨e1, e2, h1, h2, h3, _⟩ := edit_tag_success_steps fuel e e' disk disk' hrun
      refine ⟨e1, e2, h1, h2, ?_, ?_, h3⟩
      all_goals
        have hR0 : (e.fptr_old.data).drop 0
            = hdr ++ (frames_bytes B ++ (F.bytes ++ (frames_bytes C ++ F2.bytes ++ R))) := by
          rw [List.drop_zero, hin']; simp only [List.append_assoc]
        have hs := copy_header_to_file_spec
          { e with fptr_old := { e.fptr_old with pos := 0 } } hdr _ hh hR0 (by simp [hnd, hnp])
        rw [h1] at hs
        by_cases c0 : e.fptr_new.data.length + 10 ≤ e.fptr_new.cap
        · rw [if_pos c0] at hs
          have he1 := (Prod.mk.inj hs).2
          have hst := edit_loop_found_stop fuel (wrap32 (e.fptr_old.data.length : Int)) e1 e2 B F
            (frames_bytes C ++ F2.bytes ++ R) tgt hB hF hid
            (by rw [he1]
                show e.fptr_old.data.drop (0 + 10) = _
                rw [← hh]
                exact drop_add_of_drop _ _ _ _ hR0)
            (by rw [he1]; simp [hh])
            (by rw [he1]; exact wrap32_natCast _ hlen)
            (by rw [he1]; exact htgt) ht4 hz
            (by rw [he1]; simp only [List.length_append, hh]; exact c0) h2
          first
            | (rw [hst.1, he1]; simp [hh]; omega)
            | (rw [hst.2, he1]; simp [hnd])
        · rw [if_neg c0] at hs
          cases (Prod.mk.inj hs).1


/-- Instance of C17: two `TIT2` frames with a `TPE1` frame between them; only the first one
receives the text `Song`. -/
theorem edit_tag_first_match_only_witness :
    ∃ e' disk',
      edit_tag 32
          (demo_edit (demo_header ++ frames_bytes [] ++ demo_title.bytes
            ++ frames_bytes [demo_artist] ++ demo_title.bytes ++ demo_audio))
          (demo_disk []) = some (e_success, e', disk')
      ∧ e'.fptr_new.data
        = demo_header ++ ascii "TIT2" ++ [0, 0, 0, 5] ++ [0, 0, 0] ++ ascii "Song"
          ++ demo_artist.bytes ++ demo_title.bytes ++ demo_audio := by
  have T := edit_tag_first_match_only 32
    (demo_edit (demo_header ++ frames_bytes [] ++ demo_title.bytes
      ++ frames_bytes [demo_artist] ++ demo_title.bytes ++ demo_audio))
    (demo_disk []) demo_header [] demo_title [demo_artist] demo_title demo_audio (ascii "TIT2")
    (by decide) (by decide) (by decide) (by decide) rfl rfl (by decide) rfl rfl rfl
    (by decide) (by decide)
  obtain ⟨e', disk', h⟩ := T.1 (by decide) (by decide) (by decide) (by decide) (by decide)
    (by decide) (by decide)
  exact ⟨e', disk', h, (T.2 e' disk' h).1.trans (by decide)⟩

/-! ## Unrecognized frames -/

theorem Frame.size_toNat (f : Frame) (hc : f.Complete) : f.size.toNat = f.payload.length + 1 := by
  rw [hc.2.2.2]; omega

theorem take_set_self {α} (l : List α) (k : Nat) (a : α) : (l.set k a).take k = l.take k := by
  induction l generalizing k with
  | nil => simp
  | cons x xs ih =>
    cases k with
    | zero => simp
    | succ k => simp [ih]

/-- C18 (unrecognized frames are skipped).  The reader stands at offset `p` with `k < 8`
entries recorded, on a complete frame `f` of decoded size `s` whose identifier is not in the
catalog (file shorter than `2 ^ 31` bytes).  Then `1 ≤ s`, and one turn of the loop keeps the
index `k`, leaves the recorded identifiers and payloads as they are (only the scratch cell
`frame_Size[k]`, above the entries, receives `s`) and goes on at offset `p + 10 + s`, which is
`p + 4 + 4 + 3 + (s - 1)`; when the file ends there the scan returns success.  A catalogued
frame of the same size with a payload, met at the same offset, takes the reader to the same
offset with the index `k + 1`. -/
theorem unrecognized_frame_skipped (fuel k : Nat) (fe : Int) (t : TagInfo) (f : Frame)
    (rest : List UInt8) (hc : f.Complete) (hk : k < 8)
    (hR : t.fptr_src_mp3.data.drop t.fptr_src_mp3.pos = f.bytes ++ rest)
    (hfe : fe = (t.fptr_src_mp3.data.length : Int))
    (hlen : t.fptr_src_mp3.data.length < 2147483648)
    (hS : t.frame_Size.length = 8) (hu : f.id ∉ tags_name) :
    1 ≤ f.size
      ∧ display_scan (fuel + 1) k fe t
        = display_scan fuel k fe { t with
            fptr_src_mp3 :=
              { t.fptr_src_mp3 with pos := t.fptr_src_mp3.pos + 10 + f.size.toNat }
            frame_Size := t.frame_Size.set k f.size }
      ∧ t.fptr_src_mp3.pos + 10 + f.size.toNat
        = t.fptr_src_mp3.pos + 4 + 4 + 3 + (f.size.toNat - 1)
      ∧ (t.frame_Size.set k f.size).take k = t.frame_Size.take k
      ∧ (rest = [] →
          display_scan (fuel + 2) k fe t
            = some (e_success, k, { t with
                fptr_src_mp3 :=
                  { t.fptr_src_mp3 with pos := t.fptr_src_mp3.pos + 10 + f.size.toNat }
                frame_Size := t.frame_Size.set k f.size }))
      ∧ ∀ (u : TagInfo) (g : Frame) (rest2 : List UInt8), g.Complete → g.id ∈ tags_name →
          g.size = f.size → g.payload ≠ [] →
          u.fptr_src_mp3.data.drop u.fptr_src_mp3.pos = g.bytes ++ rest2 →
          u.fptr_src_mp3.pos = t.fptr_src_mp3.pos → u.frame_Size.length = 8 →
          display_scan (fuel + 1) k (u.fptr_src_mp3.data.length : Int) u
            = display_scan fuel (k + 1) (u.fptr_src_mp3.data.length : Int) { u with
                fptr_src_mp3 :=
                  { u.fptr_src_mp3 with pos := t.fptr_src_mp3.pos + 10 + f.size.toNat }
                frame_id := u.frame_id.set k (strcpy (u.frame_id.getD k []) (g.id ++ [0]))
                frame_Size := u.frame_Size.set k g.size
                frame_data := u.frame_data.set k (g.payload ++ [0]) } := by
  have hsz := Frame.size_toNat f hc
  have hbl := Frame.bytes_length f hc
  have hpos : t.fptr_src_mp3.pos + 10 + f.size.toNat = t.fptr_src_mp3.pos + f.bytes.length := by
    omega
  have hstep : display_scan (fuel + 1) k fe t
      = display_scan fuel k fe { t with
          fptr_src_mp3 :=
            { t.fptr_src_mp3 with pos := t.fptr_src_mp3.pos + 10 + f.size.toNat }
          frame_Size := t.frame_Size.set k f.size } := by
    rw [hpos]
    exact display_scan_skip fuel k fe t f rest hc hk hR hfe hlen hS hu
  refine ⟨by rw [hc.2.2.2]; omega, hstep, by omega, take_set_self _ _ _, ?_, ?_⟩
  · intro hr
    subst hr
    have hl : t.fptr_src_mp3.data.length = t.fptr_src_mp3.pos + f.bytes.length := by
      have := congrArg List.length hR
      simp only [List.length_drop, List.append_nil] at this
      omega
    rw [display_scan_skip (fuel + 1) k fe t f [] hc hk hR hfe hlen hS hu, ← hpos, display_scan,
      if_neg]
    simp only [not_and, not_lt]
    intro _
    rw [hfe, hl]
    show ((t.fptr_src_mp3.pos + f.bytes.length : Nat) : Int)
      ≤ ((t.fptr_src_mp3.pos + 10 + f.size.toNat : Nat) : Int)
    omega
  · intro u g rest2 hg hm hgs hp hRu hpu hSu
    have hgz := Frame.size_toNat g hg
    have hgl := Frame.bytes_length g hg
    rw [hgs] at hgz
    rw [display_scan_record fuel k _ u g rest2 hg hk hRu rfl hSu hm hp]
    rw [show u.fptr_src_mp3.pos + g.bytes.length
        = t.fptr_src_mp3.pos + 10 + f.size.toNat by omega]

/-- Instance of C18: the frame `XXXX` of size 5 at offset 10 is passed, the reader goes on
at offset 25 with no entry recorded. -/
theorem unrecognized_frame_skipped_witness :
    display_scan (4 + 1) 0 40
        { demo_tagInfo (demo_header ++ demo_other.bytes ++ demo_title.bytes) with
          fptr_src_mp3 :=
            { data := demo_header ++ demo_other.bytes ++ demo_title.bytes, pos := 10 } }
      = display_scan 4 0 40
        { demo_tagInfo (demo_header ++ demo_other.bytes ++ demo_title.bytes) with
          fptr_src_mp3 :=
            { data := demo_header ++ demo_other.bytes ++ demo_title.bytes, pos := 10 + 10 + 5 }
          frame_Size := (List.replicate 8 (0 : Int)).set 0 5 } :=
  (unrecognized_frame_skipped 4 0 40
    { demo_tagInfo (demo_header ++ demo_other.bytes ++ demo_title.bytes) with
      fptr_src_mp3 :=
        { data := demo_header ++ demo_other.bytes ++ demo_title.bytes, pos := 10 } }
    demo_other demo_title.bytes (by decide) (by decide) (by decide) (by decide) (by decide)
    (by decide) (by decide)).2.1

/-! ## The size field on disk -/

theorem fread_success (n : Nat) (f f1 : RFile) (buf : List UInt8)
    (h : fread n f = (1, buf, f1)) :
    0 < n ∧ f.pos + n ≤ f.data.length ∧ buf.length = n ∧ f1 = { f with pos := f.pos + n } := by
  unfold fread at h
  by_cases h0 : n = 0
  · rw [if_pos h0] at h
    cases (Prod.mk.inj h).1
  · rw [if_neg h0] at h
    by_cases h1 : f.pos + n ≤ f.data.length
    · rw [if_pos h1] at h
      obtain ⟨_, h2⟩ := Prod.mk.inj h
      obtain ⟨h3, h4⟩ := Prod.mk.inj h2
      refine ⟨by omega, h1, ?_, h4.symm⟩
      rw [← h3, List.length_take, List.length_drop]
      omega
    · rw [if_neg h1] at h
      cases (Prod.mk.inj h).1

theorem read_data_from_file_success (n : Nat) (f f1 : RFile) (buf : List UInt8)
    (h : read_data_from_file n f = (e_success, buf, f1)) :
    0 < n ∧ f.pos + n ≤ f.data.length ∧ buf.length = n ∧ f1 = { f with pos := f.pos + n } := by
  unfold read_data_from_file at h
  revert h
  split
  · rename_i b g hfr
    intro h
    obtain ⟨_, h2⟩ := Prod.mk.inj h
    obtain ⟨h3, h4⟩ := Prod.mk.inj h2
    subst h3; subst h4
    exact fread_success n f _ _ hfr
  · intro h
    cases (Prod.mk.inj h).1

/-- The big-endian value of four bytes whose first one is below 128. -/
theorem read_frame_size_swap_bytes (b0 b1 b2 b3 : UInt8) (h : b0.toNat < 128) :
    read_frame_size_swap (int_of_bytes [b0, b1, b2, b3])
      = ((b0.toNat * 16777216 + b1.toNat * 65536 + b2.toNat * 256 + b3.toNat : Nat) : Int) := by
  rw [read_frame_size_swap_eq]
  simp only [int_of_bytes, List.getD_cons_zero, List.getD_cons_succ, toU32_toI32]
  obtain ⟨c0, c1, c2, c3, _, c4⟩ := bytes_compose b0.toNat b1.toNat b2.toNat b3.toNat
    (u8_toNat_lt b0) (u8_toNat_lt b1) (u8_toNat_lt b2) (u8_toNat_lt b3)
  rw [Nat.mod_eq_of_lt c4, c0, c1, c2, c3]
  have h1 := u8_toNat_lt b1
  have h2 := u8_toNat_lt b2
  have h3 := u8_toNat_lt b3
  rw [toI32_of_lt _ (by omega)]
  congr 1
  omega

/-- The bytes in memory of the reordered size are the big-endian bytes of the size. -/
theorem replace_edit_frame_size_swap_bytes (n : Nat) (h : n < 2147483648) :
    bytes_of_int (replace_edit_frame_size_swap (n : Int))
      = [UInt8.ofNat (n / 16777216), UInt8.ofNat (n / 65536 % 256),
         UInt8.ofNat (n / 256 % 256), UInt8.ofNat (n % 256)] := by
  have hu : toU32 (n : Int) = n := toU32_natCast n (by omega)
  have key : bytes_of_int (read_frame_size_swap (n : Int)) = (bytes_of_int (n : Int)).reverse := by
    simp only [bytes_of_int, toU32_swap, List.reverse_cons, List.reverse_nil, List.nil_append,
      List.cons_append]
    obtain ⟨p0, p1, p2, p3, h0, h1, h2, h3, e0, e1, e2, e3, e3m, _⟩ :=
      bytes_decompose (toU32 (n : Int)) (toU32_lt _)
    rw [e3m, e0, e1, e2, e3]
    obtain ⟨c0, c1, c2, _, c3, _⟩ := bytes_compose p3 p2 p1 p0 h3 h2 h1 h0
    rw [c0, c1, c2, c3]
  show bytes_of_int (read_frame_size_swap (n : Int)) = _
  rw [key]
  simp only [bytes_of_int, hu, List.reverse_cons, List.reverse_nil, List.nil_append,
    List.cons_append]
  rw [Nat.mod_eq_of_lt (show n / 16777216 < 256 by omega)]


/-- C19 (on-disk size semantics).  Four size bytes `b0 b1 b2 b3` with `b0 < 128`, read into an
`int` and reordered, give `b0 * 2 ^ 24 + b1 * 2 ^ 16 + b2 * 2 ^ 8 + b3`, and that is what
`read_frame_size` stores; the bytes that `replace_edit_frame_size` writes for a size
`n < 2 ^ 31` are the big-endian bytes of `n`; and a size `s` stands for `s - 1` payload bytes:
the reader and the editor read `s - 1` bytes after a size `s`, and the editor writes
`new_frame_size - 1` bytes after the size `new_frame_size`. -/
theorem on_disk_size_semantics :
    (∀ b0 b1 b2 b3 : UInt8, b0.toNat < 128 →
        read_frame_size_swap (int_of_bytes [b0, b1, b2, b3])
          = ((b0.toNat * 16777216 + b1.toNat * 65536 + b2.toNat * 256 + b3.toNat : Nat) : Int)
        ∧ read_edit_frame_size_swap (int_of_bytes [b0, b1, b2, b3])
          = ((b0.toNat * 16777216 + b1.toNat * 65536 + b2.toNat * 256 + b3.toNat : Nat) : Int)
        ∧ ∀ (k : Nat) (t : TagInfo) (rest : List UInt8), k < t.frame_Size.length →
            t.fptr_src_mp3.data.drop t.fptr_src_mp3.pos = [b0, b1, b2, b3] ++ rest →
            ∃ t', read_frame_size k t = (e_success, t')
              ∧ t'.frame_Size.getD k 0
                = ((b0.toNat * 16777216 + b1.toNat * 65536 + b2.toNat * 256 + b3.toNat : Nat)
                    : Int))
      ∧ (∀ n : Nat, n < 2147483648 →
        bytes_of_int (replace_edit_frame_size_swap (n : Int))
          = [UInt8.ofNat (n / 16777216), UInt8.ofNat (n / 65536 % 256),
             UInt8.ofNat (n / 256 % 256), UInt8.ofNat (n % 256)]
        ∧ ∀ e : Edit, e.new_frame_size = (n : Int) →
            e.fptr_new.pos = e.fptr_new.data.length →
            e.fptr_new.data.length + 4 ≤ e.fptr_new.cap →
            ∃ e', replace_edit_frame_size e = (e_success, e')
              ∧ e'.fptr_new.data
                = e.fptr_new.data
                  ++ [UInt8.ofNat (n / 16777216), UInt8.ofNat (n / 65536 % 256),
                      UInt8.ofNat (n / 256 % 256), UInt8.ofNat (n % 256)])
      ∧ (∀ (k : Nat) (t t' : TagInfo), 1 ≤ t.frame_Size.getD k 0 →
        t.frame_Size.getD k 0 < 2147483648 → read_frame_data k t = (e_success, t') →
        t'.fptr_src_mp3.pos + 1 = t.fptr_src_mp3.pos + (t.frame_Size.getD k 0).toNat)
      ∧ (∀ e e' : Edit, 1 ≤ e.frame_size → e.frame_size < 2147483648 →
        read_old_frame_data e = some (e_success, e') →
        e'.fptr_old.pos + 1 = e.fptr_old.pos + e.frame_size.toNat)
      ∧ (∀ e e' : Edit, 1 ≤ e.new_frame_size → e.new_frame_size < 2147483648 →
        e.fptr_new.pos = e.fptr_new.data.length →
        write_new_frame_data e = (e_success, e') →
        e'.fptr_new.data.length + 1 = e.fptr_new.data.length + e.new_frame_size.toNat) := by
  refine ⟨?_, ?_, ?_, ?_, ?_⟩
  · intro b0 b1 b2 b3 h
    refine ⟨read_frame_size_swap_bytes b0 b1 b2 b3 h, read_frame_size_swap_bytes b0 b1 b2 b3 h,
      ?_⟩
    intro k t rest hk hR
    rw [read_frame_size_spec k t [b0, b1, b2, b3] rest rfl hR]
    refine ⟨_, rfl, ?_⟩
    show (t.frame_Size.set k _).getD k 0 = _
    rw [getD_set_self _ _ _ _ hk]
    exact read_frame_size_swap_bytes b0 b1 b2 b3 h
  · intro n h
    refine ⟨replace_edit_frame_size_swap_bytes n h, ?_⟩
    intro e hn hp hcap
    unfold replace_edit_frame_size
    rw [write_size_to_file_append _ _ hp, if_pos hcap]
    refine ⟨_, rfl, ?_⟩
    show e.fptr_new.data ++ bytes_of_int (replace_edit_frame_size_swap e.new_frame_size) = _
    rw [hn, replace_edit_frame_size_swap_bytes n h]
  · intro k t t' h1 h2 hr
    unfold read_frame_data at hr
    simp only [] at hr
    rw [if_neg (by omega)] at hr
    revert hr
    split
    · intro hr; cases (Prod.mk.inj hr).1
    · rename_i buf f1 hrd
      intro hr
      obtain ⟨_, _, _, hf⟩ := read_data_from_file_success _ _ _ _ hrd
      rw [← (Prod.mk.inj hr).2, hf]
      show t.fptr_src_mp3.pos + toU32 (t.frame_Size.getD k 0 - 1) + 1 = _
      unfold toU32
      omega
  · intro e e' h1 h2 hr
    unfold read_old_frame_data at hr
    simp only [] at hr
    rw [if_neg (by omega)] at hr
    revert hr
    split
    · intro hr; cases (Prod.mk.inj (Option.some.inj hr)).1
    · rename_i buf f1 hrd
      intro hr
      obtain ⟨_, _, _, hf⟩ := read_data_from_file_success _ _ _ _ hrd
      rw [← (Prod.mk.inj (Option.some.inj hr)).2, hf]
      show e.fptr_old.pos + toU32 (e.frame_size - 1) + 1 = _
      unfold toU32
      omega
  · intro e e' h1 h2 hp hr
    rw [write_new_frame_data_spec e hp] at hr
    have hn : ((e.new_frame_size - 1) % 18446744073709551616).toNat
        = e.new_frame_size.toNat - 1 := by omega
    rw [hn] at hr
    by_cases c : 0 < e.new_frame_size.toNat - 1
        ∧ e.new_frame_size.toNat - 1 ≤ e.new_frame_data.length + 1
        ∧ e.fptr_new.data.length + (e.new_frame_size.toNat - 1) ≤ e.fptr_new.cap
    · rw [if_pos c] at hr
      rw [← (Prod.mk.inj hr).2]
      simp only [List.length_append, List.length_take, List.length_cons, List.length_nil]
      omega
    · rw [if_neg c] at hr
      cases (Prod.mk.inj hr).1

/-- Instance of C19: the size bytes `00 00 01 02` decode to 258. -/
theorem on_disk_size_semantics_witness :
    read_frame_size_swap (int_of_bytes [0, 0, 1, 2])
      = (((0 : UInt8).toNat * 16777216 + (0 : UInt8).toNat * 65536 + (1 : UInt8).toNat * 256
          + (2 : UInt8).toNat : Nat) : Int) :=
  (on_disk_size_semantics.1 0 0 1 2 (by decide)).1

/-! ## The reader after the editor -/

theorem frames_bytes_append (A B : List Frame) :
    frames_bytes (A ++ B) = frames_bytes A ++ frames_bytes B := by
  induction A with
  | nil => rfl
  | cons f A ih => simp [frames_bytes, ih]

/-- The table built by `display_tag` on a header followed by complete frames with payloads. -/
theorem display_tag_frames (fuel : Nat) (t : TagInfo) (hdr : List UInt8) (B : List Frame)
    (hh : hdr.length = 10) (hB : ∀ f ∈ B, f.Complete ∧ 2 ≤ f.size)
    (hin : t.fptr_src_mp3.data = hdr ++ frames_bytes B)
    (hlen : t.fptr_src_mp3.data.length < 2147483648)
    (hI : t.frame_id.length = 8) (hS : t.frame_Size.length = 8) (hD : t.frame_data.length = 8)
    (hfuel : B.length < fuel) :
    ∃ t', display_tag fuel t
        = some (e_success, min 8 (B.filter (fun f => decide (f.id ∈ tags_name))).length, t')
      ∧ (t'.frame_id.take (min 8 (B.filter (fun f => decide (f.id ∈ tags_name))).length)).map cstr
        = ((B.filter (fun f => decide (f.id ∈ tags_name))).take 8).map (fun f => f.id)
      ∧ t'.frame_Size.take (min 8 (B.filter (fun f => decide (f.id ∈ tags_name))).length)
        = ((B.filter (fun f => decide (f.id ∈ tags_name))).take 8).map (fun f => f.size)
      ∧ t'.frame_data.take (min 8 (B.filter (fun f => decide (f.id ∈ tags_name))).length)
        = ((B.filter (fun f => decide (f.id ∈ tags_name))).take 8).map
            (fun f => f.payload ++ [0]) := by
  have hB' : ∀ f ∈ B, f.Complete ∧ f.payload ≠ [] := by
    intro f hf
    obtain ⟨hc, h2⟩ := hB f hf
    refine ⟨hc, fun hp => ?_⟩
    rw [hc.2.2.2, hp] at h2
    simp at h2
  have hR0 : t.fptr_src_mp3.data.drop 10 = frames_bytes B := by
    rw [hin, ← hh, List.drop_left]
  have hpos : 10 ≤ t.fptr_src_mp3.data.length := by
    rw [hin]; simp [hh]
  obtain ⟨t', h1, h2, h3, h4⟩ := display_scan_frames B fuel 0 (t.fptr_src_mp3.data.length : Int)
    { t with fptr_src_mp3 := { t.fptr_src_mp3 with pos := 10 } } hB' (by omega) hR0 rfl hlen
    hpos hI hS hD hfuel
  simp only [Nat.zero_add, Nat.sub_zero, List.take_zero, List.map_nil, List.nil_append,
    List.length_take] at h1 h2 h3 h4
  refine ⟨t', ?_, h2, h3, h4⟩
  unfold display_tag
  simp only []
  rw [wrap32_natCast _ hlen]
  exact h1

/-- Replacing the element after `l1` and then cutting and mapping. -/
theorem map_take_replace {α β} (g : α → β) (l1 l2 : List α) (a b : α) (n : Nat) :
    ((l1 ++ b :: l2).take n).map g = (((l1 ++ a :: l2).take n).map g).set l1.length (g b) := by
  rw [← List.map_set, ← List.set_take, List.set_append_right _ _ (Nat.le_refl _)]
  simp


/-- C20, as stated, fails: the file is a header and one complete frame `TIT2` of decoded size
`2 ^ 31 - 1`; the request is the title `Song` with `new_frame_size` 5.  The file has more than
`2 ^ 31` bytes: `edit_tag` succeeds with an output that is the input, and the reader run on
the output succeeds with an empty table, without an entry for `TIT2`. -/
theorem view_after_edit_counterexample :
    demo_large_title.Complete ∧ 2 ≤ demo_large_title.size ∧ demo_large_title.id ∈ tags_name
      ∧ (demo_large_edit (demo_header ++ frames_bytes [demo_large_title])).frame_id
        = demo_large_title.id ++ [0]
      ∧ ∃ (e' : Edit) (disk' : Disk),
        edit_tag 2147483700 (demo_large_edit (demo_header ++ frames_bytes [demo_large_title]))
            (demo_large_disk (demo_header ++ frames_bytes [demo_large_title]))
          = some (e_success, e', disk')
        ∧ e'.fptr_new.data = demo_header ++ frames_bytes [demo_large_title]
        ∧ display_tag 2 (demo_tagInfo e'.fptr_new.data)
          = some (e_success, 0,
              { demo_tagInfo e'.fptr_new.data with
                fptr_src_mp3 := { data := e'.fptr_new.data, pos := 10 } }) := by
  refine ⟨demo_large_title_complete.1, by rw [demo_large_title_complete.2]; decide, by decide,
    rfl, ?_⟩
  obtain ⟨e', he', hd'⟩ := edit_tag_large 2147483700
    (demo_large_edit (demo_header ++ frames_bytes [demo_large_title]))
    (demo_large_disk (demo_header ++ frames_bytes [demo_large_title]))
    (by simp only [demo_large_edit, demo_edit, demo_large_file_length]; omega)
    (by simp only [demo_large_edit, demo_edit, demo_large_file_length]; omega) rfl rfl
    (by simp only [demo_large_edit, demo_edit, demo_large_file_length]; omega)
    (by simp only [demo_large_edit, demo_edit, demo_large_file_length]; omega)
  have hd2 : e'.fptr_new.data = demo_header ++ frames_bytes [demo_large_title] := hd'
  refine ⟨e', _, he', hd2, ?_⟩
  exact display_tag_large 1 (demo_tagInfo e'.fptr_new.data)
    (by simp only [demo_tagInfo, hd2, demo_large_file_length]; omega)
    (by simp only [demo_tagInfo, hd2, demo_large_file_length]; omega)

/-- C20, amended: the input is a header followed, up to the end of the file, by complete
frames of decoded size at least 2: the frames `B`, none with the target identifier,
the frame `F` with the target identifier, which is in the catalog, and the frames `C`; fewer
than 8 frames of `B` are in the catalog.  The replacement has `2 ≤ new_frame_size`, at most
the length of `new_frame_data` plus one.  After a successful `edit_tag`, the reader run on
the input and the reader run on the output (both files shorter than `2 ^ 31` bytes) succeed
with the same number of entries and the same identifiers; the sizes and payloads are the same
except in the entry of `F`, the one after the catalogued frames of `B`, which holds
`new_frame_size` and the first `new_frame_size - 1` bytes of `new_frame_data`. -/
theorem view_after_edit (fuel : Nat) (e e' : Edit) (disk disk' : Disk) (t u : TagInfo)
    (hdr : List UInt8) (B : List Frame) (F : Frame) (C : List Frame) (tgt : List UInt8)
    (hh : hdr.length = 10) (hB : ∀ f ∈ B, f.Complete ∧ 2 ≤ f.size ∧ f.id ≠ tgt)
    (hF : F.Complete) (hF2 : 2 ≤ F.size) (hid : F.id = tgt) (hcat : tgt ∈ tags_name)
    (hC : ∀ f ∈ C, f.Complete ∧ 2 ≤ f.size)
    (h8 : (B.filter (fun f => decide (f.id ∈ tags_name))).length < 8)
    (hin : e.fptr_old.data = hdr ++ frames_bytes (B ++ F :: C))
    (hlen : e.fptr_old.data.length < 2147483648)
    (hnd : e.fptr_new.data = []) (hnp : e.fptr_new.pos = 0)
    (htgt : e.frame_id = tgt ++ [0])
    (hn2 : 2 ≤ e.new_frame_size) (hnl : e.new_frame_size ≤ (e.new_frame_data.length : Int) + 1)
    (hnu : e.new_frame_size < 2147483648)
    (hrun : edit_tag fuel e disk = some (e_success, e', disk'))
    (holen : e'.fptr_new.data.length < 2147483648)
    (ht : t.fptr_src_mp3.data = e.fptr_old.data) (hu : u.fptr_src_mp3.data = e'.fptr_new.data)
    (htI : t.frame_id.length = 8) (htS : t.frame_Size.length = 8) (htD : t.frame_data.length = 8)
    (huI : u.frame_id.length = 8) (huS : u.frame_Size.length = 8) (huD : u.frame_data.length = 8)
    (hfuel : (B ++ F :: C).length < fuel) :
    ∃ t' u',
      display_tag fuel t
          = some (e_success,
              min 8 ((B ++ F :: C).filter (fun f => decide (f.id ∈ tags_name))).length, t')
      ∧ display_tag fuel u
          = some (e_success,
              min 8 ((B ++ F :: C).filter (fun f => decide (f.id ∈ tags_name))).length, u')
      ∧ (B.filter (fun f => decide (f.id ∈ tags_name))).length
          < min 8 ((B ++ F :: C).filter (fun f => decide (f.id ∈ tags_name))).length
      ∧ (u'.frame_id.take
            (min 8 ((B ++ F :: C).filter (fun f => decide (f.id ∈ tags_name))).length)).map cstr
        = (t'.frame_id.take
            (min 8 ((B ++ F :: C).filter (fun f => decide (f.id ∈ tags_name))).length)).map cstr
      ∧ u'.frame_Size.take
            (min 8 ((B ++ F :: C).filter (fun f => decide (f.id ∈ tags_name))).length)
        = (t'.frame_Size.take
            (min 8 ((B ++ F :: C).filter (fun f => decide (f.id ∈ tags_name))).length)).set
            (B.filter (fun f => decide (f.id ∈ tags_name))).length e.new_frame_size
      ∧ u'.frame_data.take
            (min 8 ((B ++ F :: C).filter (fun f => decide (f.id ∈ tags_name))).length)
        = (t'.frame_data.take
            (min 8 ((B ++ F :: C).filter (fun f => decide (f.id ∈ tags_name))).length)).set
            (B.filter (fun f => decide (f.id ∈ tags_name))).length
            (e.new_frame_data.take (e.new_frame_size - 1).toNat ++ [0]) := by
  obtain ⟨ht4, hz⟩ := tags_name_props tgt hcat
  have hin' : e.fptr_old.data = hdr ++ frames_bytes B ++ F.bytes ++ frames_bytes C := by
    rw [hin, frames_bytes_append, frames_bytes_cons]; simp only [List.append_assoc]
  have hB1 : ∀ f ∈ B, f.Complete ∧ f.id ≠ tgt := fun f hf => ⟨(hB f hf).1, (hB f hf).2.2⟩
  have hn : ((e.new_frame_size - 1) % 18446744073709551616).toNat
      = (e.new_frame_size - 1).toNat := by omega
  have hnle : (e.new_frame_size - 1).toNat ≤ e.new_frame_data.length := by omega
  -- the output file
  have hout : e'.fptr_new.data = hdr ++ frames_bytes B ++ F.id
      ++ bytes_of_int (replace_edit_frame_size_swap e.new_frame_size) ++ F.flags
      ++ e.new_frame_data.take (e.new_frame_size - 1).toNat ++ frames_bytes C := by
    have hrun2 := edit_tag_mono_add (B.length + (frames_bytes C).length + 1) fuel e disk _ hrun
    rcases edit_tag_found (fuel + (B.length + (frames_bytes C).length + 1)) e disk hdr B F
      (frames_bytes C) tgt hh hB1 hF hid hin' hlen hnd hnp htgt ht4 hz (by omega) (by omega)
      with h | h
    · obtain ⟨_, e2, he2, hd2⟩ := h
      rw [hrun2] at he2
      have he : e' = e2 := (Prod.mk.inj (Prod.mk.inj (Option.some.inj he2)).2).1
      subst he
      rw [hd2, hn, List.take_append_of_le_length hnle]
    · obtain ⟨_, e2, he2⟩ := h
      rw [hrun2] at he2
      cases (Prod.mk.inj (Option.some.inj he2)).1
  -- the frame written in place of `F`
  have hdec : read_frame_size_swap
      (int_of_bytes (bytes_of_int (replace_edit_frame_size_swap e.new_frame_size)))
      = e.new_frame_size := by
    have hr := toI32_range (16777216 * (toU32 e.new_frame_size % 256)
        + 65536 * (toU32 e.new_frame_size / 256 % 256)
        + 256 * (toU32 e.new_frame_size / 65536 % 256) + toU32 e.new_frame_size / 16777216)
    rw [← replace_edit_frame_size_swap_eq] at hr
    rw [int_of_bytes_of_int _ hr.1 hr.2]
    exact swap_swap e.new_frame_size (by omega) hnu
  have hG : ∃ G : Frame, G.id = F.id ∧ G.size = e.new_frame_size
      ∧ G.payload = e.new_frame_data.take (e.new_frame_size - 1).toNat ∧ G.Complete
      ∧ e'.fptr_new.data = hdr ++ frames_bytes (B ++ G :: C) := by
    refine ⟨{ id := F.id
              size_field := bytes_of_int (replace_edit_frame_size_swap e.new_frame_size)
              flags := F.flags
              payload := e.new_frame_data.take (e.new_frame_size - 1).toNat },
      rfl, hdec, rfl, ⟨hF.1, by simp [bytes_of_int], hF.2.2.1, ?_⟩, ?_⟩
    · show read_frame_size_swap
          (int_of_bytes (bytes_of_int (replace_edit_frame_size_swap e.new_frame_size)))
        = ((e.new_frame_data.take (e.new_frame_size - 1).toNat).length : Int) + 1
      rw [hdec, List.length_take, Nat.min_eq_left hnle]
      omega
    · rw [hout, frames_bytes_append, frames_bytes_cons]
      simp only [Frame.bytes, List.append_assoc]
  obtain ⟨G, hGid, hGs, hGp, hGc, hGo⟩ := hG
  have hL : ∀ f ∈ B ++ F :: C, f.Complete ∧ 2 ≤ f.size := by
    intro f hf
    rcases List.mem_append.1 hf with h | h
    · exact ⟨(hB f h).1, (hB f h).2.1⟩
    · rcases List.mem_cons.1 h with h | h
      · subst h; exact ⟨hF, hF2⟩
      · exact hC f h
  have hL' : ∀ f ∈ B ++ G :: C, f.Complete ∧ 2 ≤ f.size := by
    intro f hf
    rcases List.mem_append.1 hf with h | h
    · exact ⟨(hB f h).1, (hB f h).2.1⟩
    · rcases List.mem_cons.1 h with h | h
      · subst h; exact ⟨hGc, by rw [hGs]; exact hn2⟩
      · exact hC f h
  have hFm : decide (F.id ∈ tags_name) = true := by rw [hid]; exact decide_eq_true hcat
  have hGm : decide (G.id ∈ tags_name) = true := by rw [hGid]; exact hFm
  have hfl : (B ++ F :: C).filter (fun f => decide (f.id ∈ tags_name))
      = B.filter (fun f => decide (f.id ∈ tags_name))
        ++ F :: C.filter (fun f => decide (f.id ∈ tags_name)) := by
    rw [List.filter_append, List.filter_cons, if_pos hFm]
  have hfl' : (B ++ G :: C).filter (fun f => decide (f.id ∈ tags_name))
      = B.filter (fun f => decide (f.id ∈ tags_name))
        ++ G :: C.filter (fun f => decide (f.id ∈ tags_name)) := by
    rw [List.filter_append, List.filter_cons, if_pos hGm]
  have hcount : ((B ++ G :: C).filter (fun f => decide (f.id ∈ tags_name))).length
      = ((B ++ F :: C).filter (fun f => decide (f.id ∈ tags_name))).length := by
    rw [hfl, hfl']; simp
  obtain ⟨t', a1, a2, a3, a4⟩ := display_tag_frames fuel t hdr (B ++ F :: C) hh hL
    (by rw [ht, hin]) (by rw [ht]; exact hlen) htI htS htD hfuel
  obtain ⟨u', b1, b2, b3, b4⟩ := display_tag_frames fuel u hdr (B ++ G :: C) hh hL'
    (by rw [hu, hGo]) (by rw [hu]; exact holen) huI huS huD (by simpa using hfuel)
  rw [hcount] at b1 b2 b3 b4
  refine ⟨t', u', a1, b1, ?_, ?_, ?_, ?_⟩
  · rw [hfl]; simp only [List.length_append, List.length_cons]; omega
  · rw [a2, b2, hfl, hfl']
    simp only [List.map_take, List.map_append, List.map_cons, hGid]
  · rw [a3, b3, hfl, hfl', map_take_replace (fun f : Frame => f.size) _ _ F G 8]
    simp only [hGs]
  · rw [a4, b4, hfl, hfl', map_take_replace (fun f : Frame => f.payload ++ [0]) _ _ F G 8]
    simp only [hGp]


/-- Instance of C20: header, `TPE1` frame and `TIT2` frame; after the edit with `Song ` the
reader shows the same two entries, the second one with the size 5 and the payload `Song`. -/
theorem view_after_edit_witness :
    ∃ t' u',
      display_tag 5 (demo_tagInfo (demo_header ++ frames_bytes ([demo_artist] ++ demo_title :: [])))
          = some (e_success,
              min 8 (([demo_artist] ++ demo_title :: []).filter
                (fun f => decide (f.id ∈ tags_name))).length, t')
      ∧ display_tag 5 (demo_tagInfo (demo_header ++ demo_artist.bytes ++ ascii "TIT2"
            ++ [0, 0, 0, 5] ++ [0, 0, 0] ++ ascii "Song"))
          = some (e_success,
              min 8 (([demo_artist] ++ demo_title :: []).filter
                (fun f => decide (f.id ∈ tags_name))).length, u')
      ∧ ([demo_artist].filter (fun f => decide (f.id ∈ tags_name))).length
          < min 8 (([demo_artist] ++ demo_title :: []).filter
              (fun f => decide (f.id ∈ tags_name))).length
      ∧ (u'.frame_id.take
            (min 8 (([demo_artist] ++ demo_title :: []).filter
              (fun f => decide (f.id ∈ tags_name))).length)).map cstr
        = (t'.frame_id.take
            (min 8 (([demo_artist] ++ demo_title :: []).filter
              (fun f => decide (f.id ∈ tags_name))).length)).map cstr
      ∧ u'.frame_Size.take
            (min 8 (([demo_artist] ++ demo_title :: []).filter
              (fun f => decide (f.id ∈ tags_name))).length)
        = (t'.frame_Size.take
            (min 8 (([demo_artist] ++ demo_title :: []).filter
              (fun f => decide (f.id ∈ tags_name))).length)).set
            ([demo_artist].filter (fun f => decide (f.id ∈ tags_name))).length 5
      ∧ u'.frame_data.take
            (min 8 (([demo_artist] ++ demo_title :: []).filter
              (fun f => decide (f.id ∈ tags_name))).length)
        = (t'.frame_data.take
            (min 8 (([demo_artist] ++ demo_title :: []).filter
              (fun f => decide (f.id ∈ tags_name))).length)).set
            ([demo_artist].filter (fun f => decide (f.id ∈ tags_name))).length
            ((ascii "Song ").take ((5 : Int) - 1).toNat ++ [0]) :=
  view_after_edit 5
    (demo_edit (demo_header ++ frames_bytes ([demo_artist] ++ demo_title :: [])))
    _
    (demo_disk (demo_header ++ frames_bytes ([demo_artist] ++ demo_title :: [])))
    _
    (demo_tagInfo (demo_header ++ frames_bytes ([demo_artist] ++ demo_title :: [])))
    (demo_tagInfo (demo_header ++ demo_artist.bytes ++ ascii "TIT2"
      ++ [0, 0, 0, 5] ++ [0, 0, 0] ++ ascii "Song"))
    demo_header [demo_artist] demo_title [] (ascii "TIT2")
    (by decide) (by decide) (by decide) (by decide) (by decide) (by decide) (by decide)
    (by decide) rfl (by decide) rfl rfl rfl (by decide) (by decide) (by decide) rfl
    (by decide) rfl (by decide) rfl rfl rfl rfl rfl rfl (by decide)

/-! ## Transfers of zero bytes -/

theorem write_data_to_file_zero (buf : List UInt8) (g : WFile) :
    write_data_to_file buf 0 g = (e_failure, g) := by
  simp [write_data_to_file, fwrite]

theorem read_data_from_file_zero_eq (f : RFile) :
    read_data_from_file 0 f = (e_failure, [], f) := by
  simp [read_data_from_file, fread]

theorem Frame.payload_nil_iff (f : Frame) (hc : f.Complete) : f.payload = [] ↔ f.size = 1 := by
  rw [hc.2.2.2]
  constructor
  · intro h; rw [h]; rfl
  · intro h
    have : f.payload.length = 0 := by omega
    exact List.length_eq_zero.1 this

/-- The reader on a header, complete frames of which fewer than 8 are catalogued, and a
catalogued complete frame without payload: the run fails. -/
theorem display_tag_empty_payload (fuel : Nat) (t : TagInfo) (hdr : List UInt8)
    (B : List Frame) (F : Frame) (rest : List UInt8)
    (hh : hdr.length = 10) (hB : ∀ f ∈ B, f.Complete)
    (h8 : (B.filter (fun f => decide (f.id ∈ tags_name))).length < 8)
    (hF : F.Complete) (hm : F.id ∈ tags_name) (hp : F.payload = [])
    (hin : t.fptr_src_mp3.data = hdr ++ frames_bytes B ++ F.bytes ++ rest)
    (hlen : t.fptr_src_mp3.data.length < 2147483648)
    (hS : t.frame_Size.length = 8) (hfuel : B.length < fuel) :
    ∃ k t', display_tag fuel t = some (e_failure, k, t') := by
  obtain ⟨m, rfl⟩ : ∃ m, fuel = (m + 1) + B.length := ⟨fuel - 1 - B.length, by omega⟩
  unfold display_tag
  simp only []
  rw [wrap32_natCast _ hlen]
  have hR0 : t.fptr_src_mp3.data.drop 10 = frames_bytes B ++ (F.bytes ++ rest) := by
    rw [hin, ← hh]; simp only [List.append_assoc]; rw [List.drop_left]
  rcases display_scan_pass B (m + 1) 0 (t.fptr_src_mp3.data.length : Int)
    { t with fptr_src_mp3 := { t.fptr_src_mp3 with pos := 10 } } (F.bytes ++ rest) hB
    (by omega) hR0 rfl hlen hS with ⟨k, t', h⟩ | ⟨t', h, hpos, hS'⟩
  · exact ⟨k, t', h⟩
  · rw [h]
    have hR1 : t'.fptr_src_mp3.data.drop t'.fptr_src_mp3.pos = F.bytes ++ rest := by
      rw [hpos]
      exact drop_add_of_drop _ _ _ _ hR0
    obtain ⟨t'', h2⟩ := display_scan_empty m
      (0 + (B.filter (fun f => decide (f.id ∈ tags_name))).length)
      (t.fptr_src_mp3.data.length : Int) t' F rest hF (by omega) hR1 (by rw [hpos]) hS' hm hp
    exact ⟨_, t'', h2⟩

/-- The editor on a header, complete frames other than the target and a complete frame with
the target identifier: the run fails when one of these frames has no payload and when the
request asks for no payload byte. -/
theorem edit_tag_empty_payload (fuel : Nat) (e : Edit) (disk : Disk) (hdr : List UInt8)
    (B : List Frame) (F : Frame) (R tgt : List UInt8)
    (hh : hdr.length = 10) (hB : ∀ f ∈ B, f.Complete ∧ f.id ≠ tgt)
    (hF : F.Complete) (hid : F.id = tgt)
    (hin : e.fptr_old.data = hdr ++ frames_bytes B ++ F.bytes ++ R)
    (hlen : e.fptr_old.data.length < 2147483648)
    (hnd : e.fptr_new.data = []) (hnp : e.fptr_new.pos = 0)
    (htgt : e.frame_id = tgt ++ [0]) (ht4 : tgt.length = 4) (hz : (0 : UInt8) ∉ tgt)
    (hfB : B.length < fuel)
    (hbad : (∃ f ∈ B, f.payload = []) ∨ F.payload = []
      ∨ ((e.new_frame_size - 1) % 18446744073709551616).toNat = 0) :
    ∃ e', edit_tag fuel e disk = some (e_failure, e', disk) := by
  obtain ⟨k, rfl⟩ : ∃ k, fuel = k + 1 + B.length := ⟨fuel - 1 - B.length, by omega⟩
  unfold edit_tag
  simp only []
  rw [wrap32_natCast _ hlen]
  have hR0 : (e.fptr_old.data).drop 0 = hdr ++ (frames_bytes B ++ (F.bytes ++ R)) := by
    rw [List.drop_zero, hin]; simp
  rw [copy_header_to_file_spec
    { e with fptr_old := { e.fptr_old with pos := 0 } } hdr _ hh hR0 (by simp [hnd, hnp])]
  simp only [hnd, List.length_nil, Nat.zero_add, List.nil_append]
  by_cases c0 : 10 ≤ e.fptr_new.cap
  swap
  · rw [if_neg c0]
    exact ⟨_, rfl⟩
  rw [if_pos c0]
  simp only []
  have hR1 := drop_add_of_drop _ _ _ _ hR0
  rw [hh] at hR1
  rcases edit_loop_copy_all tgt ht4 hz (e.fptr_old.data.length : Int) B (k + 1)
    { e with fptr_old := { e.fptr_old with pos := 10 },
             fptr_new := { e.fptr_new with data := hdr, pos := 10 } }
    (F.bytes ++ R) hB hR1 (by simp [hh]) rfl htgt (by simp [hh]; omega) with h | h
  swap
  · obtain ⟨_, e2, he2⟩ := h
    rw [he2]
    exact ⟨_, rfl⟩
  obtain ⟨hBp, hBc, e2, he2, ho2, hn2, hi2, hs2, hd2⟩ := h
  simp only [hh] at hBc ho2 hn2
  simp only at ho2 hn2 hi2 hs2 hd2
  rw [he2]
  have hR2 := drop_add_of_drop _ _ _ _ hR1
  rcases edit_loop_match k (e.fptr_old.data.length : Int) e2 F R tgt hF
    (by rw [ho2]; exact hR2) (by rw [hn2]; simp [hh]) (by rw [ho2]) (by rw [hi2]; exact htgt)
    ht4 hz hid with h | h
  · obtain ⟨hFp, hn0, _⟩ := h
    rw [hs2] at hn0
    rcases hbad with ⟨f, hf, hfp⟩ | hfp | hn
    · exact absurd hfp (hBp f hf)
    · exact absurd hfp hFp
    · omega
  · obtain ⟨_, e3, he3⟩ := h
    rw [he3]
    exact ⟨_, rfl⟩


/-- C21, as stated, fails in its last part: with `new_frame_size` 1 (the text is one space)
and a file that holds no `TIT2` frame, `write_new_frame_data` is never called and `edit_tag`
returns success, the output being the input. -/
theorem zero_length_counterexample :
    ({ demo_edit [] with new_frame_data := ascii " ", new_frame_size := 1 }).new_frame_size = 1
      ∧ (edit_tag 5
            { demo_edit (demo_header ++ frames_bytes [demo_artist]) with
              new_frame_data := ascii " ", new_frame_size := 1 }
            (demo_disk (demo_header ++ frames_bytes [demo_artist]))).map
          (fun r => (r.1, r.2.1.fptr_new.data))
        = some (e_success, demo_header ++ frames_bytes [demo_artist]) := by
  decide

/-- C21, amended: `read_data_from_file` and `write_data_to_file` return failure for 0 bytes,
and so do `read_frame_data` and `read_old_frame_data` after a decoded size 1 and
`write_new_frame_data` for `new_frame_size` 1.  Hence on a complete file (shorter than
`2 ^ 31` bytes) the reader fails when it reaches, with fewer than 8 entries, a catalogued
frame of decoded size 1, and the editor fails when a frame before the match or the matching
frame has decoded size 1, and when the match is reached with `new_frame_size` 1; the file
system is then left as it was. -/
theorem zero_length_transfers_fail :
    (∀ f : RFile, read_data_from_file 0 f = (e_failure, [], f))
      ∧ (∀ (buf : List UInt8) (g : WFile), write_data_to_file buf 0 g = (e_failure, g))
      ∧ (∀ (k : Nat) (t : TagInfo), t.frame_Size.getD k 0 = 1 →
          read_frame_data k t = (e_failure, t))
      ∧ (∀ e : Edit, e.frame_size = 1 →
          read_old_frame_data e = some (e_failure, { e with old_frame_data := [] }))
      ∧ (∀ e : Edit, e.new_frame_size = 1 → write_new_frame_data e = (e_failure, e))
      ∧ (∀ (fuel : Nat) (t : TagInfo) (hdr : List UInt8) (B : List Frame) (F : Frame)
          (rest : List UInt8), hdr.length = 10 → (∀ f ∈ B, f.Complete) →
          (B.filter (fun f => decide (f.id ∈ tags_name))).length < 8 →
          F.Complete → F.id ∈ tags_name → F.size = 1 →
          t.fptr_src_mp3.data = hdr ++ frames_bytes B ++ F.bytes ++ rest →
          t.fptr_src_mp3.data.length < 2147483648 → t.frame_Size.length = 8 →
          B.length < fuel →
          ∃ k t', display_tag fuel t = some (e_failure, k, t'))
      ∧ (∀ (fuel : Nat) (e : Edit) (disk : Disk) (hdr : List UInt8) (B : List Frame)
          (F : Frame) (R tgt : List UInt8), hdr.length = 10 →
          (∀ f ∈ B, f.Complete ∧ f.id ≠ tgt) → F.Complete → F.id = tgt →
          e.fptr_old.data = hdr ++ frames_bytes B ++ F.bytes ++ R →
          e.fptr_old.data.length < 2147483648 →
          e.fptr_new.data = [] → e.fptr_new.pos = 0 →
          e.frame_id = tgt ++ [0] → tgt.length = 4 → (0 : UInt8) ∉ tgt →
          B.length < fuel →
          ((∃ f ∈ B, f.size = 1) ∨ F.size = 1 ∨ e.new_frame_size = 1) →
          ∃ e', edit_tag fuel e disk = some (e_failure, e', disk)) := by
  refine ⟨read_data_from_file_zero_eq, write_data_to_file_zero, ?_, ?_, ?_, ?_, ?_⟩
  · intro k t h
    unfold read_frame_data
    simp only [h]
    rw [if_neg (by decide)]
    have : toU32 ((1 : Int) - 1) = 0 := by decide
    rw [this, read_data_from_file_zero_eq]
  · intro e h
    unfold read_old_frame_data
    simp only [h]
    rw [if_neg (fun c => absurd c.1 (by decide))]
    have : toU32 ((1 : Int) - 1) = 0 := by decide
    rw [this, read_data_from_file_zero_eq]
  · intro e h
    unfold write_new_frame_data
    rw [h]
    have : ((1 : Int) - 1) = 0 := by decide
    rw [this, write_data_to_file_zero]
    simp only []
    rw [← h]
  · intro fuel t hdr B F rest hh hB h8 hF hm hs hin hlen hS hfuel
    exact display_tag_empty_payload fuel t hdr B F rest hh hB h8 hF hm
      ((Frame.payload_nil_iff F hF).2 hs) hin hlen hS hfuel
  · intro fuel e disk hdr B F R tgt hh hB hF hid hin hlen hnd hnp htgt ht4 hz hfB hbad
    refine edit_tag_empty_payload fuel e disk hdr B F R tgt hh hB hF hid hin hlen hnd hnp htgt
      ht4 hz hfB ?_
    rcases hbad with ⟨f, hf, hs⟩ | hs | hs
    · exact Or.inl ⟨f, hf, (Frame.payload_nil_iff f (hB f hf).1).2 hs⟩
    · exact Or.inr (Or.inl ((Frame.payload_nil_iff F hF).2 hs))
    · right; right
      rw [hs]; decide

/-- Instance of the amended C21: an artist frame followed by the album frame of size 1; the reader
fails, and the editor asked for the album fails too. -/
theorem zero_length_transfers_fail_witness :
    (∃ k t', display_tag 5
        (demo_tagInfo (demo_header ++ frames_bytes [demo_artist] ++ demo_empty.bytes ++ []))
      = some (e_failure, k, t'))
    ∧ (∃ e', edit_tag 5
        { demo_edit (demo_header ++ frames_bytes [demo_artist] ++ demo_empty.bytes ++ []) with
          frame_id := ascii "TALB" ++ [0] }
        (demo_disk [])
      = some (e_failure, e', demo_disk []))
    ∧ ∃ e', edit_tag 5
        { demo_edit (demo_header ++ frames_bytes [] ++ demo_title.bytes ++ demo_audio) with
          new_frame_data := ascii " ", new_frame_size := 1 }
        (demo_disk [])
      = some (e_failure, e', demo_disk []) :=
  ⟨zero_length_transfers_fail.2.2.2.2.2.1 5
      (demo_tagInfo (demo_header ++ frames_bytes [demo_artist] ++ demo_empty.bytes ++ []))
      demo_header [demo_artist] demo_empty [] (by decide) (by decide) (by decide) (by decide)
      (by decide) (by decide) rfl (by decide) (by decide) (by decide),
   zero_length_transfers_fail.2.2.2.2.2.2 5
      { demo_edit (demo_header ++ frames_bytes [demo_artist] ++ demo_empty.bytes ++ []) with
        frame_id := ascii "TALB" ++ [0] }
      (demo_disk []) demo_header [demo_artist] demo_empty [] (ascii "TALB") (by decide)
      (by decide) (by decide) (by decide) rfl (by decide) rfl rfl rfl (by decide) (by decide)
      (by decide) (Or.inr (Or.inl (by decide))),
   zero_length_transfers_fail.2.2.2.2.2.2 5
      { demo_edit (demo_header ++ frames_bytes [] ++ demo_title.bytes ++ demo_audio) with
        new_frame_data := ascii " ", new_frame_size := 1 }
      (demo_disk []) demo_header [] demo_title demo_audio (ascii "TIT2") (by decide)
      (by decide) (by decide) (by decide) rfl (by decide) rfl rfl rfl (by decide) (by decide)
      (by decide) (Or.inr (Or.inr rfl))⟩

/-! ## The match decision -/

theorem fread_success_buf (n : Nat) (f f1 : RFile) (buf : List UInt8)
    (h : fread n f = (1, buf, f1)) : buf = (f.data.drop f.pos).take n := by
  unfold fread at h
  by_cases h0 : n = 0
  · rw [if_pos h0] at h
    cases (Prod.mk.inj h).1
  · rw [if_neg h0] at h
    by_cases h1 : f.pos + n ≤ f.data.length
    · rw [if_pos h1] at h
      exact ((Prod.mk.inj (Prod.mk.inj h).2).1).symm
    · rw [if_neg h1] at h
      cases (Prod.mk.inj h).1

theorem read_data_from_file_inv (n : Nat) (f f1 : RFile) (buf : List UInt8)
    (h : read_data_from_file n f = (e_success, buf, f1)) :
    0 < n ∧ f.pos + n ≤ f.data.length ∧ buf = (f.data.drop f.pos).take n
      ∧ f1 = { f with pos := f.pos + n } := by
  unfold read_data_from_file at h
  revert h
  split
  · rename_i b g hfr
    intro h
    obtain ⟨_, h2⟩ := Prod.mk.inj h
    obtain ⟨h3, h4⟩ := Prod.mk.inj h2
    subst h3; subst h4
    obtain ⟨a1, a2, _, a4⟩ := fread_success n f _ _ hfr
    exact ⟨a1, a2, fread_success_buf n f _ _ hfr, a4⟩
  · intro h
    cases (Prod.mk.inj h).1

theorem read_size_from_file_inv (n : Nat) (f f1 : RFile) (x : Int)
    (h : read_size_from_file n f = (e_success, x, f1)) :
    0 < n ∧ f.pos + n ≤ f.data.length ∧ f1 = { f with pos := f.pos + n } := by
  unfold read_size_from_file at h
  revert h
  split
  · rename_i b g hfr
    intro h
    obtain ⟨_, h2⟩ := Prod.mk.inj h
    obtain ⟨_, h4⟩ := Prod.mk.inj h2
    subst h4
    obtain ⟨a1, a2, _, a4⟩ := fread_success n f _ _ hfr
    exact ⟨a1, a2, a4⟩
  · intro h
    cases (Prod.mk.inj h).1

/-- What a successful `read_edit_frame_id` has done to the input stream and to the
identifiers. -/
theorem read_edit_frame_id_inv (e e1 : Edit) (h : read_edit_frame_id e = (e_success, e1)) :
    e.fptr_old.pos + 4 ≤ e.fptr_old.data.length
      ∧ e1.fptr_old = { e.fptr_old with pos := e.fptr_old.pos + 4 }
      ∧ e1.old_frame_id
        = strcpy e.old_frame_id ((e.fptr_old.data.drop e.fptr_old.pos).take 4 ++ [0])
      ∧ e1.frame_id = e.frame_id := by
  unfold read_edit_frame_id at h
  revert h
  split
  · intro h; cases (Prod.mk.inj h).1
  · rename_i buf f1 hrd
    obtain ⟨_, a2, a3, a4⟩ := read_data_from_file_inv _ _ _ _ hrd
    simp only []
    split
    · intro h; cases (Prod.mk.inj h).1
    · intro h
      rw [← (Prod.mk.inj h).2]
      exact ⟨a2, a4, by rw [a3]; rfl, rfl⟩

theorem read_edit_frame_size_inv (e e1 : Edit) (h : read_edit_frame_size e = (e_success, e1)) :
    e.fptr_old.pos + 4 ≤ e.fptr_old.data.length
      ∧ e1.fptr_old = { e.fptr_old with pos := e.fptr_old.pos + 4 }
      ∧ e1.old_frame_id = e.old_frame_id ∧ e1.frame_id = e.frame_id := by
  unfold read_edit_frame_size at h
  revert h
  split
  · intro h; cases (Prod.mk.inj h).1
  · rename_i x f1 hrd
    obtain ⟨_, a2, a4⟩ := read_size_from_file_inv _ _ _ _ hrd
    split
    · intro h; cases (Prod.mk.inj h).1
    · intro h
      rw [← (Prod.mk.inj h).2]
      exact ⟨a2, a4, rfl, rfl⟩

theorem copy_flag_to_file_inv (e e1 : Edit) (h : copy_flag_to_file e = (e_success, e1)) :
    e.fptr_old.pos + 3 ≤ e.fptr_old.data.length
      ∧ e1.fptr_old = { e.fptr_old with pos := e.fptr_old.pos + 3 }
      ∧ e1.old_frame_id = e.old_frame_id ∧ e1.frame_id = e.frame_id := by
  unfold copy_flag_to_file at h
  revert h
  split
  · intro h; cases (Prod.mk.inj h).1
  · rename_i buf f1 hrd
    obtain ⟨_, a2, _, a4⟩ := read_data_from_file_inv _ _ _ _ hrd
    split
    · intro h; cases (Prod.mk.inj h).1
    · intro h
      rw [← (Prod.mk.inj h).2]
      exact ⟨a2, a4, rfl, rfl⟩

theorem read_old_frame_data_inv (e e1 : Edit)
    (h : read_old_frame_data e = some (e_success, e1)) :
    ∃ n, 0 < n ∧ e.fptr_old.pos + n ≤ e.fptr_old.data.length
      ∧ e1.fptr_old = { e.fptr_old with pos := e.fptr_old.pos + n }
      ∧ e1.old_frame_id = e.old_frame_id ∧ e1.frame_id = e.frame_id := by
  unfold read_old_frame_data at h
  revert h
  simp only []
  split
  · intro h; cases h
  · split
    · intro h; cases (Prod.mk.inj (Option.some.inj h)).1
    · rename_i buf f1 hrd
      obtain ⟨a1, a2, _, a4⟩ := read_data_from_file_inv _ _ _ _ hrd
      intro h
      rw [← (Prod.mk.inj (Option.some.inj h)).2]
      exact ⟨_, a1, a2, a4, rfl, rfl⟩

theorem copy_frame_data_to_file_inv (e e1 : Edit) (s : Status)
    (h : copy_frame_data_to_file e = (s, e1)) : e1.fptr_old = e.fptr_old := by
  unfold copy_frame_data_to_file at h
  revert h
  split
  · intro h; rw [← (Prod.mk.inj h).2]
  · intro h; rw [← (Prod.mk.inj h).2]


/-- The comparison of line 153 for an identifier of the catalog held as a string in
`frame_id`, whatever bytes were in `old_frame_id` before the copy. -/
theorem match_catalog_iff (stale id fid tgt : List UInt8) (hid : id.length = 4)
    (hcat : tgt ∈ tags_name) (hfid : cstr fid = tgt) :
    strncmp (strcpy stale (id ++ [0])) fid FRAME_ID_SIZE = 0 ↔ id = tgt := by
  obtain ⟨ht, hz⟩ := tags_name_props tgt hcat
  rw [strncmp_eq_zero_iff, cstr_strcpy, cstr_append_zero, hfid]
  have hl := cstr_length_le id
  have t1 : (cstr id).take FRAME_ID_SIZE = cstr id := by
    apply List.take_of_length_le; simp [FRAME_ID_SIZE]; omega
  have t2 : tgt.take FRAME_ID_SIZE = tgt := by
    apply List.take_of_length_le; simp [FRAME_ID_SIZE]; omega
  rw [t1, t2]
  constructor
  · intro h
    have : (cstr id).length = id.length := by rw [h, ht, hid]
    rw [← cstr_eq_of_length id this, h]
  · intro h
    subst h
    exact cstr_eq_self _ hz

/-- C22 (the match is exact 4-byte equality).  With `frame_id` holding an identifier `tgt`
of the catalog, the comparison `strncmp(old_frame_id, frame_id, 4) == 0` made after `strcpy`
of the four bytes read holds exactly when these four bytes are `tgt`: for any four bytes, NUL
bytes included, and whatever stood in `old_frame_id` before.  In a turn of the loop of
`edit_tag` whose four reads succeed, the frame is rewritten and the loop left exactly when the
four identifier bytes at the position of the input are `tgt`; otherwise its payload is copied
and the loop goes on. -/
theorem match_decision_exact :
    (∀ stale id fid tgt : List UInt8, id.length = 4 → tgt ∈ tags_name → cstr fid = tgt →
        (strncmp (strcpy stale (id ++ [0])) fid FRAME_ID_SIZE = 0 ↔ id = tgt))
      ∧ ∀ (n : Nat) (fe : Int) (e e1 e2 e3 e4 : Edit) (tgt : List UInt8),
        tgt ∈ tags_name → cstr e.frame_id = tgt → (e.fptr_old.pos : Int) < fe →
        read_edit_frame_id e = (e_success, e1) →
        read_edit_frame_size e1 = (e_success, e2) →
        copy_flag_to_file e2 = (e_success, e3) →
        read_old_frame_data e3 = some (e_success, e4) →
        ((e.fptr_old.data.drop e.fptr_old.pos).take 4).length = 4
        ∧ (strncmp e4.old_frame_id e4.frame_id FRAME_ID_SIZE = 0
            ↔ (e.fptr_old.data.drop e.fptr_old.pos).take 4 = tgt)
        ∧ ((e.fptr_old.data.drop e.fptr_old.pos).take 4 = tgt →
            edit_loop (n + 1) fe e
              = match replace_edit_frame_size
                    { e4 with fptr_new :=
                        { e4.fptr_new with pos := seek_cur e4.fptr_new.pos (-7) } } with
                | (e_failure, e5) => some (e_failure, e5)
                | (e_success, e5) =>
                  match write_new_frame_data
                      { e5 with fptr_new :=
                          { e5.fptr_new with
                            pos := seek_cur e5.fptr_new.pos ((FLAG_SIZE : Int) + 1) } } with
                  | (e_failure, e6) => some (e_failure, e6)
                  | (e_success, e6) => some (e_success, e6))
        ∧ ((e.fptr_old.data.drop e.fptr_old.pos).take 4 ≠ tgt →
            edit_loop (n + 1) fe e
              = match copy_frame_data_to_file e4 with
                | (e_failure, e5) => some (e_failure, e5)
                | (e_success, e5) => edit_loop n fe e5) := by
  refine ⟨match_catalog_iff, ?_⟩
  intro n fe e e1 e2 e3 e4 tgt hcat hfid hpos h1 h2 h3 h4
  obtain ⟨a1, _, a3, a4⟩ := read_edit_frame_id_inv e e1 h1
  obtain ⟨_, _, b3, b4⟩ := read_edit_frame_size_inv e1 e2 h2
  obtain ⟨_, _, c3, c4⟩ := copy_flag_to_file_inv e2 e3 h3
  obtain ⟨_, _, _, _, d3, d4⟩ := read_old_frame_data_inv e3 e4 h4
  have hl : ((e.fptr_old.data.drop e.fptr_old.pos).take 4).length = 4 := by
    rw [List.length_take, List.length_drop]; omega
  have hiff : strncmp e4.old_frame_id e4.frame_id FRAME_ID_SIZE = 0
      ↔ (e.fptr_old.data.drop e.fptr_old.pos).take 4 = tgt := by
    rw [d3, c3, b3, a3, d4, c4, b4, a4]
    exact match_catalog_iff _ _ _ _ hl hcat hfid
  refine ⟨hl, hiff, ?_, ?_⟩
  · intro hm
    rw [edit_loop, if_pos hpos, h1]
    simp only [h2, h3, h4]
    rw [if_pos (hiff.2 hm)]
  · intro hm
    rw [edit_loop, if_pos hpos, h1]
    simp only [h2, h3, h4]
    rw [if_neg (fun hc => hm (hiff.1 hc))]

/-- Instance of C22: the bytes `TI`, NUL, `2` read over a stale `TIT2` do not match `TIT2`,
and the bytes `TIT2` do. -/
theorem match_decision_exact_witness :
    (strncmp (strcpy (ascii "TIT2" ++ [0]) ([84, 73, 0, 50] ++ [0])) (ascii "TIT2" ++ [0])
        FRAME_ID_SIZE = 0 ↔ [84, 73, 0, 50] = ascii "TIT2")
    ∧ (strncmp (strcpy (ascii "TPE1" ++ [0]) (ascii "TIT2" ++ [0])) (ascii "TIT2" ++ [0])
        FRAME_ID_SIZE = 0 ↔ ascii "TIT2" = ascii "TIT2") :=
  ⟨match_decision_exact.1 (ascii "TIT2" ++ [0]) [84, 73, 0, 50] (ascii "TIT2" ++ [0])
      (ascii "TIT2") (by decide) (by decide) (by decide),
   match_decision_exact.1 (ascii "TPE1" ++ [0]) (ascii "TIT2") (ascii "TIT2" ++ [0])
      (ascii "TIT2") (by decide) (by decide) (by decide)⟩

/-! ## Termination of the rewriter -/

theorem replace_edit_frame_size_inv (e e1 : Edit) (s : Status)
    (h : replace_edit_frame_size e = (s, e1)) : e1.fptr_old = e.fptr_old := by
  unfold replace_edit_frame_size at h
  revert h
  split
  · intro h; rw [← (Prod.mk.inj h).2]
  · intro h; rw [← (Prod.mk.inj h).2]

theorem write_new_frame_data_inv (e e1 : Edit) (s : Status)
    (h : write_new_frame_data e = (s, e1)) : e1.fptr_old = e.fptr_old := by
  unfold write_new_frame_data at h
  revert h
  split
  · intro h; rw [← (Prod.mk.inj h).2]
  · intro h; rw [← (Prod.mk.inj h).2]

theorem copy_header_to_file_inv (e e1 : Edit) (h : copy_header_to_file e = (e_success, e1)) :
    e1.fptr_old = { e.fptr_old with pos := e.fptr_old.pos + 10 } := by
  unfold copy_header_to_file at h
  revert h
  split
  · intro h; cases (Prod.mk.inj h).1
  · rename_i buf f1 hrd
    obtain ⟨_, _, _, a4⟩ := read_data_from_file_inv _ _ _ _ hrd
    split
    · intro h; cases (Prod.mk.inj h).1
    · intro h
      rw [← (Prod.mk.inj h).2]
      exact a4

/-- A turn of the loop of `edit_tag` that goes on to the next turn has moved the input
stream at least 12 bytes forward, within the file. -/
theorem edit_loop_progress (e e1 e2 e3 e4 e5 : Edit) (s : Status)
    (h1 : read_edit_frame_id e = (e_success, e1))
    (h2 : read_edit_frame_size e1 = (e_success, e2))
    (h3 : copy_flag_to_file e2 = (e_success, e3))
    (h4 : read_old_frame_data e3 = some (e_success, e4))
    (h5 : copy_frame_data_to_file e4 = (s, e5)) :
    e5.fptr_old.data = e.fptr_old.data ∧ e.fptr_old.pos + 12 ≤ e5.fptr_old.pos
      ∧ e5.fptr_old.pos ≤ e.fptr_old.data.length
      ∧ e4.fptr_old = e5.fptr_old := by
  obtain ⟨_, a2, _, _⟩ := read_edit_frame_id_inv e e1 h1
  obtain ⟨_, b2, _, _⟩ := read_edit_frame_size_inv e1 e2 h2
  obtain ⟨_, c2, _, _⟩ := copy_flag_to_file_inv e2 e3 h3
  obtain ⟨n, d0, d1, d2, _, _⟩ := read_old_frame_data_inv e3 e4 h4
  have f2 := copy_frame_data_to_file_inv e4 e5 s h5
  rw [c2, b2, a2] at d1 d2
  simp only [] at d1 d2
  rw [f2, d2]
  refine ⟨rfl, ?_, d1, rfl⟩
  show e.fptr_old.pos + 12 ≤ e.fptr_old.pos + 4 + 4 + 3 + n
  omega

/-- The loop of `edit_tag` with fuel is the loop of turns: one turn, then the rest. -/
theorem edit_loop_turn (n : Nat) (fe : Int) (e : Edit) :
    edit_loop (n + 1) fe e
      = match edit_turn fe e with
        | LoopTurn.finished r => some r
        | LoopTurn.next e1 => edit_loop n fe e1
        | LoopTurn.undefined => none := by
  rw [edit_loop]
  unfold edit_turn
  by_cases hpos : (e.fptr_old.pos : Int) < fe
  swap
  · rw [if_neg hpos, if_neg hpos]
  rw [if_pos hpos, if_pos hpos]
  cases h1 : read_edit_frame_id e with
  | mk s1 e1 =>
  cases s1 with
  | e_failure => rfl
  | e_success =>
  simp only []
  cases h2 : read_edit_frame_size e1 with
  | mk s2 e2 =>
  cases s2 with
  | e_failure => rfl
  | e_success =>
  simp only []
  cases h3 : copy_flag_to_file e2 with
  | mk s3 e3 =>
  cases s3 with
  | e_failure => rfl
  | e_success =>
  simp only []
  cases h4 : read_old_frame_data e3 with
  | none => rfl
  | some r4 =>
  obtain ⟨s4, e4⟩ := r4
  cases s4 with
  | e_failure => rfl
  | e_success =>
  simp only []
  by_cases hmatch : strncmp e4.old_frame_id e4.frame_id FRAME_ID_SIZE = 0
  · rw [if_pos hmatch, if_pos hmatch]
    cases h5 : replace_edit_frame_size
        { e4 with fptr_new := { e4.fptr_new with pos := seek_cur e4.fptr_new.pos (-7) } } with
    | mk s5 e5 =>
    cases s5 with
    | e_failure => rfl
    | e_success =>
    simp only []
    cases h6 : write_new_frame_data
        { e5 with fptr_new :=
            { e5.fptr_new with pos := seek_cur e5.fptr_new.pos ((FLAG_SIZE : Int) + 1) } } with
    | mk s6 e6 =>
    cases s6 with
    | e_failure => rfl
    | e_success => rfl
  · rw [if_neg hmatch, if_neg hmatch]
    cases h5 : copy_frame_data_to_file e4 with
    | mk s5 e5 =>
    cases s5 with
    | e_failure => rfl
    | e_success => rfl

/-- The loop with fuel `n` returns what the loop of at most `n` turns ends with; it has no
answer when turn `n + 1` would start and when a call has no defined result. -/
theorem edit_loop_turns (n : Nat) :
    ∀ (fe : Int) (e : Edit),
      edit_loop n fe e
        = match edit_turns n fe e with
          | LoopTurn.finished r => some r
          | LoopTurn.next _ => none
          | LoopTurn.undefined => none := by
  induction n with
  | zero => intro fe e; rfl
  | succ n ih =>
    intro fe e
    rw [edit_loop_turn, edit_turns]
    cases h : edit_turn fe e with
    | finished r => rfl
    | next e1 => exact ih fe e1
    | undefined => rfl

/-- A turn that goes on to the next turn: every step has succeeded, the identifier read is
not the target, and the payload has been copied. -/
theorem edit_turn_next (fe : Int) (e e' : Edit) (h : edit_turn fe e = LoopTurn.next e') :
    ∃ e1 e2 e3 e4, (e.fptr_old.pos : Int) < fe
      ∧ read_edit_frame_id e = (e_success, e1)
      ∧ read_edit_frame_size e1 = (e_success, e2)
      ∧ copy_flag_to_file e2 = (e_success, e3)
      ∧ read_old_frame_data e3 = some (e_success, e4)
      ∧ strncmp e4.old_frame_id e4.frame_id FRAME_ID_SIZE ≠ 0
      ∧ copy_frame_data_to_file e4 = (e_success, e') := by
  unfold edit_turn at h
  by_cases hpos : (e.fptr_old.pos : Int) < fe
  swap
  · rw [if_neg hpos] at h; cases h
  rw [if_pos hpos] at h
  cases h1 : read_edit_frame_id e with
  | mk s1 e1 =>
  rw [h1] at h
  cases s1 with
  | e_failure => cases h
  | e_success =>
  simp only [] at h
  cases h2 : read_edit_frame_size e1 with
  | mk s2 e2 =>
  rw [h2] at h
  cases s2 with
  | e_failure => cases h
  | e_success =>
  simp only [] at h
  cases h3 : copy_flag_to_file e2 with
  | mk s3 e3 =>
  rw [h3] at h
  cases s3 with
  | e_failure => cases h
  | e_success =>
  simp only [] at h
  cases h4 : read_old_frame_data e3 with
  | none => rw [h4] at h; cases h
  | some r4 =>
  obtain ⟨s4, e4⟩ := r4
  rw [h4] at h
  cases s4 with
  | e_failure => cases h
  | e_success =>
  simp only [] at h
  by_cases hmatch : strncmp e4.old_frame_id e4.frame_id FRAME_ID_SIZE = 0
  · rw [if_pos hmatch] at h
    revert h
    split
    · intro h; cases h
    · split
      · intro h; cases h
      · intro h; cases h
  · rw [if_neg hmatch] at h
    cases h5 : copy_frame_data_to_file e4 with
    | mk s5 e5 =>
    rw [h5] at h
    cases s5 with
    | e_failure => cases h
    | e_success =>
      simp only [] at h
      cases h
      exact ⟨e1, e2, e3, e4, hpos, rfl, h2, h3, h4, hmatch, h5⟩

/-- A turn without a defined result: identifier, size and flag bytes have been read, the
decoded size is not positive, and a byte is left to read. -/
theorem edit_turn_undefined (fe : Int) (e : Edit) (h : edit_turn fe e = LoopTurn.undefined) :
    ∃ e1 e2 e3, read_edit_frame_id e = (e_success, e1)
      ∧ read_edit_frame_size e1 = (e_success, e2)
      ∧ copy_flag_to_file e2 = (e_success, e3)
      ∧ e3.frame_size ≤ 0 ∧ e3.fptr_old.pos < e3.fptr_old.data.length := by
  unfold edit_turn at h
  by_cases hpos : (e.fptr_old.pos : Int) < fe
  swap
  · rw [if_neg hpos] at h; cases h
  rw [if_pos hpos] at h
  cases h1 : read_edit_frame_id e with
  | mk s1 e1 =>
  rw [h1] at h
  cases s1 with
  | e_failure => cases h
  | e_success =>
  simp only [] at h
  cases h2 : read_edit_frame_size e1 with
  | mk s2 e2 =>
  rw [h2] at h
  cases s2 with
  | e_failure => cases h
  | e_success =>
  simp only [] at h
  cases h3 : copy_flag_to_file e2 with
  | mk s3 e3 =>
  rw [h3] at h
  cases s3 with
  | e_failure => cases h
  | e_success =>
  simp only [] at h
  cases h4 : read_old_frame_data e3 with
  | none =>
    refine ⟨e1, e2, e3, rfl, h2, h3, ?_⟩
    unfold read_old_frame_data at h4
    simp only [] at h4
    by_cases c : e3.frame_size ≤ 0 ∧ e3.fptr_old.pos < e3.fptr_old.data.length
    · exact c
    · rw [if_neg c] at h4
      revert h4
      split
      · intro h4; cases h4
      · intro h4; cases h4
  | some r4 =>
  obtain ⟨s4, e4⟩ := r4
  rw [h4] at h
  cases s4 with
  | e_failure => cases h
  | e_success =>
  simp only [] at h
  by_cases hmatch : strncmp e4.old_frame_id e4.frame_id FRAME_ID_SIZE = 0
  · rw [if_pos hmatch] at h
    revert h
    split
    · intro h; cases h
    · split
      · intro h; cases h
      · intro h; cases h
  · rw [if_neg hmatch] at h
    revert h
    split
    · intro h; cases h
    · intro h; cases h

/-- The loop of `edit_tag` has ended after as many turns as bytes are left to read, and one
more. -/
theorem edit_turns_ends (n : Nat) :
    ∀ (fe : Int) (e : Edit), e.fptr_old.data.length - e.fptr_old.pos < n →
      ∀ e', edit_turns n fe e ≠ LoopTurn.next e' := by
  induction n with
  | zero => intro fe e h; omega
  | succ n ih =>
    intro fe e hm e' hc
    rw [edit_turns] at hc
    cases h : edit_turn fe e with
    | finished r => rw [h] at hc; cases hc
    | undefined => rw [h] at hc; cases hc
    | next e1 =>
      rw [h] at hc
      obtain ⟨x1, x2, x3, x4, _, h1, h2, h3, h4, _, h5⟩ := edit_turn_next fe e e1 h
      obtain ⟨hd, hp, hl, _⟩ := edit_loop_progress e x1 x2 x3 x4 e1 _ h1 h2 h3 h4 h5
      exact ih fe e1 (by rw [hd]; omega) e' hc
/-- The copy of the remaining bytes returns for every state of the streams. -/
theorem copy_remainig_data_terminates (fuel : Nat) :
    ∀ e : Edit, e.fptr_old.data.length - e.fptr_old.pos < fuel →
      ∃ s e', copy_remainig_data fuel e = some (s, e') := by
  induction fuel with
  | zero => intro e h; omega
  | succ n ih =>
    intro e hm
    rw [copy_remainig_data]
    by_cases hp : e.fptr_old.pos + 1 ≤ e.fptr_old.data.length
    · have hfr : fread 1 e.fptr_old
          = (1, (e.fptr_old.data.drop e.fptr_old.pos).take 1,
              { e.fptr_old with pos := e.fptr_old.pos + 1 }) := by
        unfold fread
        rw [if_neg (by decide), if_pos hp]
      rw [hfr]
      simp only []
      split
      · exact ih _ (by simp only []; omega)
      · exact ⟨_, _, rfl⟩
    · have hfr : fread 1 e.fptr_old
          = (0, e.fptr_old.data.drop e.fptr_old.pos,
              { e.fptr_old with pos := max e.fptr_old.pos e.fptr_old.data.length }) := by
        unfold fread
        rw [if_neg (by decide), if_neg hp]
      rw [hfr]
      exact ⟨_, _, rfl⟩

/-- A file whose first frame has the size bytes `FF FF FF F6`, decoded -10, and a byte after
its flag bytes: the first turn of the loop of `edit_tag` calls `read_old_frame_data` without a
defined result, and the loop has no answer whatever the fuel. -/
theorem edit_turns_negative_size :
    edit_turn 22
        { demo_edit (demo_header ++ ascii "XXXX" ++ [255, 255, 255, 246] ++ [0, 0, 0] ++ [65])
          with fptr_old :=
            { data := demo_header ++ ascii "XXXX" ++ [255, 255, 255, 246] ++ [0, 0, 0] ++ [65],
              pos := 10 } }
      = LoopTurn.undefined
    ∧ ∀ n, edit_loop n 22
        { demo_edit (demo_header ++ ascii "XXXX" ++ [255, 255, 255, 246] ++ [0, 0, 0] ++ [65])
          with fptr_old :=
            { data := demo_header ++ ascii "XXXX" ++ [255, 255, 255, 246] ++ [0, 0, 0] ++ [65],
              pos := 10 } }
      = none := by
  have h : edit_turn 22
        { demo_edit (demo_header ++ ascii "XXXX" ++ [255, 255, 255, 246] ++ [0, 0, 0] ++ [65])
          with fptr_old :=
            { data := demo_header ++ ascii "XXXX" ++ [255, 255, 255, 246] ++ [0, 0, 0] ++ [65],
              pos := 10 } }
      = LoopTurn.undefined := rfl
  refine ⟨h, fun n => ?_⟩
  cases n with
  | zero => rfl
  | succ n => rw [edit_loop_turn, h]

/-- C25 (the rewriter terminates).  From every state of the streams and for every request,
the frame loop of `edit_tag` has ended after at most `n` turns, `n` above the number of bytes
left to read: it has been left with a status, which is then the answer of `edit_loop`, or it
has made the call of `read_old_frame_data` that has no defined result (a decoded size that is
not positive while a byte is left to read), after which nothing of the loop is run.  The
reason: a turn that goes on to the next turn has read 4 + 4 + 3 bytes and at least one payload
byte, so the input position has grown by at least 11 (indeed 12) and is still within the
file, and a turn that starts with the position not below `file_end` leaves the loop.  The
copy of the remaining bytes returns, with success when nothing is left to read. -/
theorem rewriter_terminates (n : Nat) (fe : Int) (x : Edit)
    (hn : x.fptr_old.data.length - x.fptr_old.pos < n) :
    (∀ x', edit_turns n fe x ≠ LoopTurn.next x')
      ∧ (∀ r, edit_turns n fe x = LoopTurn.finished r → edit_loop n fe x = some r)
      ∧ (∀ x', edit_turn fe x = LoopTurn.next x' →
          x.fptr_old.pos + 11 ≤ x'.fptr_old.pos
            ∧ x.fptr_old.pos + 4 + 4 + 3 + 1 ≤ x'.fptr_old.pos
            ∧ x'.fptr_old.pos ≤ x.fptr_old.data.length
            ∧ x'.fptr_old.data = x.fptr_old.data)
      ∧ (¬ (x.fptr_old.pos : Int) < fe → edit_turn fe x = LoopTurn.finished (e_success, x))
      ∧ (edit_turn fe x = LoopTurn.undefined →
          ∃ e1 e2 e3, read_edit_frame_id x = (e_success, e1)
            ∧ read_edit_frame_size e1 = (e_success, e2)
            ∧ copy_flag_to_file e2 = (e_success, e3)
            ∧ e3.frame_size ≤ 0 ∧ e3.fptr_old.pos < e3.fptr_old.data.length)
      ∧ (∃ r, copy_remainig_data n x = some r)
      ∧ (x.fptr_old.data.length ≤ x.fptr_old.pos →
          ∃ x', copy_remainig_data n x = some (e_success, x')) := by
  refine ⟨edit_turns_ends n fe x hn, ?_, ?_, ?_, edit_turn_undefined fe x, ?_, ?_⟩
  · intro r hr
    rw [edit_loop_turns, hr]
  · intro x' hx
    obtain ⟨e1, e2, e3, e4, _, h1, h2, h3, h4, _, h5⟩ := edit_turn_next fe x x' hx
    obtain ⟨hd, hp, hl, _⟩ := edit_loop_progress x e1 e2 e3 e4 x' _ h1 h2 h3 h4 h5
    exact ⟨by omega, by omega, hl, hd⟩
  · intro hpos
    unfold edit_turn
    rw [if_neg hpos]
  · obtain ⟨s, e', h⟩ := copy_remainig_data_terminates n x hn
    exact ⟨_, h⟩
  · intro hx
    obtain ⟨k, rfl⟩ : ∃ k, n = k + 1 := ⟨n - 1, by omega⟩
    have hfr : fread 1 x.fptr_old
        = (0, x.fptr_old.data.drop x.fptr_old.pos,
            { x.fptr_old with pos := max x.fptr_old.pos x.fptr_old.data.length }) := by
      unfold fread
      rw [if_neg (by decide), if_neg (by omega)]
    rw [copy_remainig_data, hfr]
    exact ⟨_, rfl⟩

/-- Instance of C25: on the example file of 41 bytes, from the end of its header, the frame
loop has ended within 32 turns and the copy returns with fuel 32. -/
theorem rewriter_terminates_witness :
    (∀ x', edit_turns 32 41
        { demo_edit
            (demo_header ++ frames_bytes [demo_artist] ++ demo_title.bytes ++ demo_audio)
          with fptr_old :=
            { data := demo_header ++ frames_bytes [demo_artist] ++ demo_title.bytes
                ++ demo_audio, pos := 10 } } ≠ LoopTurn.next x')
      ∧ ∃ r, copy_remainig_data 32
        { demo_edit
            (demo_header ++ frames_bytes [demo_artist] ++ demo_title.bytes ++ demo_audio)
          with fptr_old :=
            { data := demo_header ++ frames_bytes [demo_artist] ++ demo_title.bytes
                ++ demo_audio, pos := 10 } } = some r :=
  ⟨(rewriter_terminates 32 41 _ (by decide)).1,
   (rewriter_terminates 32 41 _ (by decide)).2.2.2.2.2.1⟩

/-! ## The table of the reader -/

/-- The scan is the iteration of `display_turn`. -/
theorem display_scan_turn (fuel k : Nat) (fe : Int) (t : TagInfo) :
    display_scan (fuel + 1) k fe t
      = match display_turn k fe t with
        | Sum.inl r => some r
        | Sum.inr (k', t') => display_scan fuel k' fe t' := by
  rw [display_scan]
  unfold display_turn
  split
  · cases read_frame_id k t with
    | mk s1 t1 =>
    cases s1 with
    | e_failure =>
      simp only []
      cases read_frame_size k t1 with
      | mk s2 t2 => cases s2 <;> rfl
    | e_success =>
      simp only []
      cases read_frame_size k t1 with
      | mk s2 t2 =>
      cases s2 with
      | e_failure => rfl
      | e_success =>
        simp only []
        cases read_frame_data k
            { t2 with fptr_src_mp3 :=
                { t2.fptr_src_mp3 with pos := seek_cur t2.fptr_src_mp3.pos 3 } } with
        | mk s3 t3 => cases s3 <;> rfl
  · rfl

/-- What `read_frame_id` does to the table: nothing, or the cell `index` of `frame_id`
receives a string of the catalog. -/
theorem read_frame_id_table (k : Nat) (t t1 : TagInfo) (s : Status)
    (h : read_frame_id k t = (s, t1)) :
    t1.frame_Size = t.frame_Size ∧ t1.frame_data = t.frame_data
      ∧ ((s = e_failure ∧ t1.frame_id = t.frame_id)
        ∨ (s = e_success ∧ ∃ x, cstr x ∈ tags_name ∧ t1.frame_id = t.frame_id.set k x)) := by
  unfold read_frame_id at h
  revert h
  split
  · intro h
    rw [← (Prod.mk.inj h).2, ← (Prod.mk.inj h).1]
    exact ⟨rfl, rfl, Or.inl ⟨rfl, rfl⟩⟩
  · rename_i buf f1 hrd
    have hb : buf.length = 4 := by
      unfold read_data_from_file at hrd
      revert hrd
      split
      · rename_i b g hfr
        intro hrd
        obtain ⟨_, h2⟩ := Prod.mk.inj hrd
        obtain ⟨h3, _⟩ := Prod.mk.inj h2
        subst h3
        have hs := hfr
        unfold fread at hs
        rw [if_neg (by decide)] at hs
        by_cases hc : t.fptr_src_mp3.pos + 4 ≤ t.fptr_src_mp3.data.length
        · rw [if_pos hc] at hs
          rw [← (Prod.mk.inj (Prod.mk.inj hs).2).1, List.length_take, List.length_drop]
          omega
        · rw [if_neg hc] at hs
          cases (Prod.mk.inj hs).1
      · intro hrd
        cases (Prod.mk.inj hrd).1
    simp only []
    split
    · intro h
      rw [← (Prod.mk.inj h).2, ← (Prod.mk.inj h).1]
      exact ⟨rfl, rfl, Or.inl ⟨rfl, rfl⟩⟩
    · rename_i hchk
      intro h
      rw [← (Prod.mk.inj h).2, ← (Prod.mk.inj h).1]
      have hm : buf ∈ tags_name := by
        apply (check_frame_index_iff buf hb).1
        cases hc : check_frame_index (buf ++ [0]) with
        | e_success => rfl
        | e_failure => exact absurd hc hchk
      exact ⟨rfl, rfl, Or.inr ⟨rfl, _, by rw [cstr_strcpy_id _ _ hm]; exact hm, rfl⟩⟩

theorem read_frame_size_table (k : Nat) (t t1 : TagInfo) (s : Status)
    (h : read_frame_size k t = (s, t1)) :
    t1.frame_id = t.frame_id ∧ t1.frame_data = t.frame_data
      ∧ (t1.frame_Size = t.frame_Size ∨ ∃ x, t1.frame_Size = t.frame_Size.set k x) := by
  unfold read_frame_size at h
  revert h
  split
  · intro h
    rw [← (Prod.mk.inj h).2]
    exact ⟨rfl, rfl, Or.inl rfl⟩
  · intro h
    rw [← (Prod.mk.inj h).2]
    exact ⟨rfl, rfl, Or.inr ⟨_, rfl⟩⟩

theorem read_frame_data_table (k : Nat) (t t1 : TagInfo) (s : Status)
    (h : read_frame_data k t = (s, t1)) :
    t1.frame_id = t.frame_id ∧ t1.frame_Size = t.frame_Size
      ∧ (t1.frame_data = t.frame_data ∨ ∃ x, t1.frame_data = t.frame_data.set k x) := by
  unfold read_frame_data at h
  revert h
  simp only []
  split
  · intro h
    rw [← (Prod.mk.inj h).2]
    exact ⟨rfl, rfl, Or.inl rfl⟩
  · split
    · intro h
      rw [← (Prod.mk.inj h).2]
      exact ⟨rfl, rfl, Or.inl rfl⟩
    · intro h
      rw [← (Prod.mk.inj h).2]
      exact ⟨rfl, rfl, Or.inr ⟨_, rfl⟩⟩


theorem getD_set_ne {α} (l : List α) (k j : Nat) (x d : α) (h : j ≠ k) :
    (l.set k x).getD j d = l.getD j d := by
  simp only [List.getD_eq_getElem?_getD]
  rw [List.getElem?_set_ne (Ne.symm h)]

theorem TagInfo.same_except_refl (k : Nat) (t : TagInfo) : t.same_except k t :=
  ⟨rfl, rfl, rfl, fun _ _ => ⟨rfl, rfl, rfl⟩⟩

theorem TagInfo.same_except_trans (k : Nat) (t u v : TagInfo) (h1 : t.same_except k u)
    (h2 : u.same_except k v) : t.same_except k v := by
  obtain ⟨a1, a2, a3, a4⟩ := h1
  obtain ⟨b1, b2, b3, b4⟩ := h2
  refine ⟨b1.trans a1, b2.trans a2, b3.trans a3, fun j hj => ?_⟩
  obtain ⟨c1, c2, c3⟩ := a4 j hj
  obtain ⟨d1, d2, d3⟩ := b4 j hj
  exact ⟨d1.trans c1, d2.trans c2, d3.trans c3⟩

/-- A change of the arrays by writes to their cells `k` only. -/
theorem TagInfo.same_except_of (k : Nat) (t u : TagInfo)
    (hI : u.frame_id = t.frame_id ∨ ∃ x, u.frame_id = t.frame_id.set k x)
    (hS : u.frame_Size = t.frame_Size ∨ ∃ x, u.frame_Size = t.frame_Size.set k x)
    (hD : u.frame_data = t.frame_data ∨ ∃ x, u.frame_data = t.frame_data.set k x) :
    t.same_except k u := by
  refine ⟨?_, ?_, ?_, fun j hj => ⟨?_, ?_, ?_⟩⟩
  · rcases hI with h | ⟨x, h⟩ <;> rw [h]; simp
  · rcases hS with h | ⟨x, h⟩ <;> rw [h]; simp
  · rcases hD with h | ⟨x, h⟩ <;> rw [h]; simp
  · rcases hI with h | ⟨x, h⟩ <;> rw [h]; exact getD_set_ne _ _ _ _ _ hj
  · rcases hS with h | ⟨x, h⟩ <;> rw [h]; exact getD_set_ne _ _ _ _ _ hj
  · rcases hD with h | ⟨x, h⟩ <;> rw [h]; exact getD_set_ne _ _ _ _ _ hj

theorem TagInfo.catalogued_of_same_except (k : Nat) (t u : TagInfo) (h : t.same_except k u)
    (hc : t.catalogued k) : u.catalogued k := by
  intro i hi
  rw [(h.2.2.2 i (by omega)).1]
  exact hc i hi

theorem TagInfo.catalogued_succ (k : Nat) (t : TagInfo) (hc : t.catalogued k)
    (hk : cstr (t.frame_id.getD k []) ∈ tags_name) : t.catalogued (k + 1) := by
  intro i hi
  by_cases h : i = k
  · rw [h]; exact hk
  · exact hc i (by omega)

/-- What one turn of the loop does to the index and to the table. -/
theorem display_turn_table (k : Nat) (fe : Int) (t : TagInfo) :
    (8 ≤ k → display_turn k fe t = Sum.inl (e_success, k, t))
      ∧ (∀ s k' t', display_turn k fe t = Sum.inl (s, k', t') →
          k' = k ∧ t.same_except k t' ∧ (t' ≠ t → k < 8))
      ∧ (∀ k' t', display_turn k fe t = Sum.inr (k', t') →
          k < 8 ∧ t.same_except k t'
            ∧ (k' = k ∨ (k' = k + 1
                ∧ (k < t.frame_id.length → cstr (t'.frame_id.getD k []) ∈ tags_name)))) := by
  refine ⟨?_, ?_, ?_⟩
  · intro hk
    unfold display_turn
    rw [if_neg]
    simp only [MAX_FRAME_COUNT, not_and]
    intro h; omega
  · intro s k' t' h
    unfold display_turn at h
    by_cases hc : k < MAX_FRAME_COUNT ∧ (t.fptr_src_mp3.pos : Int) < fe
    swap
    · rw [if_neg hc] at h
      have h' := Sum.inl.inj h
      rw [← (Prod.mk.inj (Prod.mk.inj h').2).1, ← (Prod.mk.inj (Prod.mk.inj h').2).2]
      exact ⟨rfl, TagInfo.same_except_refl k t, fun hne => absurd rfl hne⟩
    rw [if_pos hc] at h
    have hk8 : k < 8 := hc.1
    cases h1 : read_frame_id k t with
    | mk s1 t1 =>
    obtain ⟨a1, a2, a3⟩ := read_frame_id_table k t t1 s1 h1
    have hA : t.same_except k t1 := TagInfo.same_except_of k t t1
      (by rcases a3 with ⟨_, h⟩ | ⟨_, x, _, h⟩
          · exact Or.inl h
          · exact Or.inr ⟨x, h⟩) (Or.inl a1) (Or.inl a2)
    rw [h1] at h
    cases h2 : read_frame_size k t1 with
    | mk s2 t2 =>
    obtain ⟨b1, b2, b3⟩ := read_frame_size_table k t1 t2 s2 h2
    have hB : t1.same_except k t2 := TagInfo.same_except_of k t1 t2 (Or.inl b1) b3 (Or.inl b2)
    cases s1 with
    | e_failure =>
      simp only [h2] at h
      cases s2 with
      | e_failure =>
        have h' := Sum.inl.inj h
        rw [← (Prod.mk.inj (Prod.mk.inj h').2).1, ← (Prod.mk.inj (Prod.mk.inj h').2).2]
        exact ⟨rfl, TagInfo.same_except_trans k _ _ _ hA hB, fun _ => hk8⟩
      | e_success => cases h
    | e_success =>
      simp only [h2] at h
      cases s2 with
      | e_failure =>
        have h' := Sum.inl.inj h
        rw [← (Prod.mk.inj (Prod.mk.inj h').2).1, ← (Prod.mk.inj (Prod.mk.inj h').2).2]
        exact ⟨rfl, TagInfo.same_except_trans k _ _ _ hA hB, fun _ => hk8⟩
      | e_success =>
        simp only [] at h
        cases h3 : read_frame_data k
            { t2 with fptr_src_mp3 :=
                { t2.fptr_src_mp3 with pos := seek_cur t2.fptr_src_mp3.pos 3 } } with
        | mk s3 t3 =>
        obtain ⟨c1, c2, c3⟩ := read_frame_data_table k _ t3 s3 h3
        have hC : t2.same_except k t3 :=
          TagInfo.same_except_of k t2 t3 (Or.inl c1) (Or.inl c2) c3
        rw [h3] at h
        cases s3 with
        | e_failure =>
          have h' := Sum.inl.inj h
          rw [← (Prod.mk.inj (Prod.mk.inj h').2).1, ← (Prod.mk.inj (Prod.mk.inj h').2).2]
          exact ⟨rfl, TagInfo.same_except_trans k _ _ _ hA
            (TagInfo.same_except_trans k _ _ _ hB hC), fun _ => hk8⟩
        | e_success => cases h
  · intro k' t' h
    unfold display_turn at h
    by_cases hc : k < MAX_FRAME_COUNT ∧ (t.fptr_src_mp3.pos : Int) < fe
    swap
    · rw [if_neg hc] at h
      cases h
    rw [if_pos hc] at h
    have hk8 : k < 8 := hc.1
    cases h1 : read_frame_id k t with
    | mk s1 t1 =>
    obtain ⟨a1, a2, a3⟩ := read_frame_id_table k t t1 s1 h1
    have hA : t.same_except k t1 := TagInfo.same_except_of k t t1
      (by rcases a3 with ⟨_, h⟩ | ⟨_, x, _, h⟩
          · exact Or.inl h
          · exact Or.inr ⟨x, h⟩) (Or.inl a1) (Or.inl a2)
    rw [h1] at h
    cases h2 : read_frame_size k t1 with
    | mk s2 t2 =>
    obtain ⟨b1, b2, b3⟩ := read_frame_size_table k t1 t2 s2 h2
    have hB : t1.same_except k t2 := TagInfo.same_except_of k t1 t2 (Or.inl b1) b3 (Or.inl b2)
    cases s1 with
    | e_failure =>
      simp only [h2] at h
      cases s2 with
      | e_failure => cases h
      | e_success =>
        have h' := Sum.inr.inj h
        rw [← (Prod.mk.inj h').1, ← (Prod.mk.inj h').2]
        exact ⟨hk8, TagInfo.same_except_trans k _ _ _ hA hB, Or.inl rfl⟩
    | e_success =>
      simp only [h2] at h
      cases s2 with
      | e_failure => cases h
      | e_success =>
        simp only [] at h
        cases h3 : read_frame_data k
            { t2 with fptr_src_mp3 :=
                { t2.fptr_src_mp3 with pos := seek_cur t2.fptr_src_mp3.pos 3 } } with
        | mk s3 t3 =>
        obtain ⟨c1, c2, c3⟩ := read_frame_data_table k _ t3 s3 h3
        have hC : t2.same_except k t3 :=
          TagInfo.same_except_of k t2 t3 (Or.inl c1) (Or.inl c2) c3
        rw [h3] at h
        cases s3 with
        | e_failure => cases h
        | e_success =>
          have h' := Sum.inr.inj h
          rw [← (Prod.mk.inj h').1, ← (Prod.mk.inj h').2]
          refine ⟨hk8, TagInfo.same_except_trans k _ _ _ hA
            (TagInfo.same_except_trans k _ _ _ hB hC), Or.inr ⟨rfl, fun hkl => ?_⟩⟩
          rcases a3 with ⟨h, _⟩ | ⟨_, x, hx, hset⟩
          · cases h
          · rw [c1]
            show cstr (t2.frame_id.getD k []) ∈ tags_name
            rw [b1, hset, getD_set_self _ _ _ _ hkl]
            exact hx


/-- The invariant of the scan: index at most 8, arrays of 8 cells, catalogued entries. -/
theorem display_scan_invariant (fe : Int) (fuel : Nat) :
    ∀ (k : Nat) (t : TagInfo) (s : Status) (k' : Nat) (t' : TagInfo), k ≤ 8 →
      t.frame_id.length = 8 → t.catalogued k → display_scan fuel k fe t = some (s, k', t') →
      k' ≤ 8 ∧ t'.frame_id.length = 8 ∧ t'.catalogued k' := by
  induction fuel with
  | zero => intro k t s k' t' _ _ _ h; simp [display_scan] at h
  | succ n ih =>
    intro k t s k' t' hk hI hc h
    rw [display_scan_turn] at h
    obtain ⟨_, hl, hr⟩ := display_turn_table k fe t
    cases hd : display_turn k fe t with
    | inl r =>
      obtain ⟨s1, k1, t1⟩ := r
      rw [hd] at h
      have h' := Option.some.inj h
      obtain ⟨e1, hs, _⟩ := hl s1 k1 t1 hd
      rw [← (Prod.mk.inj (Prod.mk.inj h').2).1, ← (Prod.mk.inj (Prod.mk.inj h').2).2, e1]
      exact ⟨hk, hs.1.trans hI, TagInfo.catalogued_of_same_except k t t1 hs hc⟩
    | inr r =>
      obtain ⟨k1, t1⟩ := r
      rw [hd] at h
      obtain ⟨hk8, hs, hk1⟩ := hr k1 t1 hd
      have hc1 := TagInfo.catalogued_of_same_except k t t1 hs hc
      refine ih k1 t1 s k' t' ?_ (hs.1.trans hI) ?_ h
      · rcases hk1 with e | ⟨e, _⟩ <;> omega
      · rcases hk1 with e | ⟨e, hx⟩
        · rw [e]; exact hc1
        · rw [e]; exact TagInfo.catalogued_succ k t1 hc1 (hx (by omega))

/-- The lookup of the display loop finds an identifier of the catalog. -/
theorem label_lookup (x : List UInt8) (h : cstr x ∈ tags_name) :
    ∃ j, j < MAX_FRAME_COUNT ∧ strcmp x (tags_name.getD j []) = 0 := by
  obtain ⟨j, hj, e⟩ := List.getElem_of_mem h
  refine ⟨j, hj, ?_⟩
  rw [strcmp_eq_zero_iff, List.getD_eq_getElem _ _ hj, e,
    cstr_eq_self _ (tags_name_props _ h).2]

/-- C24 (table invariant of the reader).  The scan starts with index 0.  From a state with
`index ≤ 8`, arrays of 8 cells and catalogued identifiers in the cells below `index`, a turn
of the loop with `index = 8` writes nothing and ends the loop; any other turn changes the
three arrays in their cell `index < 8` at most, and leaves the index as it is or adds one to
it after having stored a catalogued identifier in that cell; so the state after the turn has
again `index ≤ 8` and catalogued identifiers below the index.  Hence every result of the scan
and of `display_tag` has this form, and the lookup of the display loop finds each stored
identifier in `tags_name`. -/
theorem reader_table_invariant :
    (∀ t : TagInfo, t.catalogued 0)
      ∧ (∀ (fe : Int) (k : Nat) (t : TagInfo), k ≤ 8 → t.frame_id.length = 8 → t.catalogued k →
          (8 ≤ k → display_turn k fe t = Sum.inl (e_success, k, t))
          ∧ (∀ s k' t', display_turn k fe t = Sum.inl (s, k', t') →
              k' ≤ 8 ∧ t'.frame_id.length = 8 ∧ t'.catalogued k' ∧ t.same_except k t'
                ∧ (t' ≠ t → k < 8))
          ∧ (∀ k' t', display_turn k fe t = Sum.inr (k', t') →
              k < 8 ∧ k' ≤ 8 ∧ t'.frame_id.length = 8 ∧ t'.catalogued k'
                ∧ t.same_except k t'))
      ∧ (∀ (fe : Int) (fuel k : Nat) (t : TagInfo),
          display_scan (fuel + 1) k fe t
            = match display_turn k fe t with
              | Sum.inl r => some r
              | Sum.inr (k', t') => display_scan fuel k' fe t')
      ∧ (∀ (fe : Int) (fuel k : Nat) (t : TagInfo) (s : Status) (k' : Nat) (t' : TagInfo),
          k ≤ 8 → t.frame_id.length = 8 → t.catalogued k →
          display_scan fuel k fe t = some (s, k', t') →
          k' ≤ 8 ∧ t'.frame_id.length = 8 ∧ t'.catalogued k')
      ∧ (∀ (fuel : Nat) (t : TagInfo) (s : Status) (k' : Nat) (t' : TagInfo),
          t.frame_id.length = 8 → display_tag fuel t = some (s, k', t') →
          k' ≤ 8 ∧ t'.catalogued k'
            ∧ ∀ i, i < k' →
                ∃ j, j < MAX_FRAME_COUNT
                  ∧ strcmp (t'.frame_id.getD i []) (tags_name.getD j []) = 0) := by
  refine ⟨fun t i hi => absurd hi (Nat.not_lt_zero i), ?_,
    fun fe fuel k t => display_scan_turn fuel k fe t, ?_, ?_⟩
  · intro fe k t hk hI hc
    obtain ⟨h0, hl, hr⟩ := display_turn_table k fe t
    refine ⟨h0, ?_, ?_⟩
    · intro s k' t' hd
      obtain ⟨e1, hs, hw⟩ := hl s k' t' hd
      rw [e1]
      exact ⟨hk, hs.1.trans hI, TagInfo.catalogued_of_same_except k t t' hs hc, hs, hw⟩
    · intro k' t' hd
      obtain ⟨hk8, hs, hk1⟩ := hr k' t' hd
      have hc1 := TagInfo.catalogued_of_same_except k t t' hs hc
      refine ⟨hk8, ?_, hs.1.trans hI, ?_, hs⟩
      · rcases hk1 with e | ⟨e, _⟩ <;> omega
      · rcases hk1 with e | ⟨e, hx⟩
        · rw [e]; exact hc1
        · rw [e]; exact TagInfo.catalogued_succ k t' hc1 (hx (by omega))
  · intro fe fuel
    exact display_scan_invariant fe fuel
  · intro fuel t s k' t' hI h
    unfold display_tag at h
    simp only [] at h
    obtain ⟨a, _, c⟩ := display_scan_invariant _ fuel 0
      { t with fptr_src_mp3 := { t.fptr_src_mp3 with pos := 10 } } s k' t' (by omega) hI
      (fun i hi => absurd hi (Nat.not_lt_zero i)) h
    exact ⟨a, c, fun i hi => label_lookup _ (c i hi)⟩

/-- Instance of C24: the table after the scan of a header, a `TPE1` frame, an `XXXX` frame
and a `TIT2` frame has two catalogued entries. -/
theorem reader_table_invariant_witness :
    2 ≤ 8
      ∧ TagInfo.catalogued 2
          { fptr_src_mp3 :=
              { data := demo_header ++ frames_bytes [demo_artist, demo_other, demo_title]
                pos := 53 }
            src_mp3_fname := ascii "a.mp3"
            frame_id := [ascii "TPE1" ++ [0], ascii "TIT2" ++ [0], [0, 0, 0, 0, 0],
              [0, 0, 0, 0, 0], [0, 0, 0, 0, 0], [0, 0, 0, 0, 0], [0, 0, 0, 0, 0], [0, 0, 0, 0, 0]]
            frame_Size := [3, 5, 0, 0, 0, 0, 0, 0]
            frame_data := [ascii "ab" ++ [0], ascii "Test" ++ [0], [], [], [], [], [], []] }
      ∧ ∀ i, i < 2 →
          ∃ j, j < MAX_FRAME_COUNT
            ∧ strcmp ([ascii "TPE1" ++ [0], ascii "TIT2" ++ [0], [0, 0, 0, 0, 0],
                [0, 0, 0, 0, 0], [0, 0, 0, 0, 0], [0, 0, 0, 0, 0], [0, 0, 0, 0, 0],
                [0, 0, 0, 0, 0]].getD i []) (tags_name.getD j []) = 0 :=
  reader_table_invariant.2.2.2.2 5
    (demo_tagInfo (demo_header ++ frames_bytes [demo_artist, demo_other, demo_title]))
    e_success 2 _ (by decide) (by decide)

/-! ## Editing twice -/

theorem frames_bytes_length_ge (B : List Frame) (hB : ∀ f ∈ B, f.Complete) :
    B.length ≤ (frames_bytes B).length := by
  induction B with
  | nil => simp [frames_bytes]
  | cons f B ih =>
    have h1 := Frame.bytes_length f (hB f (List.mem_cons_self _ _))
    have h2 := ih (fun g hg => hB g (List.mem_cons_of_mem _ hg))
    simp only [frames_bytes, List.length_append, List.length_cons]
    omega

/-- C23 (the edit is idempotent).  The input (shorter than `2 ^ 31` bytes) is a header,
complete frames other than the target, a complete frame with the target identifier and any
further bytes; `new_frame_size` is an `int` and `new_frame_data` has fewer than `2 ^ 31`
bytes.  If `edit_tag` succeeds on it, then the same request run on the output, with a fresh
output stream of the same capacity and fuel above the length of the output,
succeeds, and its output is the first output byte for byte. -/
theorem edit_idempotent (fuel fuel2 : Nat) (e e' x : Edit) (disk disk' dk : Disk)
    (hdr : List UInt8) (B : List Frame) (F : Frame) (R tgt : List UInt8)
    (hh : hdr.length = 10) (hB : ∀ f ∈ B, f.Complete ∧ f.id ≠ tgt)
    (hF : F.Complete) (hid : F.id = tgt)
    (hin : e.fptr_old.data = hdr ++ frames_bytes B ++ F.bytes ++ R)
    (hlen : e.fptr_old.data.length < 2147483648)
    (hnd : e.fptr_new.data = []) (hnp : e.fptr_new.pos = 0)
    (htgt : e.frame_id = tgt ++ [0]) (ht4 : tgt.length = 4) (hz : (0 : UInt8) ∉ tgt)
    (hlo : -2147483648 ≤ e.new_frame_size) (hhi : e.new_frame_size < 2147483648)
    (hPl : e.new_frame_data.length < 2147483648)
    (hrun : edit_tag fuel e disk = some (e_success, e', disk'))
    (hx1 : x.fptr_old.data = e'.fptr_new.data)
    (hx2 : x.fptr_new.data = []) (hx3 : x.fptr_new.pos = 0)
    (hx4 : x.fptr_new.cap = e.fptr_new.cap) (hx5 : x.frame_id = e.frame_id)
    (hx6 : x.new_frame_size = e.new_frame_size) (hx7 : x.new_frame_data = e.new_frame_data)
    (hf2 : e'.fptr_new.data.length < fuel2) :
    ∃ x', edit_tag fuel2 x dk
        = some (e_success, x', (replace_old_file e'.fptr_new.data dk).2)
      ∧ x'.fptr_new.data = e'.fptr_new.data := by
  have hrun2 := edit_tag_mono_add (B.length + R.length + 1) fuel e disk _ hrun
  rcases edit_tag_found (fuel + (B.length + R.length + 1)) e disk hdr B F R tgt hh hB hF hid hin
    hlen hnd hnp htgt ht4 hz (by omega) (by omega) with h | h
  swap
  · obtain ⟨_, e2, he2⟩ := h
    rw [hrun2] at he2
    cases (Prod.mk.inj (Option.some.inj he2)).1
  obtain ⟨⟨c1, c2, c3, c4, c5⟩, e2, he2, hd2⟩ := h
  rw [hrun2] at he2
  have he : e' = e2 := (Prod.mk.inj (Prod.mk.inj (Option.some.inj he2)).2).1
  subst he
  have hn2 : 2 ≤ e.new_frame_size := by omega
  have hn : ((e.new_frame_size - 1) % 18446744073709551616).toNat
      = (e.new_frame_size - 1).toNat := by omega
  have hdec : read_frame_size_swap
      (int_of_bytes (bytes_of_int (replace_edit_frame_size_swap e.new_frame_size)))
      = e.new_frame_size := by
    have hr := toI32_range (16777216 * (toU32 e.new_frame_size % 256)
        + 65536 * (toU32 e.new_frame_size / 256 % 256)
        + 256 * (toU32 e.new_frame_size / 65536 % 256) + toU32 e.new_frame_size / 16777216)
    rw [← replace_edit_frame_size_swap_eq] at hr
    rw [int_of_bytes_of_int _ hr.1 hr.2]
    exact swap_swap e.new_frame_size hlo hhi
  have hG : ∃ G : Frame, G.id = F.id ∧ G.flags = F.flags
      ∧ G.size_field = bytes_of_int (replace_edit_frame_size_swap e.new_frame_size)
      ∧ G.payload = (e.new_frame_data ++ [0]).take
          ((e.new_frame_size - 1) % 18446744073709551616).toNat
      ∧ G.Complete := by
    refine ⟨{ id := F.id
              size_field := bytes_of_int (replace_edit_frame_size_swap e.new_frame_size)
              flags := F.flags
              payload := (e.new_frame_data ++ [0]).take
                ((e.new_frame_size - 1) % 18446744073709551616).toNat },
      rfl, rfl, rfl, rfl, ⟨hF.1, by simp [bytes_of_int], hF.2.2.1, ?_⟩⟩
    simp only [Frame.size]
    rw [hdec, List.length_take, List.length_append, List.length_singleton,
      Nat.min_eq_left c4]
    omega
  obtain ⟨G, hGid, hGfl, hGsz, hGp, hGc⟩ := hG
  have hout : e'.fptr_new.data = hdr ++ frames_bytes B ++ G.bytes ++ R := by
    rw [hd2]
    simp only [Frame.bytes, hGid, hGfl, hGsz, hGp, List.append_assoc]
  have hGl : G.payload.length = ((e.new_frame_size - 1) % 18446744073709551616).toNat := by
    rw [hGp, List.length_take, List.length_append, List.length_singleton, Nat.min_eq_left c4]
  have hGb := Frame.bytes_length G hGc
  have hFb := Frame.bytes_length F hF
  have hol : e'.fptr_new.data.length
      = 10 + (frames_bytes B).length + 11
        + ((e.new_frame_size - 1) % 18446744073709551616).toNat + R.length := by
    rw [hout]; simp only [List.length_append, hh, hGb, hGl]; omega
  have hil : e.fptr_old.data.length
      = 10 + (frames_bytes B).length + 11 + F.payload.length + R.length := by
    rw [hin]; simp only [List.length_append, hh, hFb]; omega
  have hBl := frames_bytes_length_ge B (fun f hf => (hB f hf).1)
  by_cases hsmall : e'.fptr_new.data.length < 2147483648
  · rcases edit_tag_found fuel2 x dk hdr B G R tgt hh hB hGc (hGid.trans hid)
      (hx1.trans hout) (by rw [hx1]; exact hsmall) hx2 hx3 (hx5.trans htgt) ht4 hz
      (by omega) (by omega) with h | h
    · obtain ⟨_, x', hx', hxd⟩ := h
      rw [hx6, hx7, hGid, hGfl, ← hd2] at hx' hxd
      exact ⟨x', hx', hxd⟩
    · exfalso
      apply h.1
      rw [hx6, hx7, hx4]
      refine ⟨c1, ?_, c3, c4, c5⟩
      intro hp
      rw [hp] at hGl
      simp only [List.length_nil] at hGl
      omega
  · have hR0 : e'.fptr_new.data = hdr ++ (frames_bytes B ++ G.bytes ++ R) := by
      rw [hout]; simp only [List.append_assoc]
    obtain ⟨x', hx', hxd⟩ := edit_tag_skip fuel2 x dk hdr (frames_bytes B ++ G.bytes ++ R) hh
      (hx1.trans hR0)
      (by rw [hx1]
          have := wrap32_neg e'.fptr_new.data.length (by omega) (by omega)
          omega)
      hx2 hx3 (by rw [hx1, hx4]; omega)
      (by have := congrArg List.length hR0
          simp only [List.length_append, hh] at this
          simp only [List.length_append]
          omega)
    rw [hx1] at hx' hxd
    exact ⟨x', hx', hxd⟩


/-- Instance of C23: the file edited with `Song ` is edited again with `Song `; the second
output is the first one. -/
theorem edit_idempotent_witness :
    ∃ x', edit_tag 42
        (demo_edit (demo_header ++ demo_artist.bytes ++ ascii "TIT2" ++ [0, 0, 0, 5]
          ++ [0, 0, 0] ++ ascii "Song" ++ demo_audio))
        (demo_disk [])
        = some (e_success, x',
            (replace_old_file (demo_header ++ demo_artist.bytes ++ ascii "TIT2" ++ [0, 0, 0, 5]
              ++ [0, 0, 0] ++ ascii "Song" ++ demo_audio) (demo_disk [])).2)
      ∧ x'.fptr_new.data
        = demo_header ++ demo_artist.bytes ++ ascii "TIT2" ++ [0, 0, 0, 5] ++ [0, 0, 0]
          ++ ascii "Song" ++ demo_audio :=
  edit_idempotent 5 42
    (demo_edit (demo_header ++ frames_bytes [demo_artist] ++ demo_title.bytes ++ demo_audio))
    _
    (demo_edit (demo_header ++ demo_artist.bytes ++ ascii "TIT2" ++ [0, 0, 0, 5]
      ++ [0, 0, 0] ++ ascii "Song" ++ demo_audio))
    (demo_disk []) _ (demo_disk [])
    demo_header [demo_artist] demo_title demo_audio (ascii "TIT2")
    (by decide) (by decide) (by decide) (by decide) rfl (by decide) rfl rfl rfl (by decide)
    (by decide) (by decide) (by decide) (by decide) rfl (by decide) rfl rfl rfl rfl rfl rfl
    (by decide)

end Mp3
